import Mathlib

/-!
# Biendata-Frontend: map panel layer lifecycle

A shallow embedding of `src/components/Map.js`.  The map engine (a third-party
library) is modelled as a store of named sources and layers that records the
mutating calls it receives; the component functions are translated statement by
statement on top of it.
-/

namespace Biendata

/-! ## JavaScript values and objects -/

/-- JavaScript values that occur in the settings objects and in paint
properties: numbers, strings and booleans.  A missing key (`undefined`) is the
`none` of a lookup. -/
inductive JsVal where
  | num (q : ℚ)
  | str (s : String)
  | bool (b : Bool)
  deriving DecidableEq

/-- JavaScript truthiness, as used by `&&` and `? :`. -/
def JsVal.truthy : JsVal → Bool
  | .num q => decide (q ≠ 0)
  | .str s => decide (s ≠ "")
  | .bool b => b

/-- Values of layout properties as the style specification types them: a string
(`'visible'`, `'none'`, a text-field template) or an expression (an array or
object, always truthy). -/
inductive LayoutVal where
  | str (s : String)
  | expr
  deriving DecidableEq

/-- JavaScript truthiness of a layout value. -/
def LayoutVal.truthy : LayoutVal → Bool
  | .str s => decide (s ≠ "")
  | .expr => true

/-- Property read `o[key]` on an object given as a key/value list. -/
def getProp {β : Type} : List (String × β) → String → Option β
  | [], _ => none
  | (k, v) :: rest, key => if k = key then some v else getProp rest key

/-- Property write `o[key] = v`: overwrite in place or append a new key. -/
def setProp {β : Type} : List (String × β) → String → β → List (String × β)
  | [], key, v => [(key, v)]
  | (k, w) :: rest, key, v =>
    if k = key then (k, v) :: rest else (k, w) :: setProp rest key v

/-- The `visibilitySettings` / `opacitySettings` props: open maps from layer
name to value. -/
abbrev Settings := List (String × JsVal)

/-! ## Engine data -/

/-- A parsed GeoJSON geometry, kept as an uninterpreted payload. -/
structure Geometry where
  json : String
  deriving DecidableEq

/-- One GeoJSON feature; `properties` holds `species` and `gid` for
observations and is absent for the range feature. -/
structure Feature where
  geometry : Geometry
  properties : Option (String × Int)
  deriving DecidableEq

/-- The `data` of a GeoJSON source. -/
inductive SourceData where
  | feature (f : Feature)
  | featureCollection (features : List Feature)
  deriving DecidableEq

/-- A named engine source. -/
structure Source where
  id : String
  data : SourceData
  deriving DecidableEq

/-- An engine rendering layer: a style layer or one added by `addLayer`. -/
structure Layer where
  id : String
  type : String
  source : Option String
  layout : Option (List (String × LayoutVal))
  paint : List (String × JsVal)
  deriving DecidableEq

/-- A layer with one layout property set. -/
def Layer.setLayout (l : Layer) (name : String) (value : LayoutVal) : Layer :=
  { l with layout := some (setProp (l.layout.getD []) name value) }

/-- A layer with one paint property set. -/
def Layer.setPaint (l : Layer) (name : String) (value : JsVal) : Layer :=
  { l with paint := setProp l.paint name value }

/-- The mutating engine calls the component makes. -/
inductive Call where
  | addSource (id : String) (data : SourceData)
  | removeSource (id : String)
  | addLayer (layer : Layer)
  | removeLayer (id : String)
  | setLayoutProperty (id : String) (name : String) (value : LayoutVal)
  | setPaintProperty (id : String) (name : String) (value : JsVal)
  deriving DecidableEq

/-- Modelled from the spec: the map engine, a third-party library that is not
part of the repository.  It "produces/consumes named sources and layers
identified by fixed string IDs": sources and layers are kept by ID, removing an
ID leaves none with it, and a source or layer whose ID is taken is not added a
second time.  `log` records every source, layer and property call received,
in order. -/
structure MapEngine where
  sources : List Source
  layers : List Layer
  log : List Call
  deriving DecidableEq

namespace MapEngine

/-- Engine query `map.getSource(id)`; `none` is `undefined`. -/
def getSource (m : MapEngine) (id : String) : Option Source :=
  m.sources.find? (fun s => s.id = id)

/-- Engine query `map.getLayer(id)`; `none` is `undefined`. -/
def getLayer (m : MapEngine) (id : String) : Option Layer :=
  m.layers.find? (fun l => l.id = id)

/-- Engine query `map.getStyle().layers`. -/
def styleLayers (m : MapEngine) : List Layer := m.layers

/-- Engine call `map.removeLayer(id)`: afterwards no layer has this ID. -/
def removeLayer (m : MapEngine) (id : String) : MapEngine :=
  { m with layers := m.layers.filter (fun l => !decide (l.id = id)), log := m.log ++ [.removeLayer id] }

/-- Engine call `map.removeSource(id)`: throws when there is no such source
(the error carries the engine as it is at the throw), otherwise no source has
this ID afterwards. -/
def removeSource (m : MapEngine) (id : String) : Except MapEngine MapEngine :=
  let m1 := { m with log := m.log ++ [.removeSource id] }
  if (m.getSource id).isSome then
    .ok { m1 with sources := m.sources.filter (fun s => !decide (s.id = id)) }
  else .error m1

/-- Engine call `map.addSource(id, {type: 'geojson', data})`: throws when the
ID is taken, otherwise the source is added. -/
def addSource (m : MapEngine) (id : String) (data : SourceData) : Except MapEngine MapEngine :=
  let m1 := { m with log := m.log ++ [.addSource id data] }
  if (m.getSource id).isSome then .error m1
  else .ok { m1 with sources := m.sources ++ [{ id := id, data := data }] }

/-- Engine call `map.addLayer(layer)`: the layer goes on top of the stack; a
layer whose ID is taken is rejected (an error event, no exception). -/
def addLayer (m : MapEngine) (layer : Layer) : MapEngine :=
  let m1 := { m with log := m.log ++ [.addLayer layer] }
  if (m.getLayer layer.id).isSome then m1
  else { m1 with layers := m.layers ++ [layer] }

/-- Engine call `map.setLayoutProperty(id, name, value)`; no effect on the
layers when there is no layer `id` (an error event, no exception). -/
def setLayoutProperty (m : MapEngine) (id name : String) (value : LayoutVal) : MapEngine :=
  { m with
    layers := m.layers.map (fun l => if l.id = id then l.setLayout name value else l)
    log := m.log ++ [.setLayoutProperty id name value] }

/-- Engine call `map.setPaintProperty(id, name, value)`; no effect on the
layers when there is no layer `id`. -/
def setPaintProperty (m : MapEngine) (id name : String) (value : JsVal) : MapEngine :=
  { m with
    layers := m.layers.map (fun l => if l.id = id then l.setPaint name value else l)
    log := m.log ++ [.setPaintProperty id name value] }

end MapEngine

/-- The effective visibility of a layer: its `visibility` layout property,
`'visible'` when unset. -/
def Layer.visibility (l : Layer) : LayoutVal :=
  ((l.layout.bind (fun o => getProp o "visibility"))).getD (.str "visible")

/-! ## Component state -/

/-- The refs of the `Map` component that the layer logic reads and writes:
`map.current` (`none` before the map is created) and the two cached label-ID
lists. -/
structure MapPanel where
  map : Option MapEngine
  countryLabelLayerIDs : List String
  otherLabelLayerIDs : List String
  deriving DecidableEq

/-- Outcome of `await fetch(...)` followed by `await res.json()`. -/
inductive Response (α : Type) where
  | networkError
  | httpError (status : Nat)
  | badJson
  | ok (body : α)

/-- One record of the observations response. -/
structure ObsRecord where
  geojson_geom : String
  species : String
  gid : Int
  deriving DecidableEq

/-- The expression `settings && settings[key] ? settings[key] : dflt`. -/
def truthyOr (settings : Option Settings) (key : String) (dflt : JsVal) : JsVal :=
  match settings with
  | none => dflt
  | some o =>
    match getProp o key with
    | some v => if v.truthy then v else dflt
    | none => dflt

/-- The expression `settings && settings[key] !== undefined ? settings[key] : dflt`. -/
def definedOr (settings : Option Settings) (key : String) (dflt : JsVal) : JsVal :=
  match settings with
  | none => dflt
  | some o =>
    match getProp o key with
    | some v => v
    | none => dflt

/-- The expression `settings && settings[key] === false ? 'none' : 'visible'`. -/
def visibilityOf (settings : Option Settings) (key : String) : LayoutVal :=
  match settings with
  | none => .str "visible"
  | some o =>
    match getProp o key with
    | some (.bool false) => .str "none"
    | _ => .str "visible"

/-- The layer object literal passed to `addLayer` for the range overlay (the
same literal in `fetchSpeciesRange` and `reAddLayersAndSettings`); `mkRat 1 2`
is the literal `0.5`. -/
def speciesRangeLayer (opacitySettings : Option Settings) : Layer :=
  { id := "speciesRangeLayer"
    type := "fill"
    source := some "speciesRange"
    layout := some []
    paint := [("fill-color", .str "rgba(34, 139, 34, 0.5)"),
              ("fill-opacity", truthyOr opacitySettings "Range" (.num (mkRat 1 2)))] }

/-- The layer object literal passed to `addLayer` for the observations overlay
(the same literal in `fetchSpeciesObservations` and `reAddLayersAndSettings`);
`mkRat 4 5` is the literal `0.8`. -/
def observationsLayer (opacitySettings : Option Settings) : Layer :=
  { id := "observationsLayer"
    type := "circle"
    source := some "observations"
    layout := some []
    paint := [("circle-radius", .num 4),
              ("circle-color", .str "#ff4500"),
              ("circle-stroke-color", .str "#ffffff"),
              ("circle-opacity", truthyOr opacitySettings "Observations" (.num (mkRat 4 5))),
              ("circle-stroke-width", .num 1)] }

/-- The end of a `try` block: whether it ran through or threw, the engine is
left as it was at that point. -/
def caught (r : Except MapEngine MapEngine) : MapEngine :=
  match r with
  | .ok m => m
  | .error m => m

/-- The block `if (getSource(src)) { if (getLayer(lyr)) removeLayer(lyr); removeSource(src) }`. -/
def removeOverlay (m : MapEngine) (src lyr : String) : Except MapEngine MapEngine :=
  if (m.getSource src).isSome then
    (if (m.getLayer lyr).isSome then m.removeLayer lyr else m).removeSource src
  else .ok m

/-- Function `fetchSpeciesRange` from the point where the response has arrived.
`opacitySettings` is the prop the closure captured.  The camera move
(`fitBounds`) that follows `addLayer` touches no source or layer and is not
modelled. -/
def fetchSpeciesRange (opacitySettings : Option Settings) (res : Response Geometry)
    (p : MapPanel) : MapPanel :=
  match res with
  | .ok range =>
    match p.map with
    | none => p
    | some m =>
      { p with map := some (caught (do
          let m1 ← removeOverlay m "speciesRange" "speciesRangeLayer"
          let m2 ← m1.addSource "speciesRange" (.feature { geometry := range, properties := none })
          pure (m2.addLayer (speciesRangeLayer opacitySettings)))) }
  | _ => p

/-- The `data.map(...)` that builds the features; `none` when `JSON.parse`
throws on some record. -/
def buildFeatures (jsonParse : String → Option Geometry) : List ObsRecord → Option (List Feature)
  | [] => some []
  | item :: rest =>
    match jsonParse item.geojson_geom with
    | none => none
    | some g =>
      match buildFeatures jsonParse rest with
      | none => none
      | some fs => some ({ geometry := g, properties := some (item.species, item.gid) } :: fs)

/-- Function `fetchSpeciesObservations` from the point where the response has
arrived.  `jsonParse` stands for `JSON.parse` (`none` when it throws). -/
def fetchSpeciesObservations (jsonParse : String → Option Geometry)
    (opacitySettings : Option Settings) (res : Response (List ObsRecord))
    (p : MapPanel) : MapPanel :=
  match res with
  | .ok data =>
    match p.map with
    | none => p
    | some m =>
      if data.length = 0 then
        { p with map := some (caught (removeOverlay m "observations" "observationsLayer")) }
      else
        match buildFeatures jsonParse data with
        | none => p
        | some features =>
          { p with map := some (caught (do
              let m1 ← removeOverlay m "observations" "observationsLayer"
              let m2 ← m1.addSource "observations" (.featureCollection features)
              pure (m2.addLayer (observationsLayer opacitySettings)))) }
  | _ => p

/-! ## Label layers and reconciliation -/

/-- The method `s.toLowerCase()`.  Only ASCII letters are folded, which agrees
with the JavaScript method on whether the result contains `label` or
`country`: no other character lower-cases to a letter of these words. -/
def toLowerCase (s : String) : String := ⟨s.data.map Char.toLower⟩

/-- The method `s.includes(t)`: `t` occurs in `s` as a contiguous substring. -/
def includes (s t : String) : Bool := s.data.tails.any (fun u => t.data.isPrefixOf u)

/-- The value `layer.layout && layer.layout['text-field']`, as a condition. -/
def hasTextField (layer : Layer) : Bool :=
  match layer.layout with
  | none => false
  | some o =>
    match getProp o "text-field" with
    | none => false
    | some v => v.truthy

/-- The object `{ countryLabels, otherLabels }` returned by `getLabelLayerIDs`. -/
structure LabelLayerIDs where
  countryLabels : List String
  otherLabels : List String
  deriving DecidableEq

/-- Function `getLabelLayerIDs`: one pass over `getStyle().layers`, pushing each
label layer's id onto one of the two lists. -/
def getLabelLayerIDs (mapInstance : MapEngine) : LabelLayerIDs :=
  mapInstance.styleLayers.foldl (fun acc layer =>
    if layer.type = "symbol" ∧ hasTextField layer = true ∧
        includes (toLowerCase layer.id) "label" = true then
      if includes (toLowerCase layer.id) "country" = true then
        { acc with countryLabels := acc.countryLabels ++ [layer.id] }
      else
        { acc with otherLabels := acc.otherLabels ++ [layer.id] }
    else acc) { countryLabels := [], otherLabels := [] }

/-- The loop `ids.forEach((layerID) => { setLayoutProperty(layerID, 'visibility', v);
setPaintProperty(layerID, 'text-opacity', o) })` of `reAddLayersAndSettings`. -/
def applyLabelSettings (m : MapEngine) (ids : List String) (v : LayoutVal) (o : JsVal) :
    MapEngine :=
  ids.foldl (fun m layerID =>
    (m.setLayoutProperty layerID "visibility" v).setPaintProperty layerID "text-opacity" o) m

/-- Function `reAddLayersAndSettings`, with the two settings props its closure
captured.  It is only called from engine event handlers, where `map.current`
is set. -/
def reAddLayersAndSettings (visibilitySettings opacitySettings : Option Settings)
    (p : MapPanel) : MapPanel :=
  match p.map with
  | none => p
  | some m =>
    let ids := getLabelLayerIDs m
    let opacityCountryLabel := definedOr opacitySettings "Country Label" (.num 1)
    let visibilityCountryLabel := visibilityOf visibilitySettings "Country Label"
    let m1 := applyLabelSettings m ids.countryLabels visibilityCountryLabel opacityCountryLabel
    let opacityOtherLabels := definedOr opacitySettings "State and City Labels" (.num 1)
    let visibilityOtherLabels := visibilityOf visibilitySettings "State and City Labels"
    let m2 := applyLabelSettings m1 ids.otherLabels visibilityOtherLabels opacityOtherLabels
    let m3 := if (m2.getSource "speciesRange").isSome then
        m2.addLayer (speciesRangeLayer opacitySettings) else m2
    let m4 := if (m3.getSource "observations").isSome then
        m3.addLayer (observationsLayer opacitySettings) else m3
    { map := some m4, countryLabelLayerIDs := ids.countryLabels,
      otherLabelLayerIDs := ids.otherLabels }

/-! ## Settings effects -/

/-- The effect `useEffect(..., [visibilitySettings])`. -/
def useEffect_visibilitySettings (visibilitySettings : Option Settings) (p : MapPanel) :
    MapPanel :=
  match p.map with
  | none => p
  | some m =>
    let m1 := if (m.getLayer "speciesRangeLayer").isSome then
        m.setLayoutProperty "speciesRangeLayer" "visibility"
          (visibilityOf visibilitySettings "Range")
      else m
    let m2 := if (m1.getLayer "observationsLayer").isSome then
        m1.setLayoutProperty "observationsLayer" "visibility"
          (visibilityOf visibilitySettings "Observations")
      else m1
    let m3 := if p.countryLabelLayerIDs.length > 0 then
        p.countryLabelLayerIDs.foldl (fun m layerID =>
          m.setLayoutProperty layerID "visibility"
            (visibilityOf visibilitySettings "Country Label")) m2
      else m2
    let m4 := if p.otherLabelLayerIDs.length > 0 then
        p.otherLabelLayerIDs.foldl (fun m layerID =>
          m.setLayoutProperty layerID "visibility"
            (visibilityOf visibilitySettings "State and City Labels")) m3
      else m3
    { p with map := some m4 }

/-- The effect `useEffect(..., [opacitySettings])`. -/
def useEffect_opacitySettings (opacitySettings : Option Settings) (p : MapPanel) : MapPanel :=
  match p.map with
  | none => p
  | some m =>
    let m1 := if (m.getLayer "speciesRangeLayer").isSome then
        m.setPaintProperty "speciesRangeLayer" "fill-opacity"
          (truthyOr opacitySettings "Range" (.num (mkRat 1 2)))
      else m
    let m2 := if (m1.getLayer "observationsLayer").isSome then
        m1.setPaintProperty "observationsLayer" "circle-opacity"
          (truthyOr opacitySettings "Observations" (.num (mkRat 4 5)))
      else m1
    let m3 := if p.countryLabelLayerIDs.length > 0 then
        p.countryLabelLayerIDs.foldl (fun m layerID =>
          m.setPaintProperty layerID "text-opacity"
            (definedOr opacitySettings "Country Label" (.num 1))) m2
      else m2
    let m4 := if p.otherLabelLayerIDs.length > 0 then
        p.otherLabelLayerIDs.foldl (fun m layerID =>
          m.setPaintProperty layerID "text-opacity"
            (definedOr opacitySettings "State and City Labels" (.num 1))) m3
      else m3
    { p with map := some m4 }

/-! ## Vocabulary of the properties -/

/-- Number of sources with a given id. -/
def sourceCount (m : MapEngine) (id : String) : Nat :=
  m.sources.countP (fun s => decide (s.id = id))

/-- Number of layers with a given id. -/
def layerCount (m : MapEngine) (id : String) : Nat :=
  m.layers.countP (fun l => decide (l.id = id))

/-- A stand-in for `JSON.parse` on concrete inputs: the empty string is not
valid JSON. -/
def sampleParse (s : String) : Option Geometry :=
  if s = "" then none else some { json := s }

/-- A small basemap style: a background layer, two label layers and a symbol
layer without text. -/
def sampleStyle : MapEngine :=
  { sources := [{ id := "composite", data := .featureCollection [] }]
    layers := [
      { id := "land", type := "background", source := none, layout := none, paint := [] },
      { id := "country-label", type := "symbol", source := some "composite",
        layout := some [("text-field", .expr)], paint := [] },
      { id := "settlement-Label", type := "symbol", source := some "composite",
        layout := some [("text-field", .str "{name}")], paint := [] },
      { id := "poi-label", type := "symbol", source := some "composite",
        layout := some [("text-field", .str "")], paint := [] }]
    log := [] }

/-- The component right after the map was created on `sampleStyle`. -/
def samplePanel : MapPanel :=
  { map := some sampleStyle, countryLabelLayerIDs := [], otherLabelLayerIDs := [] }

/-- The entry of a layer name in a settings prop: `none` when the key is
absent or no settings object is supplied. -/
def entry (settings : Option Settings) (name : String) : Option JsVal :=
  settings.bind (fun o => getProp o name)

/-- The layer's visibility is `'none'` when the setting of `name` is exactly
`false` and `'visible'` in every other case. -/
def ShowsVisibilitySetting (settings : Option Settings) (name : String) (l : Layer) : Prop :=
  (entry settings name = some (.bool false) → l.visibility = .str "none") ∧
  (entry settings name ≠ some (.bool false) → l.visibility = .str "visible")

/-- The layer's paint property `prop` is the opacity setting of `name`, or
`dflt` when there is no such entry. -/
def ShowsOpacitySetting (settings : Option Settings) (name prop : String) (dflt : ℚ)
    (l : Layer) : Prop :=
  (∀ x, entry settings name = some x → getProp l.paint prop = some x) ∧
  (entry settings name = none → getProp l.paint prop = some (.num dflt))

/-- The data model's range of an opacity entry: when present it is a number in
`[0.1, 1.0]`. -/
def OpacityInRange (settings : Option Settings) (name : String) : Prop :=
  ∀ x, entry settings name = some x → ∃ q : ℚ, x = .num q ∧ 1 / 10 ≤ q ∧ q ≤ 1

/-- What one round of the label loop of `reAddLayersAndSettings` does to a
layer it addresses. -/
def Layer.withLabelSettings (v : LayoutVal) (o : JsVal) (l : Layer) : Layer :=
  (l.setLayout "visibility" v).setPaint "text-opacity" o

/-- The call sets a layout or a paint property. -/
def Call.isPropertyCall : Call → Bool
  | .setLayoutProperty _ _ _ => true
  | .setPaintProperty _ _ _ => true
  | _ => false

/-- The word `w` occurs in `s` as a contiguous substring when letter case is
ignored. -/
def ContainsIgnoringCase (s w : String) : Prop :=
  ∃ pre mid post : List Char, s.data = pre ++ mid ++ post ∧
    mid.map Char.toLower = w.data.map Char.toLower

/-- The layer has a layout whose `text-field` is set and is not the empty
string. -/
def NonEmptyTextField (layer : Layer) : Prop :=
  ∃ o v, layer.layout = some o ∧ getProp o "text-field" = some v ∧ v ≠ .str ""

/-- The condition under which `getLabelLayerIDs` pushes a layer's id. -/
def isLabelLayer (layer : Layer) : Bool :=
  decide (layer.type = "symbol") && hasTextField layer && includes (toLowerCase layer.id) "label"

/-- A freshly loaded basemap style on a map that kept the two overlay sources
of an earlier search: the style's own layers, no overlay layer. -/
def swappedStyle : MapEngine :=
  { sources := [{ id := "composite", data := .featureCollection [] },
                { id := "speciesRange", data := .feature ⟨{ json := "r1" }, none⟩ },
                { id := "observations",
                  data := .featureCollection [⟨{ json := "a" }, some ("Pinus_ponderosa", 1)⟩] }]
    layers := sampleStyle.layers
    log := [] }

/-- The map after a search has shown both overlays on `sampleStyle`. -/
def shownMap : MapEngine :=
  { swappedStyle with
    layers := sampleStyle.layers ++ [speciesRangeLayer none, observationsLayer none] }

/-- The component after a search has shown both overlays on `sampleStyle`. -/
def shownPanel : MapPanel :=
  { map := some shownMap
    countryLabelLayerIDs := ["country-label"]
    otherLabelLayerIDs := ["settlement-Label"] }

/-- The component at a `style.load` after a basemap swap: sources kept, layers
of the new style only, label caches still those of the old style. -/
def swappedPanel : MapPanel :=
  { map := some swappedStyle
    countryLabelLayerIDs := ["old-country-label"]
    otherLabelLayerIDs := ["old-place-label"] }

/-- Visibility settings in which the user has hidden both overlays. -/
def hiddenOverlays : Settings :=
  [("Range", .bool false), ("Observations", .bool false), ("Country Label", .bool true)]

/-- The Page's initial `opacitySettings`. -/
def initialOpacity : Settings :=
  [("Range", .num 1), ("Observations", .num 1), ("Country Label", .num 1)]

/-! ## Species names and the remote API -/

/-- The class `\s` of a JavaScript regular expression. -/
def isWhiteSpace (c : Char) : Bool :=
  let n := c.toNat
  (9 ≤ n && n ≤ 13) || n = 0x20 || n = 0xA0 || n = 0x1680 || (0x2000 ≤ n && n ≤ 0x200A) ||
    n = 0x2028 || n = 0x2029 || n = 0x202F || n = 0x205F || n = 0x3000 || n = 0xFEFF

/-- The replacement `/\s+/g` to `'_'` on a list of characters: `inRun` tells
whether the previous character was white space (its run already has its
underscore). -/
def replaceRuns (inRun : Bool) : List Char → List Char
  | [] => []
  | c :: rest =>
    if isWhiteSpace c then
      if inRun then replaceRuns true rest else '_' :: replaceRuns true rest
    else c :: replaceRuns false rest

/-- Function `formatSpeciesName`: `name.replace(/\s+/g, '_')`. -/
def formatSpeciesName (name : String) : String := ⟨replaceRuns false name.data⟩

/-- The remote API as the component sees it: the outcome of `POST /api/range`
and of `POST /api/observations` for the `species` value of the request body. -/
structure Api where
  range : String → Response Geometry
  observations : String → Response (List ObsRecord)

/-- A whole call `fetchSpeciesRange(species)`: the request carries
`formatSpeciesName(species)` and the function goes on with the API's answer. -/
def fetchSpeciesRangeFor (api : Api) (opacitySettings : Option Settings) (species : String)
    (p : MapPanel) : MapPanel :=
  fetchSpeciesRange opacitySettings (api.range (formatSpeciesName species)) p

/-- A whole call `fetchSpeciesObservations(species)`. -/
def fetchSpeciesObservationsFor (api : Api) (jsonParse : String → Option Geometry)
    (opacitySettings : Option Settings) (species : String) (p : MapPanel) : MapPanel :=
  fetchSpeciesObservations jsonParse opacitySettings
    (api.observations (formatSpeciesName species)) p

/-! ## Basemap swap -/

/-- Modelled from the spec: the engine call `map.setStyle(url)`, from the
third-party engine.  "A basemap style swap clears all previously added layers
but not previously added sources": the layers become those of the new style,
the sources stay. -/
def MapEngine.setStyle (m : MapEngine) (newStyle : List Layer) : MapEngine :=
  { m with layers := newStyle }

/-- The synchronous part of the listener registered with
`map.current.on('style.load', ...)`; `setFog` touches no source or layer and
is not modelled.  The two fetches it starts complete later, see
`styleLoadFetches`. -/
def onStyleLoad (visibilitySettings opacitySettings : Option Settings) (p : MapPanel) :
    MapPanel :=
  reAddLayersAndSettings visibilitySettings opacitySettings p

/-- Completion of `fetchSpeciesRange('Pinus ponderosa')` and
`fetchSpeciesObservations('Pinus ponderosa')`, started by the `style.load`
listener. -/
def styleLoadFetches (api : Api) (jsonParse : String → Option Geometry)
    (opacitySettings : Option Settings) (p : MapPanel) : MapPanel :=
  fetchSpeciesObservationsFor api jsonParse opacitySettings "Pinus ponderosa"
    (fetchSpeciesRangeFor api opacitySettings "Pinus ponderosa" p)

/-- Handler `terrainButton.onclick` followed by the `style.load` event it
causes: `setStyle`, then the listeners of the event in the engine's order, the
permanent one (`on`) before the one-time one (`once`). -/
def terrainToggle (newStyle : List Layer) (visibilitySettings opacitySettings : Option Settings)
    (p : MapPanel) : MapPanel :=
  match p.map with
  | none => p
  | some m =>
    let p1 := { p with map := some (m.setStyle newStyle) }
    let p2 := onStyleLoad visibilitySettings opacitySettings p1
    reAddLayersAndSettings visibilitySettings opacitySettings p2

/-! ## Page and Sidebar -/

/-- The four layer names the Sidebar renders its controls for. -/
def layerNames : List String :=
  ["Range", "Observations", "Country Label", "State and City Labels"]

/-- The expression `!o[key]`; `!undefined` is `true`. -/
def notProp (o : Settings) (key : String) : Bool :=
  match getProp o key with
  | none => true
  | some v => !v.truthy

/-- Object spread `{ ...a, ...b }`. -/
def spread (a b : Settings) : Settings :=
  b.foldl (fun o kv => setProp o kv.1 kv.2) a

/-- State of the page component `Home`. -/
structure Home where
  visibilitySettings : Settings
  opacitySettings : Settings
  deriving DecidableEq

/-- The initial state of `Home`. -/
def Home.initial : Home :=
  { visibilitySettings :=
      [("Range", .bool true), ("Observations", .bool true), ("Country Label", .bool true)]
    opacitySettings := [("Range", .num 1), ("Observations", .num 1), ("Country Label", .num 1)] }

/-- Handler `handleVisibilityChange` of `Home`. -/
def Home.handleVisibilityChange (h : Home) (item : String) : Home :=
  { h with visibilitySettings :=
      setProp h.visibilitySettings item (.bool (notProp h.visibilitySettings item)) }

/-- Handler `handleOpacityChange` of `Home`; `newOpacity` is the number
`parseFloat` yields for the slider value. -/
def Home.handleOpacityChange (h : Home) (item : String) (newOpacity : ℚ) : Home :=
  { h with opacitySettings := setProp h.opacitySettings item (.num newOpacity) }

/-- State of the `Sidebar` component. -/
structure Sidebar where
  activeSections : List String
  currentVisibilitySettings : Settings
  deriving DecidableEq

/-- The initial state of `Sidebar`, from the `visibilitySettings` prop of its
first render. -/
def Sidebar.initial (visibilitySettings : Settings) : Sidebar :=
  { activeSections := []
    currentVisibilitySettings :=
      spread [("Range", .bool true), ("Observations", .bool true), ("Country Label", .bool true),
        ("State and City Labels", .bool true)] visibilitySettings }

/-- Function `toggleSection` of `Sidebar`. -/
def Sidebar.toggleSection (s : Sidebar) (item : String) : Sidebar :=
  { s with activeSections :=
      if item ∈ s.activeSections then s.activeSections.filter (fun x => !decide (x = item))
      else s.activeSections ++ [item] }

/-- Function `handleVisibilityChange` of `Sidebar`: the new local state and the
arguments it passes to `onVisibilityChange`. -/
def Sidebar.handleVisibilityChange (s : Sidebar) (item : String) : Sidebar × (String × Bool) :=
  let newVisibility := notProp s.currentVisibilitySettings item
  ({ s with currentVisibilitySettings :=
      setProp s.currentVisibilitySettings item (.bool newVisibility) },
    (item, newVisibility))

/-- The page with its sidebar. -/
structure App where
  page : Home
  sidebar : Sidebar
  deriving DecidableEq

/-- Both components after their first render. -/
def App.initial : App :=
  { page := Home.initial, sidebar := Sidebar.initial Home.initial.visibilitySettings }

/-- A click on the chevron row of `item`. -/
def App.clickSection (a : App) (item : String) : App :=
  { a with sidebar := a.sidebar.toggleSection item }

/-- A click on the eye icon of `item`: the Sidebar updates its mirror and calls
the page's `handleVisibilityChange`, which takes the first argument only. -/
def App.clickVisibility (a : App) (item : String) : App :=
  { page := a.page.handleVisibilityChange (a.sidebar.handleVisibilityChange item).2.1
    sidebar := (a.sidebar.handleVisibilityChange item).1 }

/-- A move of the opacity slider of `item` to `value`. -/
def App.moveSlider (a : App) (item : String) (value : ℚ) : App :=
  { a with page := a.page.handleOpacityChange item value }

/-- The states the page and sidebar reach through the controls the Sidebar
renders: one set per layer name, the slider only while the section is open. -/
inductive App.Reachable : App → Prop where
  | initial : App.Reachable App.initial
  | clickSection (a : App) (item : String) :
      App.Reachable a → item ∈ layerNames → App.Reachable (a.clickSection item)
  | clickVisibility (a : App) (item : String) :
      App.Reachable a → item ∈ layerNames → App.Reachable (a.clickVisibility item)
  | moveSlider (a : App) (item : String) (value : ℚ) :
      App.Reachable a → item ∈ layerNames → item ∈ a.sidebar.activeSections →
      App.Reachable (a.moveSlider item value)

/-- The keys of a settings object. -/
def keys (o : Settings) : List String := o.map Prod.fst

/-- What the Sidebar's eye icon shows for `item`:
`mirror[item] === undefined || mirror[item]`. -/
def Sidebar.showsVisible (s : Sidebar) (item : String) : Bool :=
  match getProp s.currentVisibilitySettings item with
  | none => true
  | some v => v.truthy

/-- The layer's visibility in the page's settings, an absent key counting as
visible. -/
def Home.isVisible (h : Home) (item : String) : Bool :=
  decide (getProp h.visibilitySettings item ≠ some (.bool false))

/-! ## Download and profile menus -/

/-- The menu state of the `Map` component. -/
structure Menus where
  showDownloadOptions : Bool
  showProfileMenu : Bool
  clickedButton : Option String
  deriving DecidableEq

/-- The menu state at mount. -/
def Menus.initial : Menus :=
  { showDownloadOptions := false, showProfileMenu := false, clickedButton := none }

/-- Handler `handleDownloadClick`. -/
def handleDownloadClick (s : Menus) : Menus :=
  { showDownloadOptions := !s.showDownloadOptions
    showProfileMenu := s.showProfileMenu
    clickedButton := if s.showDownloadOptions then none else s.clickedButton }

/-- The `onClick` of the profile icon: `setShowProfileMenu(!showProfileMenu)`. -/
def profileIconClick (s : Menus) : Menus :=
  { s with showProfileMenu := !s.showProfileMenu }

/-- One commit of the component: after rendering `cur` (the previous render
was `prev`) each of the two menu effects runs if its dependency changed, both
read the rendered state `cur`, and their state updates are applied together. -/
def runMenuEffects (prev cur : Menus) : Menus :=
  let closeProfile := (cur.showDownloadOptions != prev.showDownloadOptions) &&
    (cur.showDownloadOptions && cur.showProfileMenu)
  let closeDownload := (cur.showProfileMenu != prev.showProfileMenu) &&
    (cur.showProfileMenu && cur.showDownloadOptions)
  { showDownloadOptions := if closeDownload then false else cur.showDownloadOptions
    showProfileMenu := if closeProfile then false else cur.showProfileMenu
    clickedButton := cur.clickedButton }

/-- Commits repeat while an effect changes the state; `fuel` bounds their
number. -/
def settle : Nat → Menus → Menus → Menus
  | 0, _, cur => cur
  | fuel + 1, prev, cur =>
    if runMenuEffects prev cur = cur then cur else settle fuel cur (runMenuEffects prev cur)

/-- A click handler followed by the effects it triggers, from the settled
state `s`. -/
def afterClick (fuel : Nat) (click : Menus → Menus) (s : Menus) : Menus :=
  settle fuel s (click s)

/-- The menu states reached from both menus closed by clicks on the two icons,
each click followed by the menu effects. -/
inductive Menus.Reachable (fuel : Nat) : Menus → Prop where
  | initial : Menus.Reachable fuel Menus.initial
  | download (s : Menus) :
      Menus.Reachable fuel s → Menus.Reachable fuel (afterClick fuel handleDownloadClick s)
  | profile (s : Menus) :
      Menus.Reachable fuel s → Menus.Reachable fuel (afterClick fuel profileIconClick s)

/-! ## Suggestions and the debounce timer -/

/-- The property `value.length` of a JavaScript string: UTF-16 code units. -/
def jsLength (s : String) : Nat :=
  (s.data.map (fun c => if c.toNat < 0x10000 then 1 else 2)).sum

/-- A pending `setTimeout` of `fetchSuggestions`: its id, the time it is due,
and the `value` and `searchMode` its callback closed over. -/
structure Timer where
  id : Nat
  due : Nat
  value : String
  searchMode : String
  deriving DecidableEq

/-- A request `GET /api/species?keyword=...&mode=...` (keyword before URL
encoding). -/
structure SuggestionsRequest where
  keyword : String
  mode : String
  deriving DecidableEq

/-- The search box of the `Map` component with the browser's clock (in ms) and
timer table: `timers` are the pending timeouts, `requests` the suggestion
requests issued so far with the time of issue. -/
structure SearchBox where
  now : Nat
  nextTimerId : Nat
  timers : List Timer
  debounceTimeout : Option Nat
  searchTerm : String
  suggestions : List String
  showSuggestions : Bool
  requests : List (Nat × SuggestionsRequest)
  deriving DecidableEq

/-- The search box at mount; timer ids are positive. -/
def SearchBox.initial : SearchBox :=
  { now := 0, nextTimerId := 1, timers := [], debounceTimeout := none,
    searchTerm := "Pinus ponderosa", suggestions := [], showSuggestions := false,
    requests := [] }

/-- Browser call `clearTimeout(id)`. -/
def clearTimeout (id : Nat) (s : SearchBox) : SearchBox :=
  { s with timers := s.timers.filter (fun t => !decide (t.id = id)) }

/-- Browser call `setTimeout(callback, delay)` for the callback of
`fetchSuggestions`: the new id and the new state. -/
def setTimeout (delay : Nat) (value searchMode : String) (s : SearchBox) : Nat × SearchBox :=
  (s.nextTimerId,
    { s with
      nextTimerId := s.nextTimerId + 1
      timers := s.timers ++
        [{ id := s.nextTimerId, due := s.now + delay, value := value, searchMode := searchMode }] })

/-- Function `fetchSuggestions`, with the `searchMode` its closure captured. -/
def fetchSuggestions (value searchMode : String) (s : SearchBox) : SearchBox :=
  let s1 := match s.debounceTimeout with
    | some id => if id ≠ 0 then clearTimeout id s else s
    | none => s
  { (setTimeout 300 value searchMode s1).2 with
    debounceTimeout := some (setTimeout 300 value searchMode s1).1 }

/-- The callback passed to `setTimeout`, up to the point where the request is
issued. -/
def timerCallback (value searchMode : String) (s : SearchBox) : SearchBox :=
  if jsLength value < 2 then { s with suggestions := [] }
  else { s with requests := s.requests ++
    [(s.now, { keyword := (formatSpeciesName value), mode := searchMode })] }

/-- The rest of the callback, once the response has arrived. -/
def suggestionsArrived (res : Response (List String)) (s : SearchBox) : SearchBox :=
  match res with
  | .ok data => { s with suggestions := data }
  | _ => s

/-- The clock moves forward by `dt`: the timers due by then fire in the order
they were set (all have the same delay), each at its due time. -/
def advance (dt : Nat) (s : SearchBox) : SearchBox :=
  { (s.timers.filter (fun t => decide (t.due ≤ s.now + dt))).foldl (fun s t =>
      timerCallback t.value t.searchMode
        { s with now := t.due, timers := s.timers.filter (fun u => !decide (u.id = t.id)) }) s
    with now := s.now + dt }

/-- Handler `handleInputChange` for the input value `value`. -/
def handleInputChange (value searchMode : String) (s : SearchBox) : SearchBox :=
  { fetchSuggestions value searchMode { s with searchTerm := value } with
    showSuggestions := true }

/-- One keystroke: the time since the previous event, the input's new value and
the search mode selected at that time. -/
structure Keystroke where
  gap : Nat
  value : String
  searchMode : String

/-- The user types: each keystroke happens `gap` ms after the previous event. -/
def typeKeys (ks : List Keystroke) (s : SearchBox) : SearchBox :=
  ks.foldl (fun s k => handleInputChange k.value k.searchMode (advance k.gap s)) s

/-- The API used on concrete inputs: every species has a range named after it
and one observation. -/
def sampleApi : Api :=
  { range := fun species => .ok { json := "range of " ++ species }
    observations := fun species => .ok [{ geojson_geom := "point", species := species, gid := 1 }] }

/-- The component after a search for "Quercus alba" has shown both overlays,
with `sampleApi` as the API. -/
def quercusShown : MapPanel :=
  fetchSpeciesObservationsFor sampleApi sampleParse none "Quercus alba"
    (fetchSpeciesRangeFor sampleApi none "Quercus alba" samplePanel)

/-- The last keystroke of the sequence `first :: rest`. -/
def lastKeystroke : Keystroke → List Keystroke → Keystroke
  | first, [] => first
  | _, k :: rest => lastKeystroke k rest

/-- The timer table is consistent with the ref: timer ids are positive, and a
pending timer, if any, is the single one `debounceTimeout.current` names. -/
def SearchBox.WellFormed (s : SearchBox) : Prop :=
  s.nextTimerId ≠ 0 ∧
  (s.timers = [] ∨ ∃ t, s.timers = [t] ∧ s.debounceTimeout = some t.id ∧ t.id ≠ 0)

/-- The opacity `v` computed for the layer `name` is `dflt` when `name` is not
a key of the settings (or no settings object is supplied). -/
def DefaultsTo (settings : Option Settings) (name : String) (dflt : ℚ) (v : JsVal) : Prop :=
  entry settings name = none → v = .num dflt

/-- The debounce timer of the last call is pending: it is the only timer, due
300 ms after now, and carries `value` and `searchMode`. -/
def SearchBox.Armed (s : SearchBox) (value searchMode : String) : Prop :=
  s.nextTimerId ≠ 0 ∧ ∃ id, id ≠ 0 ∧
    s.timers = [{ id := id, due := s.now + 300, value := value, searchMode := searchMode }] ∧
    s.debounceTimeout = some id

/-! ## Search handlers and downloads -/

/-- Function `formatSpeciesForSQL`: `name.replace(/_/g, ' ')`. -/
def formatSpeciesForSQL (name : String) : String :=
  ⟨name.data.map (fun c => if c = '_' then ' ' else c)⟩

/-- A request to the species API, with the `species` value of its JSON body. -/
inductive ApiRequest where
  | range (species : String)
  | observations (species : String)
  deriving DecidableEq

/-- The request a call `fetchSpeciesRange(species)` sends: its body is
`{ species: formatSpeciesName(species) }`. -/
def fetchSpeciesRange_request (species : String) : ApiRequest :=
  .range (formatSpeciesName species)

/-- The request a call `fetchSpeciesObservations(species)` sends. -/
def fetchSpeciesObservations_request (species : String) : ApiRequest :=
  .observations (formatSpeciesName species)

/-- Handler `handleSearchSubmit` for the current `searchTerm`: the requests of
the two fetches it starts, none when the term is empty.  Its inline
`searchTerm.replace(/\s+/g, '_')` is the expression of `formatSpeciesName`. -/
def handleSearchSubmit (searchTerm : String) : List ApiRequest :=
  if searchTerm ≠ "" then
    [fetchSpeciesRange_request (formatSpeciesName searchTerm),
     fetchSpeciesObservations_request (formatSpeciesName searchTerm)]
  else []

/-- Handler `handleSuggestionClick` for a suggestion with species name
`species`: the new state of the search box and the requests of the two fetches
it starts.  Its inline `replace(/_/g, ' ')` and `replace(/\s+/g, '_')` are the
expressions of `formatSpeciesForSQL` and `formatSpeciesName`. -/
def handleSuggestionClick (species : String) (s : SearchBox) : SearchBox × List ApiRequest :=
  ({ s with searchTerm := formatSpeciesForSQL species, suggestions := [],
            showSuggestions := false },
   [fetchSpeciesRange_request (formatSpeciesName (formatSpeciesForSQL species)),
    fetchSpeciesObservations_request (formatSpeciesName (formatSpeciesForSQL species))])

/-- The URL `handleDownloadButtonClick` opens: the endpoint after the base URL
and the `species` value before `encodeURIComponent`. -/
structure DownloadUrl where
  path : String
  species : String
  deriving DecidableEq

/-- Handler `handleDownloadButtonClick`: the new menu state and the URL passed
to `window.open`, none for a button name without a branch. -/
def handleDownloadButtonClick (buttonName searchTerm : String) (s : Menus) :
    Menus × Option DownloadUrl :=
  ({ s with clickedButton := some buttonName },
   if buttonName = "observations" then
     some { path := "/api/download/observations", species := formatSpeciesName searchTerm }
   else if buttonName = "traits" then
     some { path := "/api/download/traits"
            species := formatSpeciesForSQL (formatSpeciesName searchTerm) }
   else if buttonName = "rangeshape" then
     some { path := "/api/download/range", species := formatSpeciesName searchTerm }
   else none)

/-- The spec's description of the wire format of a name: the result is the
input with each maximal run of white space replaced by a single underscore and
every other character kept in order. -/
inductive RunsReplaced : List Char → List Char → Prop where
  | done : RunsReplaced [] []
  | keep (c : Char) (rest out : List Char) :
      isWhiteSpace c = false → RunsReplaced rest out → RunsReplaced (c :: rest) (c :: out)
  | run (l r rest out : List Char) :
      l = r ++ rest → r ≠ [] → (∀ c ∈ r, isWhiteSpace c = true) →
      (∀ c, rest.head? = some c → isWhiteSpace c = false) →
      RunsReplaced rest out → RunsReplaced l ('_' :: out)

/-- The call is `addLayer` with a layer of the given id. -/
def Call.isAddLayerOf (id : String) : Call → Bool
  | .addLayer layer => decide (layer.id = id)
  | _ => false

/-- Opacity settings that store 0 for the two overlays and the country labels. -/
def zeroOpacity : Settings :=
  [("Range", .num 0), ("Observations", .num 0), ("Country Label", .num 0)]

/-! ## Reachable states -/

/-- The layer `observationsLayer` is on the map only together with the source
`observations`. -/
def ObservationsPaired (m : MapEngine) : Prop :=
  (m.getLayer "observationsLayer").isSome = true → (m.getSource "observations").isSome = true

/-- A basemap style has no layer with the ID of an overlay layer. -/
def NoOverlayLayers (style : List Layer) : Prop :=
  ∀ l ∈ style, l.id ≠ "speciesRangeLayer" ∧ l.id ≠ "observationsLayer"

/-- The states of the map panel the component reaches: the map is created on
a basemap style, and then a `style.load` event is handled, a range or an
observations response arrives, one of the two settings effects runs, or the
terrain button swaps the basemap style. -/
inductive MapPanel.Reachable : MapPanel → Prop where
  | created (sources : List Source) (style : List Layer) :
      NoOverlayLayers style →
      MapPanel.Reachable
        { map := some { sources := sources, layers := style, log := [] }
          countryLabelLayerIDs := []
          otherLabelLayerIDs := [] }
  | styleLoaded (vis op : Option Settings) (p : MapPanel) :
      MapPanel.Reachable p → MapPanel.Reachable (reAddLayersAndSettings vis op p)
  | rangeArrived (op : Option Settings) (res : Response Geometry) (p : MapPanel) :
      MapPanel.Reachable p → MapPanel.Reachable (fetchSpeciesRange op res p)
  | observationsArrived (jsonParse : String → Option Geometry) (op : Option Settings)
      (res : Response (List ObsRecord)) (p : MapPanel) :
      MapPanel.Reachable p → MapPanel.Reachable (fetchSpeciesObservations jsonParse op res p)
  | visibilityChanged (vis : Option Settings) (p : MapPanel) :
      MapPanel.Reachable p → MapPanel.Reachable (useEffect_visibilitySettings vis p)
  | opacityChanged (op : Option Settings) (p : MapPanel) :
      MapPanel.Reachable p → MapPanel.Reachable (useEffect_opacitySettings op p)
  | styleSwapped (newStyle : List Layer) (p : MapPanel) (m : MapEngine) :
      MapPanel.Reachable p → p.map = some m → NoOverlayLayers newStyle →
      MapPanel.Reachable { p with map := some (m.setStyle newStyle) }

/-- The page states reached through the Sidebar's controls: a click on an eye
icon, or a move of an opacity slider, whose value the browser keeps between
the slider's `min="0.1"` and `max="1"`. -/
inductive Home.Reachable : Home → Prop where
  | initial : Home.Reachable Home.initial
  | visibilityChange (h : Home) (item : String) :
      Home.Reachable h → item ∈ layerNames → Home.Reachable (h.handleVisibilityChange item)
  | opacityChange (h : Home) (item : String) (newOpacity : ℚ) :
      Home.Reachable h → item ∈ layerNames → 1 / 10 ≤ newOpacity → newOpacity ≤ 1 →
      Home.Reachable (h.handleOpacityChange item newOpacity)

/-! ## Engine lemmas -/

theorem getSource_isSome_iff (m : MapEngine) (id : String) :
    (m.getSource id).isSome = true ↔ ∃ s ∈ m.sources, s.id = id := by
  simp [MapEngine.getSource]

theorem getLayer_isSome_iff (m : MapEngine) (id : String) :
    (m.getLayer id).isSome = true ↔ ∃ l ∈ m.layers, l.id = id := by
  simp [MapEngine.getLayer]

theorem filter_layers_of_absent (m : MapEngine) (lyr : String)
    (h : ¬ (m.getLayer lyr).isSome = true) :
    m.layers.filter (fun l => !decide (l.id = lyr)) = m.layers := by
  rw [List.filter_eq_self]
  intro l hl
  simp only [getLayer_isSome_iff, not_exists, not_and] at h
  simpa using h l hl

theorem filter_sources_of_absent (m : MapEngine) (src : String)
    (h : ¬ (m.getSource src).isSome = true) :
    m.sources.filter (fun s => !decide (s.id = src)) = m.sources := by
  rw [List.filter_eq_self]
  intro s hs
  simp only [getSource_isSome_iff, not_exists, not_and] at h
  simpa using h s hs

/-- The removal block never throws; it deletes the source and, when the source
was there, the layer. -/
theorem removeOverlay_spec (m : MapEngine) (src lyr : String) :
    ∃ m1, removeOverlay m src lyr = .ok m1 ∧
      m1.sources = m.sources.filter (fun s => !decide (s.id = src)) ∧
      m1.layers = (if (m.getSource src).isSome then
          m.layers.filter (fun l => !decide (l.id = lyr))
        else m.layers) := by
  unfold removeOverlay
  by_cases h : (m.getSource src).isSome = true
  · by_cases h2 : (m.getLayer lyr).isSome = true
    · have h3 : ((m.removeLayer lyr).getSource src).isSome = true := h
      simp only [h, h2, if_true, MapEngine.removeSource, h3]
      exact ⟨_, rfl, rfl, rfl⟩
    · simp [h, h2, MapEngine.removeSource, filter_layers_of_absent m lyr h2]
  · simp [h, filter_sources_of_absent m src h]

/-- Remove-then-add of an overlay: the source is replaced, and the layer is
replaced when the source was there. -/
theorem replaceOverlay_spec (m : MapEngine) (src lyr : String) (data : SourceData)
    (layer : Layer) (hl : layer.id = lyr) :
    ∃ m3, caught (do
        let m1 ← removeOverlay m src lyr
        let m2 ← m1.addSource src data
        pure (m2.addLayer layer)) = m3 ∧
      m3.sources = m.sources.filter (fun s => !decide (s.id = src)) ++ [{ id := src, data := data }] ∧
      m3.layers = (if (m.getSource src).isSome then
          m.layers.filter (fun l => !decide (l.id = lyr)) ++ [layer]
        else if (m.getLayer lyr).isSome then m.layers else m.layers ++ [layer]) := by
  obtain ⟨m1, h1, hs, hlay⟩ := removeOverlay_spec m src lyr
  have hno : (m1.getSource src).isSome = false := by
    simp [MapEngine.getSource, hs]
  refine ⟨_, rfl, ?_, ?_⟩
  · simp [h1, bind, Except.bind, MapEngine.addSource, hno, pure, Except.pure, caught,
      MapEngine.addLayer, hs]
    split <;> simp
  · simp only [h1, bind, Except.bind, MapEngine.addSource, hno, pure, Except.pure, caught,
      MapEngine.addLayer, hl, MapEngine.getLayer]
    by_cases h : (m.getSource src).isSome = true
    · simp [h, hlay]
    · simp [h, hlay]
      split <;> rfl

theorem countP_filter_ne_self {α : Type} (f : α → String) (l : List α) (id : String) :
    (l.filter (fun a => !decide (f a = id))).countP (fun a => decide (f a = id)) = 0 := by
  simp [List.countP_eq_zero]

theorem countP_filter_ne_other {α : Type} (f : α → String) (l : List α) (id id2 : String)
    (h : id2 ≠ id) :
    (l.filter (fun a => !decide (f a = id))).countP (fun a => decide (f a = id2)) =
      l.countP (fun a => decide (f a = id2)) := by
  rw [List.countP_filter]
  congr 1
  funext a
  by_cases h2 : f a = id2
  · have h1 : f a ≠ id := fun e => h (h2.symm.trans e)
    simp [h1, h2, h]
  · simp [h2]

theorem find_filter_ne_other {α : Type} (f : α → String) (l : List α) (id id2 : String)
    (h : id2 ≠ id) :
    (l.filter (fun a => !decide (f a = id))).find? (fun a => decide (f a = id2)) =
      l.find? (fun a => decide (f a = id2)) := by
  rw [List.find?_filter]
  congr 1
  funext a
  by_cases h2 : f a = id2
  · have h1 : f a ≠ id := fun e => h (h2.symm.trans e)
    simp [h1, h2, h]
  · simp [h2]

theorem countP_replace_self {α : Type} (f : α → String) (l : List α) (id : String) (x : α)
    (hx : f x = id) :
    (l.filter (fun a => !decide (f a = id)) ++ [x]).countP (fun a => decide (f a = id)) = 1 := by
  rw [List.countP_append, countP_filter_ne_self]
  simp [hx]

theorem countP_replace_other {α : Type} (f : α → String) (l : List α) (id id2 : String) (x : α)
    (hx : f x = id) (h : id2 ≠ id) :
    (l.filter (fun a => !decide (f a = id)) ++ [x]).countP (fun a => decide (f a = id2)) =
      l.countP (fun a => decide (f a = id2)) := by
  rw [List.countP_append, countP_filter_ne_other f l id id2 h]
  simp [hx, Ne.symm h]

theorem find_replace_self {α : Type} (f : α → String) (l : List α) (id : String) (x : α)
    (hx : f x = id) :
    (l.filter (fun a => !decide (f a = id)) ++ [x]).find? (fun a => decide (f a = id)) =
      some x := by
  rw [List.find?_append]
  have h0 : (l.filter (fun a => !decide (f a = id))).find? (fun a => decide (f a = id)) = none := by
    simp [List.find?_eq_none]
  rw [h0]
  simp [hx]

theorem find_replace_other {α : Type} (f : α → String) (l : List α) (id id2 : String) (x : α)
    (hx : f x = id) (h : id2 ≠ id) :
    (l.filter (fun a => !decide (f a = id)) ++ [x]).find? (fun a => decide (f a = id2)) =
      l.find? (fun a => decide (f a = id2)) := by
  rw [List.find?_append, find_filter_ne_other f l id id2 h]
  simp [hx, Ne.symm h]

theorem fetchSpeciesRange_ok (op : Option Settings) (range : Geometry) (p : MapPanel)
    (m : MapEngine) (hm : p.map = some m) :
    ∃ m3, (fetchSpeciesRange op (.ok range) p).map = some m3 ∧
      m3.sources = m.sources.filter (fun s => !decide (s.id = "speciesRange")) ++
        [{ id := "speciesRange", data := .feature { geometry := range, properties := none } }] ∧
      m3.layers = (if (m.getSource "speciesRange").isSome then
          m.layers.filter (fun l => !decide (l.id = "speciesRangeLayer")) ++ [speciesRangeLayer op]
        else if (m.getLayer "speciesRangeLayer").isSome then m.layers
        else m.layers ++ [speciesRangeLayer op]) := by
  obtain ⟨m3, h3, hs, hl⟩ := replaceOverlay_spec m "speciesRange" "speciesRangeLayer"
    (.feature { geometry := range, properties := none }) (speciesRangeLayer op) rfl
  refine ⟨m3, ?_, hs, hl⟩
  simp only [fetchSpeciesRange, hm, h3]

theorem fetchSpeciesObservations_ok (jsonParse : String → Option Geometry)
    (op : Option Settings) (data : List ObsRecord) (features : List Feature) (p : MapPanel)
    (m : MapEngine) (hm : p.map = some m) (hd : data ≠ [])
    (hf : buildFeatures jsonParse data = some features) :
    ∃ m3, (fetchSpeciesObservations jsonParse op (.ok data) p).map = some m3 ∧
      m3.sources = m.sources.filter (fun s => !decide (s.id = "observations")) ++
        [{ id := "observations", data := .featureCollection features }] ∧
      m3.layers = (if (m.getSource "observations").isSome then
          m.layers.filter (fun l => !decide (l.id = "observationsLayer")) ++ [observationsLayer op]
        else if (m.getLayer "observationsLayer").isSome then m.layers
        else m.layers ++ [observationsLayer op]) := by
  obtain ⟨m3, h3, hs, hl⟩ := replaceOverlay_spec m "observations" "observationsLayer"
    (.featureCollection features) (observationsLayer op) rfl
  refine ⟨m3, ?_, hs, hl⟩
  have hlen : ¬ data.length = 0 := by simpa using hd
  simp only [fetchSpeciesObservations, hm, hlen, if_false, hf, h3]

/-- C1: after a successful range fetch and a successful non-empty observations
fetch for one species, followed by the same two for a second species, the map
has exactly one source `speciesRange`, one layer `speciesRangeLayer`, one source
`observations` and one layer `observationsLayer`, and both sources hold the
second species' data.  This holds from every map state, in particular from
those in which each of the four IDs occurs at most once. -/
theorem search_twice_single_overlay (jsonParse : String → Option Geometry)
    (op1 op2 : Option Settings) (range1 range2 : Geometry) (data1 data2 : List ObsRecord)
    (features1 features2 : List Feature) (p : MapPanel) (m : MapEngine)
    (hm : p.map = some m)
    (hd1 : data1 ≠ []) (hf1 : buildFeatures jsonParse data1 = some features1)
    (hd2 : data2 ≠ []) (hf2 : buildFeatures jsonParse data2 = some features2) :
    ∃ m4, (fetchSpeciesObservations jsonParse op2 (.ok data2)
            (fetchSpeciesRange op2 (.ok range2)
              (fetchSpeciesObservations jsonParse op1 (.ok data1)
                (fetchSpeciesRange op1 (.ok range1) p)))).map = some m4 ∧
      sourceCount m4 "speciesRange" = 1 ∧ layerCount m4 "speciesRangeLayer" = 1 ∧
      sourceCount m4 "observations" = 1 ∧ layerCount m4 "observationsLayer" = 1 ∧
      m4.getSource "speciesRange" = some ⟨"speciesRange", .feature ⟨range2, none⟩⟩ ∧
      m4.getSource "observations" = some ⟨"observations", .featureCollection features2⟩ := by
  obtain ⟨a, ha, hsa, -⟩ := fetchSpeciesRange_ok op1 range1 p m hm
  obtain ⟨b, hb, hsb, -⟩ := fetchSpeciesObservations_ok jsonParse op1 data1 features1 _ a ha hd1 hf1
  obtain ⟨c, hc, hsc, hlc⟩ := fetchSpeciesRange_ok op2 range2 _ b hb
  obtain ⟨d, hd, hsd, hld⟩ := fetchSpeciesObservations_ok jsonParse op2 data2 features2 _ c hc hd2 hf2
  have hbR : (b.getSource "speciesRange").isSome = true := by
    rw [getSource_isSome_iff, hsb, hsa]
    exact ⟨{ id := "speciesRange", data := .feature { geometry := range1, properties := none } },
      by simp, rfl⟩
  have hcO : (c.getSource "observations").isSome = true := by
    rw [getSource_isSome_iff, hsc, hsb]
    exact ⟨{ id := "observations", data := .featureCollection features1 }, by simp, rfl⟩
  rw [hbR] at hlc
  rw [hcO] at hld
  simp only [if_true] at hlc hld
  have cs := countP_replace_self (fun s : Source => s.id)
  have co := countP_replace_other (fun s : Source => s.id)
  have ls := countP_replace_self (fun l : Layer => l.id)
  have lo := countP_replace_other (fun l : Layer => l.id)
  have fs := find_replace_self (fun s : Source => s.id)
  have fo := find_replace_other (fun s : Source => s.id)
  refine ⟨d, hd, ?_, ?_, ?_, ?_, ?_, ?_⟩
  · rw [sourceCount, hsd, co _ "observations" "speciesRange" _ rfl (by decide), hsc,
      cs _ "speciesRange" _ rfl]
  · rw [layerCount, hld, lo _ "observationsLayer" "speciesRangeLayer" _ rfl (by decide), hlc,
      ls _ "speciesRangeLayer" _ rfl]
  · rw [sourceCount, hsd, cs _ "observations" _ rfl]
  · rw [layerCount, hld, ls _ "observationsLayer" _ rfl]
  · rw [MapEngine.getSource, hsd, fo _ "observations" "speciesRange" _ rfl (by decide), hsc,
      fs _ "speciesRange" _ rfl]
  · rw [MapEngine.getSource, hsd, fs _ "observations" _ rfl]

theorem search_twice_single_overlay_witness :
    samplePanel.map = some sampleStyle ∧
    [({ geojson_geom := "a", species := "Pinus_ponderosa", gid := 1 } : ObsRecord)] ≠ [] ∧
    [({ geojson_geom := "b", species := "Quercus_alba", gid := 2 } : ObsRecord)] ≠ [] ∧
    ∃ m4, (fetchSpeciesObservations sampleParse none
            (.ok [{ geojson_geom := "b", species := "Quercus_alba", gid := 2 }])
            (fetchSpeciesRange none (.ok { json := "r2" })
              (fetchSpeciesObservations sampleParse none
                (.ok [{ geojson_geom := "a", species := "Pinus_ponderosa", gid := 1 }])
                (fetchSpeciesRange none (.ok { json := "r1" }) samplePanel)))).map = some m4 ∧
      sourceCount m4 "speciesRange" = 1 ∧ layerCount m4 "speciesRangeLayer" = 1 ∧
      sourceCount m4 "observations" = 1 ∧ layerCount m4 "observationsLayer" = 1 ∧
      m4.getSource "speciesRange" = some ⟨"speciesRange", .feature ⟨{ json := "r2" }, none⟩⟩ ∧
      m4.getSource "observations" = some ⟨"observations",
        .featureCollection [⟨{ json := "b" }, some ("Quercus_alba", 2)⟩]⟩ :=
  ⟨rfl, by decide, by decide,
    search_twice_single_overlay sampleParse none none { json := "r1" } { json := "r2" }
      [{ geojson_geom := "a", species := "Pinus_ponderosa", gid := 1 }]
      [{ geojson_geom := "b", species := "Quercus_alba", gid := 2 }]
      [⟨{ json := "a" }, some ("Pinus_ponderosa", 1)⟩]
      [⟨{ json := "b" }, some ("Quercus_alba", 2)⟩]
      samplePanel sampleStyle rfl (by decide) (by decide) (by decide) (by decide)⟩

/-! ## C2: an empty observations result -/

/-- C2: an empty successful observations response leaves no source
`observations` and no layer `observationsLayer` on the map, and the source
`speciesRange` and the layer `speciesRangeLayer` are as before.  This holds on
every map state in which the layer `observationsLayer` is on the map only
together with the source `observations`; every state the component reaches is
one (`observationsPaired_of_reachable`). -/
theorem empty_observations_removes_overlay (jsonParse : String → Option Geometry)
    (op : Option Settings) (p : MapPanel) (m : MapEngine) (hm : p.map = some m)
    (hpair : (m.getLayer "observationsLayer").isSome = true →
      (m.getSource "observations").isSome = true) :
    ∃ m1, (fetchSpeciesObservations jsonParse op (.ok []) p).map = some m1 ∧
      m1.getSource "observations" = none ∧ m1.getLayer "observationsLayer" = none ∧
      m1.getSource "speciesRange" = m.getSource "speciesRange" ∧
      m1.getLayer "speciesRangeLayer" = m.getLayer "speciesRangeLayer" := by
  obtain ⟨m1, h1, hs, hl⟩ := removeOverlay_spec m "observations" "observationsLayer"
  refine ⟨m1, ?_, ?_, ?_, ?_, ?_⟩
  · simp [fetchSpeciesObservations, hm, h1, caught]
  · simp [MapEngine.getSource, hs, List.find?_eq_none]
  · by_cases h : (m.getSource "observations").isSome = true
    · simp [MapEngine.getLayer, hl, h, List.find?_eq_none]
    · have h2 : ¬ (m.getLayer "observationsLayer").isSome = true := fun e => h (hpair e)
      rw [if_neg h] at hl
      simpa [MapEngine.getLayer, hl] using h2
  · rw [MapEngine.getSource, hs]
    exact find_filter_ne_other (fun s : Source => s.id) _ "observations" "speciesRange"
      (by decide)
  · by_cases h : (m.getSource "observations").isSome = true
    · rw [MapEngine.getLayer, hl, if_pos h]
      exact find_filter_ne_other (fun l : Layer => l.id) _ "observationsLayer"
        "speciesRangeLayer" (by decide)
    · rw [MapEngine.getLayer, hl, if_neg h]
      rfl

theorem empty_observations_removes_overlay_witness :
    shownPanel.map = some shownMap ∧
    ((shownMap.getLayer "observationsLayer").isSome = true →
      (shownMap.getSource "observations").isSome = true) ∧
    (∃ m1, (fetchSpeciesObservations sampleParse none (.ok []) shownPanel).map = some m1 ∧
      m1.getSource "observations" = none ∧ m1.getLayer "observationsLayer" = none ∧
      m1.getSource "speciesRange" = some ⟨"speciesRange", .feature ⟨{ json := "r1" }, none⟩⟩ ∧
      m1.getLayer "speciesRangeLayer" = some (speciesRangeLayer none)) :=
  ⟨rfl, by decide,
    empty_observations_removes_overlay sampleParse none shownPanel shownMap rfl (by decide)⟩

/-! ## C3 and C4: visibility of a newly created overlay layer -/

/-- C3, evaluated where it fails: both overlays are hidden in the settings and
their sources are on the map; after `reAddLayersAndSettings` on the freshly
loaded style the two re-added layers are visible (`layout: {}`), while the
country labels of the same call do get their setting. -/
theorem reAdd_overlay_layers_visible_when_hidden :
    ∃ m1, (reAddLayersAndSettings (some hiddenOverlays) (some initialOpacity) swappedPanel).map
        = some m1 ∧
      visibilityOf (some hiddenOverlays) "Range" = .str "none" ∧
      (m1.getLayer "speciesRangeLayer").map Layer.visibility = some (.str "visible") ∧
      visibilityOf (some hiddenOverlays) "Observations" = .str "none" ∧
      (m1.getLayer "observationsLayer").map Layer.visibility = some (.str "visible") :=
  ⟨_, rfl, by decide, by decide, by decide, by decide⟩

/-- C4, evaluated where it fails: the layers created by a successful
`fetchSpeciesRange` and a successful non-empty `fetchSpeciesObservations` are
visible; the functions build them with `layout: {}` and never read
`visibilitySettings`, so a Range or Observations setting of `false` has no
effect on them. -/
theorem fetched_overlay_layers_visible_when_hidden :
    ∃ m1, (fetchSpeciesObservations sampleParse (some initialOpacity)
            (.ok [{ geojson_geom := "a", species := "Pinus_ponderosa", gid := 1 }])
            (fetchSpeciesRange (some initialOpacity) (.ok { json := "r1" }) samplePanel)).map
        = some m1 ∧
      visibilityOf (some hiddenOverlays) "Range" = .str "none" ∧
      (m1.getLayer "speciesRangeLayer").map Layer.visibility = some (.str "visible") ∧
      visibilityOf (some hiddenOverlays) "Observations" = .str "none" ∧
      (m1.getLayer "observationsLayer").map Layer.visibility = some (.str "visible") :=
  ⟨_, rfl, by decide, by decide, by decide, by decide⟩

/-! ## C5: classification of label layers -/

theorem includes_iff_occurs (s t : String) : includes s t = true ↔ t.data <:+: s.data := by
  simp only [includes, List.any_eq_true, List.mem_tails, List.isPrefixOf_iff_prefix]
  rw [List.infix_iff_prefix_suffix]
  constructor
  · rintro ⟨u, hu, hp⟩
    exact ⟨u, hp, hu⟩
  · rintro ⟨u, hp, hu⟩
    exact ⟨u, hu, hp⟩

theorem includes_toLowerCase_iff (s w : String) (hw : w.data.map Char.toLower = w.data) :
    includes (toLowerCase s) w = true ↔ ContainsIgnoringCase s w := by
  rw [includes_iff_occurs, ContainsIgnoringCase, hw]
  show w.data <:+: s.data.map Char.toLower ↔ _
  constructor
  · rintro ⟨a, b, hab⟩
    obtain ⟨l1, post, h1, h2, h3⟩ := List.map_eq_append_iff.mp hab.symm
    obtain ⟨pre, mid, h4, h5, h6⟩ := List.map_eq_append_iff.mp h2
    refine ⟨pre, mid, post, ?_, h6⟩
    rw [h1, h4]
  · rintro ⟨pre, mid, post, h1, h2⟩
    refine ⟨pre.map Char.toLower, post.map Char.toLower, ?_⟩
    rw [h1, ← h2]
    simp

theorem hasTextField_iff (layer : Layer) : hasTextField layer = true ↔ NonEmptyTextField layer := by
  unfold hasTextField NonEmptyTextField
  cases hlo : layer.layout with
  | none => simp
  | some o =>
    cases hv : getProp o "text-field" with
    | none => simp [hv]
    | some v =>
      cases v with
      | str t => simp [hv, LayoutVal.truthy]
      | expr => simp [hv, LayoutVal.truthy]

theorem getLabelLayerIDs_foldl (layers : List Layer) (acc : LabelLayerIDs) :
    layers.foldl (fun acc layer =>
      if layer.type = "symbol" ∧ hasTextField layer = true ∧
          includes (toLowerCase layer.id) "label" = true then
        if includes (toLowerCase layer.id) "country" = true then
          { acc with countryLabels := acc.countryLabels ++ [layer.id] }
        else
          { acc with otherLabels := acc.otherLabels ++ [layer.id] }
      else acc) acc =
    { countryLabels := acc.countryLabels ++ (layers.filter (fun l =>
        isLabelLayer l && includes (toLowerCase l.id) "country")).map (fun l => l.id)
      otherLabels := acc.otherLabels ++ (layers.filter (fun l =>
        isLabelLayer l && !includes (toLowerCase l.id) "country")).map (fun l => l.id) } := by
  induction layers generalizing acc with
  | nil => simp
  | cons a t ih =>
    rw [List.foldl_cons, ih]
    by_cases h1 : a.type = "symbol" <;> by_cases h2 : hasTextField a = true <;>
      by_cases h3 : includes (toLowerCase a.id) "label" = true <;>
      by_cases h4 : includes (toLowerCase a.id) "country" = true <;>
      simp [isLabelLayer, h1, h2, h3, h4, List.filter_cons]

theorem getLabelLayerIDs_eq_filter (m : MapEngine) :
    getLabelLayerIDs m =
    { countryLabels := (m.layers.filter (fun l =>
        isLabelLayer l && includes (toLowerCase l.id) "country")).map (fun l => l.id)
      otherLabels := (m.layers.filter (fun l =>
        isLabelLayer l && !includes (toLowerCase l.id) "country")).map (fun l => l.id) } := by
  rw [getLabelLayerIDs, MapEngine.styleLayers, getLabelLayerIDs_foldl]
  simp

theorem isLabelLayer_iff (layer : Layer) :
    isLabelLayer layer = true ↔
      layer.type = "symbol" ∧ NonEmptyTextField layer ∧ ContainsIgnoringCase layer.id "label" := by
  simp only [isLabelLayer, Bool.and_eq_true, decide_eq_true_eq, hasTextField_iff,
    includes_toLowerCase_iff layer.id "label" (by decide), and_assoc]

/-- C5: `getLabelLayerIDs` puts an id in `countryLabels` exactly when a style
layer with that id has type `symbol`, a non-empty text-field in its layout and
an id containing "label" and "country" (ignoring case); in `otherLabels`
exactly when such a layer's id contains "label" but not "country"; and the id
of any other layer (ids being unique in a style) is in neither list. -/
theorem getLabelLayerIDs_classifies (m : MapEngine) :
    (∀ id, id ∈ (getLabelLayerIDs m).countryLabels ↔
      ∃ layer ∈ m.styleLayers, layer.id = id ∧ layer.type = "symbol" ∧
        NonEmptyTextField layer ∧ ContainsIgnoringCase id "label" ∧
        ContainsIgnoringCase id "country") ∧
    (∀ id, id ∈ (getLabelLayerIDs m).otherLabels ↔
      ∃ layer ∈ m.styleLayers, layer.id = id ∧ layer.type = "symbol" ∧
        NonEmptyTextField layer ∧ ContainsIgnoringCase id "label" ∧
        ¬ ContainsIgnoringCase id "country") ∧
    (∀ layer ∈ m.styleLayers,
      (∀ layer2 ∈ m.styleLayers, layer2.id = layer.id → layer2 = layer) →
      ¬ (layer.type = "symbol" ∧ NonEmptyTextField layer ∧
          ContainsIgnoringCase layer.id "label") →
      layer.id ∉ (getLabelLayerIDs m).countryLabels ∧
      layer.id ∉ (getLabelLayerIDs m).otherLabels) := by
  have hc : ∀ id, id ∈ (getLabelLayerIDs m).countryLabels ↔
      ∃ layer ∈ m.styleLayers, layer.id = id ∧ layer.type = "symbol" ∧
        NonEmptyTextField layer ∧ ContainsIgnoringCase id "label" ∧
        ContainsIgnoringCase id "country" := by
    intro id
    rw [getLabelLayerIDs_eq_filter]
    simp only [List.mem_map, List.mem_filter, Bool.and_eq_true, isLabelLayer_iff,
      includes_toLowerCase_iff _ "country" (by decide), MapEngine.styleLayers]
    constructor
    · rintro ⟨l, ⟨hl, ⟨h1, h2, h3⟩, h4⟩, rfl⟩
      exact ⟨l, hl, rfl, h1, h2, h3, h4⟩
    · rintro ⟨l, hl, rfl, h1, h2, h3, h4⟩
      exact ⟨l, ⟨hl, ⟨h1, h2, h3⟩, h4⟩, rfl⟩
  have ho : ∀ id, id ∈ (getLabelLayerIDs m).otherLabels ↔
      ∃ layer ∈ m.styleLayers, layer.id = id ∧ layer.type = "symbol" ∧
        NonEmptyTextField layer ∧ ContainsIgnoringCase id "label" ∧
        ¬ ContainsIgnoringCase id "country" := by
    intro id
    rw [getLabelLayerIDs_eq_filter]
    simp only [List.mem_map, List.mem_filter, Bool.and_eq_true, isLabelLayer_iff,
      Bool.not_eq_true', ← Bool.not_eq_true,
      includes_toLowerCase_iff _ "country" (by decide), MapEngine.styleLayers]
    constructor
    · rintro ⟨l, ⟨hl, ⟨h1, h2, h3⟩, h4⟩, rfl⟩
      exact ⟨l, hl, rfl, h1, h2, h3, h4⟩
    · rintro ⟨l, hl, rfl, h1, h2, h3, h4⟩
      exact ⟨l, ⟨hl, ⟨h1, h2, h3⟩, h4⟩, rfl⟩
  refine ⟨hc, ho, ?_⟩
  intro layer _ huniq hnot
  constructor
  · intro hmem
    obtain ⟨l2, hl2, hid, h1, h2, h3, -⟩ := (hc layer.id).mp hmem
    have := huniq l2 hl2 hid
    subst this
    exact hnot ⟨h1, h2, h3⟩
  · intro hmem
    obtain ⟨l2, hl2, hid, h1, h2, h3, -⟩ := (ho layer.id).mp hmem
    have := huniq l2 hl2 hid
    subst this
    exact hnot ⟨h1, h2, h3⟩

/-! ## Lemmas on objects and on the per-layer engine calls -/

theorem getProp_setProp_same {β : Type} (o : List (String × β)) (k : String) (v : β) :
    getProp (setProp o k v) k = some v := by
  induction o with
  | nil => simp [setProp, getProp]
  | cons a t ih =>
    obtain ⟨k1, w⟩ := a
    by_cases h : k1 = k
    · simp [setProp, getProp, h]
    · simp [setProp, getProp, h, ih]

theorem getProp_setProp_other {β : Type} (o : List (String × β)) (k k2 : String) (v : β)
    (h : k2 ≠ k) : getProp (setProp o k v) k2 = getProp o k2 := by
  induction o with
  | nil => simp [setProp, getProp, Ne.symm h]
  | cons a t ih =>
    obtain ⟨k1, w⟩ := a
    by_cases h1 : k1 = k
    · have h2 : k ≠ k2 := Ne.symm h
      simp [setProp, getProp, h1, h2]
    · by_cases h3 : k1 = k2
      · subst h3
        simp [setProp, getProp, h1]
      · simp [setProp, getProp, h1, h3, ih]

theorem setProp_idem {β : Type} (o : List (String × β)) (k : String) (v : β) :
    setProp (setProp o k v) k v = setProp o k v := by
  induction o with
  | nil => simp [setProp]
  | cons a t ih =>
    obtain ⟨k1, w⟩ := a
    by_cases h : k1 = k
    · simp [setProp, h]
    · simp [setProp, h, ih]

theorem setLayout_idem (l : Layer) (n : String) (v : LayoutVal) :
    (l.setLayout n v).setLayout n v = l.setLayout n v := by
  simp [Layer.setLayout, setProp_idem]

theorem setPaint_idem (l : Layer) (n : String) (v : JsVal) :
    (l.setPaint n v).setPaint n v = l.setPaint n v := by
  simp [Layer.setPaint, setProp_idem]

theorem withLabelSettings_idem (v : LayoutVal) (o : JsVal) (l : Layer) :
    (l.withLabelSettings v o).withLabelSettings v o = l.withLabelSettings v o := by
  simp [Layer.withLabelSettings, Layer.setLayout, Layer.setPaint, setProp_idem]

theorem visibility_setLayout (l : Layer) (v : LayoutVal) :
    (l.setLayout "visibility" v).visibility = v := by
  simp [Layer.visibility, Layer.setLayout, getProp_setProp_same]

theorem hasTextField_setLayout_visibility (l : Layer) (v : LayoutVal) :
    hasTextField (l.setLayout "visibility" v) = hasTextField l := by
  cases hl : l.layout with
  | none =>
    simp [hasTextField, Layer.setLayout, hl, setProp, getProp]
  | some o =>
    simp [hasTextField, Layer.setLayout, hl,
      getProp_setProp_other o "visibility" "text-field" v (by decide)]

theorem find_map_of_id_preserving (g : Layer → Layer) (hg : ∀ l, (g l).id = l.id)
    (ls : List Layer) (id : String) :
    (ls.map g).find? (fun l => decide (l.id = id)) =
      (ls.find? (fun l => decide (l.id = id))).map g := by
  rw [List.find?_map]
  congr 2
  funext l
  simp [hg]

/-- Folding an idempotent per-layer update over a list of ids updates exactly
the layers whose id is in the list. -/
theorem layers_foldl_update (step : MapEngine → String → MapEngine) (g : Layer → Layer)
    (hidem : ∀ l, g (g l) = g l) (hid : ∀ l, (g l).id = l.id)
    (hstep : ∀ m a, (step m a).layers = m.layers.map (fun l => if l.id = a then g l else l))
    (ids : List String) (m : MapEngine) :
    (ids.foldl step m).layers = m.layers.map (fun l => if l.id ∈ ids then g l else l) := by
  induction ids generalizing m with
  | nil => simp
  | cons a t ih =>
    rw [List.foldl_cons, ih, hstep, List.map_map]
    apply List.map_congr_left
    intro l _
    by_cases h : l.id = a
    · by_cases h2 : a ∈ t
      · simp [h, h2, hid, hidem]
      · simp [h, h2, hid]
    · simp [h]

theorem sources_foldl_update (step : MapEngine → String → MapEngine)
    (hstep : ∀ m a, (step m a).sources = m.sources) (ids : List String) (m : MapEngine) :
    (ids.foldl step m).sources = m.sources := by
  induction ids generalizing m with
  | nil => rfl
  | cons a t ih => rw [List.foldl_cons, ih, hstep]

/-- The calls logged by a fold whose steps log only calls satisfying `P`. -/
theorem log_foldl_update (step : MapEngine → String → MapEngine) (P : Call → Prop)
    (hstep : ∀ m a, ∃ cs, (step m a).log = m.log ++ cs ∧ ∀ c ∈ cs, P c)
    (ids : List String) (m : MapEngine) :
    ∃ cs, (ids.foldl step m).log = m.log ++ cs ∧ (ids = [] → cs = []) ∧ ∀ c ∈ cs, P c := by
  induction ids generalizing m with
  | nil => exact ⟨[], by simp, fun _ => rfl, by simp⟩
  | cons a t ih =>
    obtain ⟨cs1, h1, hp1⟩ := hstep m a
    obtain ⟨cs2, h2, -, hp2⟩ := ih (step m a)
    refine ⟨cs1 ++ cs2, ?_, by simp, ?_⟩
    · rw [List.foldl_cons, h2, h1, List.append_assoc]
    · intro c hc
      rcases List.mem_append.mp hc with h | h
      · exact hp1 c h
      · exact hp2 c h

/-! ## The parts of `reAddLayersAndSettings` -/

theorem applyLabelSettings_layers (m : MapEngine) (ids : List String) (v : LayoutVal)
    (o : JsVal) :
    (applyLabelSettings m ids v o).layers =
      m.layers.map (fun l => if l.id ∈ ids then l.withLabelSettings v o else l) := by
  refine layers_foldl_update _ (Layer.withLabelSettings v o) (withLabelSettings_idem v o)
    (fun l => rfl) ?_ ids m
  intro m a
  simp only [MapEngine.setPaintProperty, MapEngine.setLayoutProperty, List.map_map]
  apply List.map_congr_left
  intro l _
  by_cases h : l.id = a
  · have h2 : (l.setLayout "visibility" v).id = a := h
    simp [h, h2, Layer.withLabelSettings]
  · simp [h]

theorem applyLabelSettings_sources (m : MapEngine) (ids : List String) (v : LayoutVal)
    (o : JsVal) : (applyLabelSettings m ids v o).sources = m.sources :=
  sources_foldl_update (fun m layerID =>
    (m.setLayoutProperty layerID "visibility" v).setPaintProperty layerID "text-opacity" o)
    (fun _ _ => rfl) ids m

theorem applyLabelSettings_log (m : MapEngine) (ids : List String) (v : LayoutVal)
    (o : JsVal) :
    ∃ cs, (applyLabelSettings m ids v o).log = m.log ++ cs ∧ (ids = [] → cs = []) ∧
      ∀ c ∈ cs, c.isPropertyCall = true := by
  refine log_foldl_update _ (fun c => c.isPropertyCall = true) ?_ ids m
  intro m a
  refine ⟨[.setLayoutProperty a "visibility" v, .setPaintProperty a "text-opacity" o], ?_, ?_⟩
  · simp [MapEngine.setPaintProperty, MapEngine.setLayoutProperty]
  · intro c hc
    simp only [List.mem_cons, List.mem_singleton, List.not_mem_nil, or_false] at hc
    rcases hc with rfl | rfl <;> rfl

theorem addLayer_sources (m : MapEngine) (l : Layer) : (m.addLayer l).sources = m.sources := by
  unfold MapEngine.addLayer
  split <;> rfl

theorem addLayer_log (m : MapEngine) (l : Layer) : (m.addLayer l).log = m.log ++ [.addLayer l] := by
  unfold MapEngine.addLayer
  split <;> rfl

theorem addLayer_layers (m : MapEngine) (l : Layer) :
    (m.addLayer l).layers = if (m.getLayer l.id).isSome then m.layers else m.layers ++ [l] := by
  unfold MapEngine.addLayer
  split <;> rfl

/-- A layer that is on the map stays the one found under its id when another
layer is added. -/
theorem getLayer_addLayer_of_some (m : MapEngine) (l l0 : Layer) (id : String)
    (h : m.getLayer id = some l0) : (m.addLayer l).getLayer id = some l0 := by
  rw [MapEngine.getLayer, addLayer_layers]
  split
  · exact h
  · rw [List.find?_append]
    rw [MapEngine.getLayer] at h
    simp [h]

/-- The engine after the two label loops of `reAddLayersAndSettings`. -/
theorem reAdd_unfold (vis op : Option Settings) (p : MapPanel) (m : MapEngine)
    (hm : p.map = some m) :
    ∃ m2 m3 m4, reAddLayersAndSettings vis op p =
        { map := some m4, countryLabelLayerIDs := (getLabelLayerIDs m).countryLabels,
          otherLabelLayerIDs := (getLabelLayerIDs m).otherLabels } ∧
      m2 = applyLabelSettings
        (applyLabelSettings m (getLabelLayerIDs m).countryLabels
          (visibilityOf vis "Country Label") (definedOr op "Country Label" (.num 1)))
        (getLabelLayerIDs m).otherLabels
          (visibilityOf vis "State and City Labels")
          (definedOr op "State and City Labels" (.num 1)) ∧
      m3 = (if (m2.getSource "speciesRange").isSome then m2.addLayer (speciesRangeLayer op)
        else m2) ∧
      m4 = (if (m3.getSource "observations").isSome then m3.addLayer (observationsLayer op)
        else m3) := by
  refine ⟨_, _, _, ?_, rfl, rfl, rfl⟩
  simp only [reAddLayersAndSettings, hm]

theorem visibilityOf_shows (vis : Option Settings) (name : String) (l : Layer)
    (h : l.visibility = visibilityOf vis name) : ShowsVisibilitySetting vis name l := by
  unfold ShowsVisibilitySetting entry
  rw [h]
  cases vis with
  | none => simp [visibilityOf]
  | some o =>
    simp only [visibilityOf, Option.some_bind]
    cases hv : getProp o name with
    | none => simp
    | some x =>
      cases x with
      | num q => simp
      | str t => simp
      | bool b => cases b <;> simp

theorem definedOr_shows (op : Option Settings) (name prop : String) (dflt : ℚ) (l : Layer)
    (h : getProp l.paint prop = some (definedOr op name (.num dflt))) :
    ShowsOpacitySetting op name prop dflt l := by
  unfold ShowsOpacitySetting entry
  rw [h]
  cases op with
  | none => simp [definedOr]
  | some o =>
    simp only [definedOr, Option.some_bind]
    cases hv : getProp o name with
    | none => simp
    | some x => simp

theorem withLabelSettings_shows (vis op : Option Settings) (name : String) (l : Layer) :
    ShowsVisibilitySetting vis name
        (l.withLabelSettings (visibilityOf vis name) (definedOr op name (.num 1))) ∧
      ShowsOpacitySetting op name "text-opacity" 1
        (l.withLabelSettings (visibilityOf vis name) (definedOr op name (.num 1))) := by
  constructor
  · apply visibilityOf_shows
    exact visibility_setLayout l _
  · apply definedOr_shows
    simp [Layer.withLabelSettings, Layer.setPaint, getProp_setProp_same]

theorem mem_countryLabels (m : MapEngine) (id : String)
    (h : id ∈ (getLabelLayerIDs m).countryLabels) :
    (∃ l, m.getLayer id = some l ∧ l.id = id) ∧ includes (toLowerCase id) "country" = true ∧
      includes (toLowerCase id) "label" = true := by
  rw [getLabelLayerIDs_eq_filter] at h
  simp only [List.mem_map, List.mem_filter, Bool.and_eq_true, isLabelLayer] at h
  obtain ⟨l, ⟨hl, ⟨-, h3⟩, h4⟩, rfl⟩ := h
  refine ⟨?_, h4, h3⟩
  have hs : (m.getLayer l.id).isSome = true := (getLayer_isSome_iff m l.id).mpr ⟨l, hl, rfl⟩
  obtain ⟨l1, h1⟩ := Option.isSome_iff_exists.mp hs
  refine ⟨l1, h1, ?_⟩
  have := List.find?_some h1
  simpa using this

theorem mem_otherLabels (m : MapEngine) (id : String)
    (h : id ∈ (getLabelLayerIDs m).otherLabels) :
    (∃ l, m.getLayer id = some l ∧ l.id = id) ∧ includes (toLowerCase id) "country" = false ∧
      includes (toLowerCase id) "label" = true := by
  rw [getLabelLayerIDs_eq_filter] at h
  simp only [List.mem_map, List.mem_filter, Bool.and_eq_true, isLabelLayer,
    Bool.not_eq_true'] at h
  obtain ⟨l, ⟨hl, ⟨-, h3⟩, h4⟩, rfl⟩ := h
  refine ⟨?_, h4, h3⟩
  have hs : (m.getLayer l.id).isSome = true := (getLayer_isSome_iff m l.id).mpr ⟨l, hl, rfl⟩
  obtain ⟨l1, h1⟩ := Option.isSome_iff_exists.mp hs
  refine ⟨l1, h1, ?_⟩
  have := List.find?_some h1
  simpa using this

/-- What the two label loops leave under an id that was on the map. -/
theorem getLayer_applyLabelSettings (m : MapEngine) (ids : List String) (v : LayoutVal)
    (o : JsVal) (id : String) :
    (applyLabelSettings m ids v o).getLayer id =
      (m.getLayer id).map (fun l => if l.id ∈ ids then l.withLabelSettings v o else l) := by
  rw [MapEngine.getLayer, applyLabelSettings_layers, MapEngine.getLayer]
  apply find_map_of_id_preserving
  intro l
  split <;> rfl

theorem getLayer_after_addLayers (m2 m3 m4 : MapEngine) (lr lo : Layer)
    (h3 : m3 = (if (m2.getSource "speciesRange").isSome then m2.addLayer lr else m2))
    (h4 : m4 = (if (m3.getSource "observations").isSome then m3.addLayer lo else m3))
    (id : String) (l : Layer) (h : m2.getLayer id = some l) : m4.getLayer id = some l := by
  have e3 : m3.getLayer id = some l := by
    rw [h3]
    split
    · exact getLayer_addLayer_of_some m2 lr l id h
    · exact h
  rw [h4]
  split
  · exact getLayer_addLayer_of_some m3 lo l id e3
  · exact e3

/-- C6: after `reAddLayersAndSettings` every id in the country-label list is a
layer whose visibility and text-opacity are those of the 'Country Label'
entries, and every id in the other-label list one whose visibility and
text-opacity are those of the 'State and City Labels' entries; an absent
visibility entry gives 'visible' and an absent opacity entry gives 1.0. -/
theorem reAdd_applies_label_settings (vis op : Option Settings) (p : MapPanel)
    (m : MapEngine) (hm : p.map = some m) :
    ∃ m4, (reAddLayersAndSettings vis op p).map = some m4 ∧
      (∀ id ∈ (reAddLayersAndSettings vis op p).countryLabelLayerIDs,
        ∃ l, m4.getLayer id = some l ∧ ShowsVisibilitySetting vis "Country Label" l ∧
          ShowsOpacitySetting op "Country Label" "text-opacity" 1 l) ∧
      (∀ id ∈ (reAddLayersAndSettings vis op p).otherLabelLayerIDs,
        ∃ l, m4.getLayer id = some l ∧ ShowsVisibilitySetting vis "State and City Labels" l ∧
          ShowsOpacitySetting op "State and City Labels" "text-opacity" 1 l) := by
  obtain ⟨m2, m3, m4, hre, h2, h3, h4⟩ := reAdd_unfold vis op p m hm
  rw [hre]
  refine ⟨m4, rfl, ?_, ?_⟩
  · intro id hid
    obtain ⟨⟨l1, hl1, hid1⟩, hc, -⟩ := mem_countryLabels m id hid
    have hno : id ∉ (getLabelLayerIDs m).otherLabels := by
      intro ho
      have := (mem_otherLabels m id ho).2.1
      rw [hc] at this
      exact Bool.noConfusion this
    have hid' : l1.id ∈ (getLabelLayerIDs m).countryLabels := hid1 ▸ hid
    have hno' : l1.id ∉ (getLabelLayerIDs m).otherLabels := hid1 ▸ hno
    have e2 : m2.getLayer id = some (l1.withLabelSettings (visibilityOf vis "Country Label")
        (definedOr op "Country Label" (.num 1))) := by
      rw [h2, getLayer_applyLabelSettings, getLayer_applyLabelSettings, hl1]
      have hid2 : (l1.withLabelSettings (visibilityOf vis "Country Label")
        (definedOr op "Country Label" (.num 1))).id = l1.id := rfl
      simp [hid', hid2, hno']
    refine ⟨_, getLayer_after_addLayers m2 m3 m4 _ _ h3 h4 id _ e2, ?_⟩
    exact withLabelSettings_shows vis op "Country Label" l1
  · intro id hid
    obtain ⟨⟨l1, hl1, hid1⟩, -, -⟩ := mem_otherLabels m id hid
    have hid' : l1.id ∈ (getLabelLayerIDs m).otherLabels := hid1 ▸ hid
    obtain ⟨l2, hl2, hid2⟩ : ∃ l2, (applyLabelSettings m (getLabelLayerIDs m).countryLabels
        (visibilityOf vis "Country Label") (definedOr op "Country Label" (.num 1))).getLayer id
          = some l2 ∧ l2.id = l1.id := by
      rw [getLayer_applyLabelSettings, hl1]
      refine ⟨_, rfl, ?_⟩
      show (if _ then _ else _ : Layer).id = l1.id
      split <;> rfl
    have e2 : m2.getLayer id = some (l2.withLabelSettings
        (visibilityOf vis "State and City Labels")
        (definedOr op "State and City Labels" (.num 1))) := by
      rw [h2, getLayer_applyLabelSettings, hl2]
      simp [hid2, hid']
    refine ⟨_, getLayer_after_addLayers m2 m3 m4 _ _ h3 h4 id _ e2, ?_⟩
    exact withLabelSettings_shows vis op "State and City Labels" l2

theorem reAdd_applies_label_settings_witness :
    swappedPanel.map = some swappedStyle ∧
    ∃ m4, (reAddLayersAndSettings (some hiddenOverlays) (some initialOpacity) swappedPanel).map
        = some m4 ∧
      (∀ id ∈ (reAddLayersAndSettings (some hiddenOverlays) (some initialOpacity)
          swappedPanel).countryLabelLayerIDs,
        ∃ l, m4.getLayer id = some l ∧
          ShowsVisibilitySetting (some hiddenOverlays) "Country Label" l ∧
          ShowsOpacitySetting (some initialOpacity) "Country Label" "text-opacity" 1 l) ∧
      (∀ id ∈ (reAddLayersAndSettings (some hiddenOverlays) (some initialOpacity)
          swappedPanel).otherLabelLayerIDs,
        ∃ l, m4.getLayer id = some l ∧
          ShowsVisibilitySetting (some hiddenOverlays) "State and City Labels" l ∧
          ShowsOpacitySetting (some initialOpacity) "State and City Labels" "text-opacity" 1 l) :=
  ⟨rfl, reAdd_applies_label_settings (some hiddenOverlays) (some initialOpacity) swappedPanel
    swappedStyle rfl⟩

/-! ## C7: the overlay layers re-added by `reAddLayersAndSettings` -/

theorem truthyOr_shows (op : Option Settings) (name prop : String) (d : ℚ) (l : Layer)
    (hr : OpacityInRange op name)
    (h : getProp l.paint prop = some (truthyOr op name (.num d))) :
    ShowsOpacitySetting op name prop d l := by
  unfold ShowsOpacitySetting
  rw [h]
  unfold OpacityInRange at hr
  cases op with
  | none => simp [truthyOr, entry]
  | some o =>
    simp only [entry, Option.some_bind] at hr ⊢
    cases hv : getProp o name with
    | none => simp [truthyOr, hv]
    | some x =>
      obtain ⟨q, rfl, hq, -⟩ := hr x hv
      have hq0 : q ≠ 0 := by
        intro h0
        rw [h0] at hq
        norm_num at hq
      simp [truthyOr, hv, JsVal.truthy, hq0]

theorem half_eq : (mkRat 1 2 : ℚ) = 1 / 2 := by
  rw [Rat.mkRat_eq_div]
  norm_num

theorem four_fifths_eq : (mkRat 4 5 : ℚ) = 4 / 5 := by
  rw [Rat.mkRat_eq_div]
  norm_num

theorem getSource_congr (m m2 : MapEngine) (h : m2.sources = m.sources) (id : String) :
    m2.getSource id = m.getSource id := by
  rw [MapEngine.getSource, h, MapEngine.getSource]

theorem reAdd_sources_log (vis op : Option Settings) (p : MapPanel) (m : MapEngine)
    (hm : p.map = some m) :
    ∃ m4 cs, (reAddLayersAndSettings vis op p).map = some m4 ∧
      m4.sources = m.sources ∧
      (∀ c ∈ cs, c.isPropertyCall = true) ∧
      m4.log = m.log ++ (cs ++
        ((if (m.getSource "speciesRange").isSome then [Call.addLayer (speciesRangeLayer op)]
          else []) ++
        (if (m.getSource "observations").isSome then [Call.addLayer (observationsLayer op)]
          else []))) := by
  obtain ⟨m2, m3, m4, hre, h2, h3, h4⟩ := reAdd_unfold vis op p m hm
  have s2 : m2.sources = m.sources := by
    rw [h2, applyLabelSettings_sources, applyLabelSettings_sources]
  obtain ⟨cs1, hl1, -, hp1⟩ := applyLabelSettings_log m (getLabelLayerIDs m).countryLabels
    (visibilityOf vis "Country Label") (definedOr op "Country Label" (.num 1))
  obtain ⟨cs2, hl2, -, hp2⟩ := applyLabelSettings_log
    (applyLabelSettings m (getLabelLayerIDs m).countryLabels
      (visibilityOf vis "Country Label") (definedOr op "Country Label" (.num 1)))
    (getLabelLayerIDs m).otherLabels
    (visibilityOf vis "State and City Labels") (definedOr op "State and City Labels" (.num 1))
  have l2 : m2.log = m.log ++ (cs1 ++ cs2) := by
    rw [h2, hl2, hl1, List.append_assoc]
  have s3 : m3.sources = m.sources := by
    rw [h3]
    split
    · rw [addLayer_sources, s2]
    · exact s2
  have l3 : m3.log = m2.log ++
      (if (m.getSource "speciesRange").isSome then [Call.addLayer (speciesRangeLayer op)]
        else []) := by
    rw [h3, getSource_congr m m2 s2]
    split
    · rw [addLayer_log]
    · simp
  have s4 : m4.sources = m.sources := by
    rw [h4]
    split
    · rw [addLayer_sources, s3]
    · exact s3
  have l4 : m4.log = m3.log ++
      (if (m.getSource "observations").isSome then [Call.addLayer (observationsLayer op)]
        else []) := by
    rw [h4, getSource_congr m m3 s3]
    split
    · rw [addLayer_log]
    · simp
  refine ⟨m4, cs1 ++ cs2, by rw [hre], s4, ?_, ?_⟩
  · intro c hc
    rcases List.mem_append.mp hc with h | h
    · exact hp1 c h
    · exact hp2 c h
  · rw [l4, l3, l2]
    simp only [List.append_assoc]

/-- The overlay layers on the map after `reAddLayersAndSettings` when the style
had none. -/
theorem reAdd_fresh_layers (vis op : Option Settings) (p : MapPanel) (m : MapEngine)
    (hm : p.map = some m) :
    ∃ m4, (reAddLayersAndSettings vis op p).map = some m4 ∧
      (m.getLayer "speciesRangeLayer" = none → (m.getSource "speciesRange").isSome = true →
        m4.getLayer "speciesRangeLayer" = some (speciesRangeLayer op)) ∧
      (m.getLayer "observationsLayer" = none → (m.getSource "observations").isSome = true →
        m4.getLayer "observationsLayer" = some (observationsLayer op)) := by
  obtain ⟨m2, m3, m4, hre, h2, h3, h4⟩ := reAdd_unfold vis op p m hm
  have s2 : m2.sources = m.sources := by
    rw [h2, applyLabelSettings_sources, applyLabelSettings_sources]
  have s3 : m3.sources = m.sources := by
    rw [h3]
    split
    · rw [addLayer_sources, s2]
    · exact s2
  have g2 : ∀ id, m.getLayer id = none → m2.getLayer id = none := by
    intro id hid
    rw [h2, getLayer_applyLabelSettings, getLayer_applyLabelSettings, hid]
    rfl
  refine ⟨m4, by rw [hre], ?_, ?_⟩
  · intro hno hsrc
    have e3 : m3.getLayer "speciesRangeLayer" = some (speciesRangeLayer op) := by
      rw [h3, getSource_congr m m2 s2, if_pos hsrc, MapEngine.getLayer, addLayer_layers]
      have : m2.getLayer (speciesRangeLayer op).id = none := g2 _ hno
      rw [this]
      have h5 := g2 _ hno
      rw [MapEngine.getLayer] at h5
      simp [List.find?_append, h5, speciesRangeLayer]
    rw [h4]
    split
    · exact getLayer_addLayer_of_some m3 _ _ _ e3
    · exact e3
  · intro hno hsrc
    have e3 : m3.getLayer "observationsLayer" = none := by
      rw [h3]
      have h5 := g2 _ hno
      split
      · rw [MapEngine.getLayer, addLayer_layers]
        rw [MapEngine.getLayer] at h5
        split
        · exact h5
        · simp [List.find?_append, h5, speciesRangeLayer]
      · exact h5
    rw [h4, getSource_congr m m3 s3, if_pos hsrc, MapEngine.getLayer, addLayer_layers]
    have : m3.getLayer (observationsLayer op).id = none := e3
    rw [this]
    rw [MapEngine.getLayer] at e3
    simp [List.find?_append, e3, observationsLayer]

/-- C7: `reAddLayersAndSettings` calls `addLayer` for `speciesRangeLayer` exactly
when the source `speciesRange` exists, with a fill layer on that source,
fill-color 'rgba(34, 139, 34, 0.5)' and the Range opacity setting (0.5 when
unset) as fill-opacity; it calls `addLayer` for `observationsLayer` exactly when
the source `observations` exists, with a circle layer on that source, radius 4,
color '#ff4500', stroke color '#ffffff', stroke width 1 and the Observations
opacity setting (0.8 when unset) as circle-opacity; on a style without these
layers the added layers are on the map afterwards; and no source is added or
removed.  Opacity entries are those of the data model, numbers in [0.1, 1.0]. -/
theorem reAdd_readds_overlay_layers (vis op : Option Settings) (p : MapPanel)
    (m : MapEngine) (hm : p.map = some m) :
    ∃ m4 calls, (reAddLayersAndSettings vis op p).map = some m4 ∧ m4.log = m.log ++ calls ∧
      m4.sources = m.sources ∧
      (∀ c ∈ calls, (∀ id d, c ≠ .addSource id d) ∧ ∀ id, c ≠ .removeSource id) ∧
      ((∃ layer, Call.addLayer layer ∈ calls ∧ layer.id = "speciesRangeLayer") ↔
        (m.getSource "speciesRange").isSome = true) ∧
      (∀ layer, Call.addLayer layer ∈ calls → layer.id = "speciesRangeLayer" →
        layer.type = "fill" ∧ layer.source = some "speciesRange" ∧
        getProp layer.paint "fill-color" = some (.str "rgba(34, 139, 34, 0.5)") ∧
        (OpacityInRange op "Range" →
          ShowsOpacitySetting op "Range" "fill-opacity" (1 / 2) layer) ∧
        (m.getLayer "speciesRangeLayer" = none →
          m4.getLayer "speciesRangeLayer" = some layer)) ∧
      ((∃ layer, Call.addLayer layer ∈ calls ∧ layer.id = "observationsLayer") ↔
        (m.getSource "observations").isSome = true) ∧
      (∀ layer, Call.addLayer layer ∈ calls → layer.id = "observationsLayer" →
        layer.type = "circle" ∧ layer.source = some "observations" ∧
        getProp layer.paint "circle-radius" = some (.num 4) ∧
        getProp layer.paint "circle-color" = some (.str "#ff4500") ∧
        getProp layer.paint "circle-stroke-color" = some (.str "#ffffff") ∧
        getProp layer.paint "circle-stroke-width" = some (.num 1) ∧
        (OpacityInRange op "Observations" →
          ShowsOpacitySetting op "Observations" "circle-opacity" (4 / 5) layer) ∧
        (m.getLayer "observationsLayer" = none →
          m4.getLayer "observationsLayer" = some layer)) := by
  obtain ⟨m4, cs, hmap, hsrc, hprop, hlog⟩ := reAdd_sources_log vis op p m hm
  obtain ⟨m4', hmap', hfr, hfo⟩ := reAdd_fresh_layers vis op p m hm
  have e4 : m4' = m4 := Option.some.inj (hmap'.symm.trans hmap)
  subst e4
  have hkey : ∀ layer, Call.addLayer layer ∈ cs ++
      ((if (m.getSource "speciesRange").isSome then [Call.addLayer (speciesRangeLayer op)]
          else []) ++
        (if (m.getSource "observations").isSome then [Call.addLayer (observationsLayer op)]
          else [])) ↔
      ((m.getSource "speciesRange").isSome = true ∧ layer = speciesRangeLayer op) ∨
      ((m.getSource "observations").isSome = true ∧ layer = observationsLayer op) := by
    intro layer
    have hcs : Call.addLayer layer ∉ cs := fun h => Bool.noConfusion (hprop _ h)
    by_cases hr : (m.getSource "speciesRange").isSome = true <;>
      by_cases ho : (m.getSource "observations").isSome = true <;>
      simp [hcs, hr, ho]
  have hidR : (speciesRangeLayer op).id = "speciesRangeLayer" := rfl
  have hidO : (observationsLayer op).id = "observationsLayer" := rfl
  refine ⟨m4', _, hmap', hlog, hsrc, ?_, ?_, ?_, ?_, ?_⟩
  · intro c hc
    rcases List.mem_append.mp hc with h | h
    · have := hprop c h
      constructor
      · intro id d e
        rw [e] at this
        exact Bool.noConfusion this
      · intro id e
        rw [e] at this
        exact Bool.noConfusion this
    · by_cases hr : (m.getSource "speciesRange").isSome = true <;>
        by_cases ho : (m.getSource "observations").isSome = true <;>
        simp only [hr, ho, if_true, if_false, List.mem_append, List.mem_singleton,
          List.not_mem_nil, or_false, false_or, Bool.false_eq_true] at h
      · rcases h with rfl | rfl <;> exact ⟨fun _ _ e => Call.noConfusion e,
          fun _ e => Call.noConfusion e⟩
      · subst h
        exact ⟨fun _ _ e => Call.noConfusion e, fun _ e => Call.noConfusion e⟩
      · subst h
        exact ⟨fun _ _ e => Call.noConfusion e, fun _ e => Call.noConfusion e⟩
  · constructor
    · rintro ⟨layer, hl, hid⟩
      rcases (hkey layer).mp hl with ⟨h, -⟩ | ⟨-, rfl⟩
      · exact h
      · rw [hidO] at hid
        exact absurd hid (by decide)
    · intro h
      exact ⟨speciesRangeLayer op, (hkey _).mpr (Or.inl ⟨h, rfl⟩), rfl⟩
  · intro layer hl hid
    rcases (hkey layer).mp hl with ⟨h, rfl⟩ | ⟨-, rfl⟩
    · refine ⟨rfl, rfl, ?_, ?_, fun hno => hfr hno h⟩
      · simp [speciesRangeLayer, getProp]
      · intro hrange
        apply truthyOr_shows op "Range" "fill-opacity" (1 / 2) _ hrange
        simp [speciesRangeLayer, getProp, half_eq]
    · rw [hidO] at hid
      exact absurd hid (by decide)
  · constructor
    · rintro ⟨layer, hl, hid⟩
      rcases (hkey layer).mp hl with ⟨-, rfl⟩ | ⟨h, -⟩
      · rw [hidR] at hid
        exact absurd hid (by decide)
      · exact h
    · intro h
      exact ⟨observationsLayer op, (hkey _).mpr (Or.inr ⟨h, rfl⟩), rfl⟩
  · intro layer hl hid
    rcases (hkey layer).mp hl with ⟨-, rfl⟩ | ⟨h, rfl⟩
    · rw [hidR] at hid
      exact absurd hid (by decide)
    · refine ⟨rfl, rfl, ?_, ?_, ?_, ?_, ?_, fun hno => hfo hno h⟩
      · simp [observationsLayer, getProp]
      · simp [observationsLayer, getProp]
      · simp [observationsLayer, getProp]
      · simp [observationsLayer, getProp]
      · intro hrange
        apply truthyOr_shows op "Observations" "circle-opacity" (4 / 5) _ hrange
        simp [observationsLayer, getProp, four_fifths_eq]

theorem reAdd_readds_overlay_layers_witness :
    swappedPanel.map = some swappedStyle ∧
    ∃ m4 calls, (reAddLayersAndSettings (some hiddenOverlays) (some initialOpacity)
        swappedPanel).map = some m4 ∧ m4.log = swappedStyle.log ++ calls ∧
      m4.sources = swappedStyle.sources ∧
      (∀ c ∈ calls, (∀ id d, c ≠ .addSource id d) ∧ ∀ id, c ≠ .removeSource id) ∧
      ((∃ layer, Call.addLayer layer ∈ calls ∧ layer.id = "speciesRangeLayer") ↔
        (swappedStyle.getSource "speciesRange").isSome = true) ∧
      (∀ layer, Call.addLayer layer ∈ calls → layer.id = "speciesRangeLayer" →
        layer.type = "fill" ∧ layer.source = some "speciesRange" ∧
        getProp layer.paint "fill-color" = some (.str "rgba(34, 139, 34, 0.5)") ∧
        (OpacityInRange (some initialOpacity) "Range" →
          ShowsOpacitySetting (some initialOpacity) "Range" "fill-opacity" (1 / 2) layer) ∧
        (swappedStyle.getLayer "speciesRangeLayer" = none →
          m4.getLayer "speciesRangeLayer" = some layer)) ∧
      ((∃ layer, Call.addLayer layer ∈ calls ∧ layer.id = "observationsLayer") ↔
        (swappedStyle.getSource "observations").isSome = true) ∧
      (∀ layer, Call.addLayer layer ∈ calls → layer.id = "observationsLayer" →
        layer.type = "circle" ∧ layer.source = some "observations" ∧
        getProp layer.paint "circle-radius" = some (.num 4) ∧
        getProp layer.paint "circle-color" = some (.str "#ff4500") ∧
        getProp layer.paint "circle-stroke-color" = some (.str "#ffffff") ∧
        getProp layer.paint "circle-stroke-width" = some (.num 1) ∧
        (OpacityInRange (some initialOpacity) "Observations" →
          ShowsOpacitySetting (some initialOpacity) "Observations" "circle-opacity" (4 / 5)
            layer) ∧
        (swappedStyle.getLayer "observationsLayer" = none →
          m4.getLayer "observationsLayer" = some layer)) :=
  ⟨rfl, reAdd_readds_overlay_layers (some hiddenOverlays) (some initialOpacity) swappedPanel
    swappedStyle rfl⟩

/-! ## C8: the cached label-ID lists -/

theorem isLabelLayer_withLabelSettings (v : LayoutVal) (o : JsVal) (l : Layer) :
    isLabelLayer (l.withLabelSettings v o) = isLabelLayer l := by
  have h1 : hasTextField (l.withLabelSettings v o) = hasTextField (l.setLayout "visibility" v) :=
    rfl
  have h2 : (l.withLabelSettings v o).type = l.type := rfl
  have h3 : (l.withLabelSettings v o).id = l.id := rfl
  simp only [isLabelLayer, h1, h2, h3, hasTextField_setLayout_visibility]

/-- Label classification only looks at id, type and text-field: updating layers
in place with label settings and adding non-label layers does not change it. -/
theorem getLabelLayerIDs_congr (m m2 : MapEngine) (F : Layer → Layer) (extra : List Layer)
    (hF : ∀ l, (F l).id = l.id ∧ isLabelLayer (F l) = isLabelLayer l)
    (hextra : ∀ l ∈ extra, isLabelLayer l = false)
    (h : m2.layers = m.layers.map F ++ extra) :
    getLabelLayerIDs m2 = getLabelLayerIDs m := by
  have hf : ∀ q : Layer → Bool, extra.filter (fun l => isLabelLayer l && q l) = [] := by
    intro q
    rw [List.filter_eq_nil_iff]
    intro l hl
    simp [hextra l hl]
  rw [getLabelLayerIDs_eq_filter, getLabelLayerIDs_eq_filter, h]
  simp only [List.filter_append, hf, List.append_nil, List.filter_map, List.map_map]
  have e1 : ((fun l : Layer => isLabelLayer l && includes (toLowerCase l.id) "country") ∘ F)
      = (fun l : Layer => isLabelLayer l && includes (toLowerCase l.id) "country") := by
    funext l
    simp [(hF l).1, (hF l).2]
  have e2 : ((fun l : Layer => isLabelLayer l && !includes (toLowerCase l.id) "country") ∘ F)
      = (fun l : Layer => isLabelLayer l && !includes (toLowerCase l.id) "country") := by
    funext l
    simp [(hF l).1, (hF l).2]
  have e3 : ((fun l : Layer => l.id) ∘ F) = (fun l : Layer => l.id) := by
    funext l
    simp [(hF l).1]
  rw [e1, e2, e3]

theorem addLayer_layers_append (m : MapEngine) (l : Layer) :
    ∃ e, (m.addLayer l).layers = m.layers ++ e ∧ ∀ x ∈ e, x = l := by
  rw [addLayer_layers]
  split
  · exact ⟨[], by simp, by simp⟩
  · exact ⟨[l], rfl, by simp⟩

/-- C8: whatever the cached label-ID lists held before, after
`reAddLayersAndSettings` they are exactly the two lists `getLabelLayerIDs`
returns for the current style (the style the call reads, and equally the style
as the call leaves it); an ID that is not a label layer of the current style,
such as one cached from the previous style, is in neither cached list. -/
theorem reAdd_replaces_label_cache (vis op : Option Settings) (p : MapPanel)
    (m : MapEngine) (hm : p.map = some m) :
    (reAddLayersAndSettings vis op p).countryLabelLayerIDs = (getLabelLayerIDs m).countryLabels ∧
    (reAddLayersAndSettings vis op p).otherLabelLayerIDs = (getLabelLayerIDs m).otherLabels ∧
    (∃ m4, (reAddLayersAndSettings vis op p).map = some m4 ∧
      getLabelLayerIDs m4 = getLabelLayerIDs m) ∧
    (∀ id, id ∉ (getLabelLayerIDs m).countryLabels → id ∉ (getLabelLayerIDs m).otherLabels →
      id ∉ (reAddLayersAndSettings vis op p).countryLabelLayerIDs ∧
      id ∉ (reAddLayersAndSettings vis op p).otherLabelLayerIDs) := by
  obtain ⟨m2, m3, m4, hre, h2, h3, h4⟩ := reAdd_unfold vis op p m hm
  rw [hre]
  refine ⟨rfl, rfl, ⟨m4, rfl, ?_⟩, fun id h1 h2 => ⟨h1, h2⟩⟩
  have l2 : m2.layers = m.layers.map
      ((fun l => if l.id ∈ (getLabelLayerIDs m).otherLabels then
          l.withLabelSettings (visibilityOf vis "State and City Labels")
            (definedOr op "State and City Labels" (.num 1)) else l) ∘
        (fun l => if l.id ∈ (getLabelLayerIDs m).countryLabels then
          l.withLabelSettings (visibilityOf vis "Country Label")
            (definedOr op "Country Label" (.num 1)) else l)) := by
    rw [h2, applyLabelSettings_layers, applyLabelSettings_layers, List.map_map]
  obtain ⟨e3, l3, he3⟩ : ∃ e, m3.layers = m2.layers ++ e ∧ ∀ x ∈ e, x = speciesRangeLayer op := by
    rw [h3]
    split
    · exact addLayer_layers_append m2 _
    · exact ⟨[], by simp, by simp⟩
  obtain ⟨e4, l4, he4⟩ : ∃ e, m4.layers = m3.layers ++ e ∧ ∀ x ∈ e, x = observationsLayer op := by
    rw [h4]
    split
    · exact addLayer_layers_append m3 _
    · exact ⟨[], by simp, by simp⟩
  refine getLabelLayerIDs_congr m m4 _ (e3 ++ e4) ?_ ?_
    (by rw [l4, l3, l2, List.append_assoc])
  · intro l
    have hstep : ∀ (ids : List String) (v : LayoutVal) (o : JsVal) (x : Layer),
        (if x.id ∈ ids then x.withLabelSettings v o else x).id = x.id ∧
        isLabelLayer (if x.id ∈ ids then x.withLabelSettings v o else x) = isLabelLayer x := by
      intro ids v o x
      split
      · exact ⟨rfl, isLabelLayer_withLabelSettings v o x⟩
      · exact ⟨rfl, rfl⟩
    simp only [Function.comp]
    constructor
    · rw [(hstep _ _ _ _).1, (hstep _ _ _ _).1]
    · rw [(hstep _ _ _ _).2, (hstep _ _ _ _).2]
  · intro l hl
    rcases List.mem_append.mp hl with h | h
    · rw [he3 l h]
      simp [isLabelLayer, speciesRangeLayer]
    · rw [he4 l h]
      simp [isLabelLayer, observationsLayer]

theorem reAdd_replaces_label_cache_witness :
    swappedPanel.map = some swappedStyle ∧
    (reAddLayersAndSettings (some hiddenOverlays) (some initialOpacity)
      swappedPanel).countryLabelLayerIDs = (getLabelLayerIDs swappedStyle).countryLabels ∧
    (reAddLayersAndSettings (some hiddenOverlays) (some initialOpacity)
      swappedPanel).otherLabelLayerIDs = (getLabelLayerIDs swappedStyle).otherLabels ∧
    (∃ m4, (reAddLayersAndSettings (some hiddenOverlays) (some initialOpacity)
        swappedPanel).map = some m4 ∧
      getLabelLayerIDs m4 = getLabelLayerIDs swappedStyle) ∧
    (∀ id, id ∉ (getLabelLayerIDs swappedStyle).countryLabels →
      id ∉ (getLabelLayerIDs swappedStyle).otherLabels →
      id ∉ (reAddLayersAndSettings (some hiddenOverlays) (some initialOpacity)
        swappedPanel).countryLabelLayerIDs ∧
      id ∉ (reAddLayersAndSettings (some hiddenOverlays) (some initialOpacity)
        swappedPanel).otherLabelLayerIDs) :=
  ⟨rfl, reAdd_replaces_label_cache (some hiddenOverlays) (some initialOpacity) swappedPanel
    swappedStyle rfl⟩

/-! ## C9 and C10: the settings effects -/

theorem getLayer_id (m : MapEngine) (id : String) (l : Layer) (h : m.getLayer id = some l) :
    l.id = id := by
  have := List.find?_some h
  simpa using this

theorem getLayer_setLayoutProperty_if (m : MapEngine) (a n : String) (v : LayoutVal)
    (id : String) :
    (if (m.getLayer a).isSome then m.setLayoutProperty a n v else m).getLayer id =
      (m.getLayer id).map (fun l => if l.id = a then l.setLayout n v else l) := by
  split
  · rw [MapEngine.getLayer, MapEngine.setLayoutProperty, MapEngine.getLayer]
    apply find_map_of_id_preserving
    intro l
    split <;> rfl
  · rename_i hno
    cases hl : m.getLayer id with
    | none => rfl
    | some l =>
      have hid := getLayer_id m id l hl
      have hne : l.id ≠ a := by
        intro e
        rw [hid] at e
        rw [← e, hl] at hno
        exact hno rfl
      simp [hne]

theorem getLayer_foldl_setVisibility (m : MapEngine) (ids : List String) (v : LayoutVal)
    (id : String) :
    (if ids.length > 0 then
        ids.foldl (fun m layerID => m.setLayoutProperty layerID "visibility" v) m
      else m).getLayer id =
      (m.getLayer id).map (fun l => if l.id ∈ ids then l.setLayout "visibility" v else l) := by
  have hfold : (if ids.length > 0 then
        ids.foldl (fun m layerID => m.setLayoutProperty layerID "visibility" v) m
      else m) = ids.foldl (fun m layerID => m.setLayoutProperty layerID "visibility" v) m := by
    cases ids with
    | nil => rfl
    | cons a t => simp
  rw [hfold, MapEngine.getLayer,
    layers_foldl_update (fun m layerID => m.setLayoutProperty layerID "visibility" v)
      (fun l => l.setLayout "visibility" v) (fun l => setLayout_idem l _ _) (fun l => rfl)
      (fun m a => rfl) ids m, MapEngine.getLayer]
  apply find_map_of_id_preserving
  intro l
  split <;> rfl

theorem id_ite_setLayout (c : Prop) [Decidable c] (l : Layer) (n : String) (v : LayoutVal) :
    (if c then l.setLayout n v else l).id = l.id := by
  split <;> rfl

theorem visibility_effect_unfold (vis : Option Settings) (p : MapPanel) (m : MapEngine)
    (hm : p.map = some m) :
    ∃ m1 m2 m3 m4, useEffect_visibilitySettings vis p = { p with map := some m4 } ∧
      m1 = (if (m.getLayer "speciesRangeLayer").isSome then
        m.setLayoutProperty "speciesRangeLayer" "visibility" (visibilityOf vis "Range")
        else m) ∧
      m2 = (if (m1.getLayer "observationsLayer").isSome then
        m1.setLayoutProperty "observationsLayer" "visibility"
          (visibilityOf vis "Observations")
        else m1) ∧
      m3 = (if p.countryLabelLayerIDs.length > 0 then
        p.countryLabelLayerIDs.foldl (fun m layerID =>
          m.setLayoutProperty layerID "visibility" (visibilityOf vis "Country Label")) m2
        else m2) ∧
      m4 = (if p.otherLabelLayerIDs.length > 0 then
        p.otherLabelLayerIDs.foldl (fun m layerID =>
          m.setLayoutProperty layerID "visibility"
            (visibilityOf vis "State and City Labels")) m3
        else m3) := by
  refine ⟨_, _, _, _, ?_, rfl, rfl, rfl, rfl⟩
  simp only [useEffect_visibilitySettings, hm]

/-- C9: when the visibility effect runs on an initialised map whose cached
label lists are those computed by `getLabelLayerIDs` for some style, each
overlay layer that exists and each cached label ID that is a layer ends with
visibility 'none' if the setting of its layer name is exactly `false` and
'visible' in every other case (key absent, or no settings object). -/
theorem visibility_effect_applies_settings (vis : Option Settings) (p : MapPanel)
    (m : MapEngine) (hm : p.map = some m)
    (hcache : ∃ style, p.countryLabelLayerIDs = (getLabelLayerIDs style).countryLabels ∧
      p.otherLabelLayerIDs = (getLabelLayerIDs style).otherLabels) :
    ∃ m4, (useEffect_visibilitySettings vis p).map = some m4 ∧
      (∀ l, m.getLayer "speciesRangeLayer" = some l →
        ∃ l2, m4.getLayer "speciesRangeLayer" = some l2 ∧
          ShowsVisibilitySetting vis "Range" l2) ∧
      (∀ l, m.getLayer "observationsLayer" = some l →
        ∃ l2, m4.getLayer "observationsLayer" = some l2 ∧
          ShowsVisibilitySetting vis "Observations" l2) ∧
      (∀ id ∈ p.countryLabelLayerIDs, ∀ l, m.getLayer id = some l →
        ∃ l2, m4.getLayer id = some l2 ∧ ShowsVisibilitySetting vis "Country Label" l2) ∧
      (∀ id ∈ p.otherLabelLayerIDs, ∀ l, m.getLayer id = some l →
        ∃ l2, m4.getLayer id = some l2 ∧
          ShowsVisibilitySetting vis "State and City Labels" l2) := by
  obtain ⟨style, hc, ho⟩ := hcache
  have hlabC : ∀ id ∈ p.countryLabelLayerIDs, includes (toLowerCase id) "label" = true ∧
      includes (toLowerCase id) "country" = true := by
    intro id hid
    rw [hc] at hid
    exact ⟨(mem_countryLabels style id hid).2.2, (mem_countryLabels style id hid).2.1⟩
  have hlabO : ∀ id ∈ p.otherLabelLayerIDs, includes (toLowerCase id) "label" = true ∧
      includes (toLowerCase id) "country" = false := by
    intro id hid
    rw [ho] at hid
    exact ⟨(mem_otherLabels style id hid).2.2, (mem_otherLabels style id hid).2.1⟩
  have hRC : "speciesRangeLayer" ∉ p.countryLabelLayerIDs :=
    fun h => absurd (hlabC _ h).1 (by decide)
  have hRO : "speciesRangeLayer" ∉ p.otherLabelLayerIDs :=
    fun h => absurd (hlabO _ h).1 (by decide)
  have hOC : "observationsLayer" ∉ p.countryLabelLayerIDs :=
    fun h => absurd (hlabC _ h).1 (by decide)
  have hOO : "observationsLayer" ∉ p.otherLabelLayerIDs :=
    fun h => absurd (hlabO _ h).1 (by decide)
  obtain ⟨m1, m2, m3, m4, heff, h1, h2, h3, h4⟩ := visibility_effect_unfold vis p m hm
  have hmap : (useEffect_visibilitySettings vis p).map = some m4 := by rw [heff]
  have hget4 : ∀ id, m4.getLayer id = ((((m.getLayer id).map
        (fun l => if l.id = "speciesRangeLayer" then
          l.setLayout "visibility" (visibilityOf vis "Range") else l)).map
        (fun l => if l.id = "observationsLayer" then
          l.setLayout "visibility" (visibilityOf vis "Observations") else l)).map
        (fun l => if l.id ∈ p.countryLabelLayerIDs then
          l.setLayout "visibility" (visibilityOf vis "Country Label") else l)).map
        (fun l => if l.id ∈ p.otherLabelLayerIDs then
          l.setLayout "visibility" (visibilityOf vis "State and City Labels") else l) := by
    intro id
    rw [h4, getLayer_foldl_setVisibility, h3, getLayer_foldl_setVisibility, h2,
      getLayer_setLayoutProperty_if, h1, getLayer_setLayoutProperty_if]
  have hsl : ∀ (l : Layer) (v : LayoutVal), (l.setLayout "visibility" v).id = l.id :=
    fun _ _ => rfl
  refine ⟨m4, hmap, ?_, ?_, ?_, ?_⟩
  · intro l hl
    have hid := getLayer_id m _ l hl
    refine ⟨l.setLayout "visibility" (visibilityOf vis "Range"), ?_, ?_⟩
    · rw [hget4, hl]
      simp [hid, hsl, hRC, hRO]
    · exact visibilityOf_shows vis "Range" _ (visibility_setLayout l _)
  · intro l hl
    have hid := getLayer_id m _ l hl
    refine ⟨l.setLayout "visibility" (visibilityOf vis "Observations"), ?_, ?_⟩
    · rw [hget4, hl]
      simp [hid, hsl, hOC, hOO]
    · exact visibilityOf_shows vis "Observations" _ (visibility_setLayout l _)
  · intro id hidC l hl
    have hid := getLayer_id m _ l hl
    have hnotO : id ∉ p.otherLabelLayerIDs := by
      intro h
      have h1 := (hlabC id hidC).2
      rw [(hlabO id h).2] at h1
      exact Bool.noConfusion h1
    obtain ⟨x, hx, hxid⟩ : ∃ x : Layer, ((Option.map
        (fun l => if l.id = "observationsLayer" then
          l.setLayout "visibility" (visibilityOf vis "Observations") else l)
        (Option.map (fun l => if l.id = "speciesRangeLayer" then
          l.setLayout "visibility" (visibilityOf vis "Range") else l) (some l))) = some x) ∧
        x.id = id := by
      refine ⟨_, rfl, ?_⟩
      simp only [id_ite_setLayout, hid]
    refine ⟨x.setLayout "visibility" (visibilityOf vis "Country Label"), ?_, ?_⟩
    · rw [hget4, hl, hx]
      simp [hxid, hsl, hidC, hnotO]
    · exact visibilityOf_shows vis "Country Label" _ (visibility_setLayout x _)
  · intro id hidO l hl
    have hid := getLayer_id m _ l hl
    obtain ⟨x, hx, hxid⟩ : ∃ x : Layer, (Option.map
        (fun l => if l.id ∈ p.countryLabelLayerIDs then
          l.setLayout "visibility" (visibilityOf vis "Country Label") else l)
        (Option.map
        (fun l => if l.id = "observationsLayer" then
          l.setLayout "visibility" (visibilityOf vis "Observations") else l)
        (Option.map (fun l => if l.id = "speciesRangeLayer" then
          l.setLayout "visibility" (visibilityOf vis "Range") else l) (some l))) = some x) ∧
        x.id = id := by
      refine ⟨_, rfl, ?_⟩
      simp only [id_ite_setLayout, hid]
    refine ⟨x.setLayout "visibility" (visibilityOf vis "State and City Labels"), ?_, ?_⟩
    · rw [hget4, hl, hx]
      simp [hxid, hidO]
    · exact visibilityOf_shows vis "State and City Labels" _ (visibility_setLayout x _)

theorem visibility_effect_applies_settings_witness :
    shownPanel.map = some shownMap ∧
    (∃ style, shownPanel.countryLabelLayerIDs = (getLabelLayerIDs style).countryLabels ∧
      shownPanel.otherLabelLayerIDs = (getLabelLayerIDs style).otherLabels) ∧
    ∃ m4, (useEffect_visibilitySettings (some hiddenOverlays) shownPanel).map = some m4 ∧
      (∀ l, shownMap.getLayer "speciesRangeLayer" = some l →
        ∃ l2, m4.getLayer "speciesRangeLayer" = some l2 ∧
          ShowsVisibilitySetting (some hiddenOverlays) "Range" l2) ∧
      (∀ l, shownMap.getLayer "observationsLayer" = some l →
        ∃ l2, m4.getLayer "observationsLayer" = some l2 ∧
          ShowsVisibilitySetting (some hiddenOverlays) "Observations" l2) ∧
      (∀ id ∈ shownPanel.countryLabelLayerIDs, ∀ l, shownMap.getLayer id = some l →
        ∃ l2, m4.getLayer id = some l2 ∧
          ShowsVisibilitySetting (some hiddenOverlays) "Country Label" l2) ∧
      (∀ id ∈ shownPanel.otherLabelLayerIDs, ∀ l, shownMap.getLayer id = some l →
        ∃ l2, m4.getLayer id = some l2 ∧
          ShowsVisibilitySetting (some hiddenOverlays) "State and City Labels" l2) :=
  ⟨rfl, ⟨sampleStyle, by decide, by decide⟩,
    visibility_effect_applies_settings (some hiddenOverlays) shownPanel shownMap rfl
      ⟨sampleStyle, by decide, by decide⟩⟩

/-- C10: when the visibility effect or the opacity effect runs while the map is
not yet created, or while neither `speciesRangeLayer` nor `observationsLayer`
exists and both cached label-ID lists are empty, the component is left exactly
as it was: the same sources and layers, and no call reaches the engine (its
call log is unchanged). -/
theorem settings_effects_idle (vis op : Option Settings) (p : MapPanel)
    (h : p.map = none ∨ ∃ m, p.map = some m ∧ m.getLayer "speciesRangeLayer" = none ∧
      m.getLayer "observationsLayer" = none ∧ p.countryLabelLayerIDs = [] ∧
      p.otherLabelLayerIDs = []) :
    useEffect_visibilitySettings vis p = p ∧ useEffect_opacitySettings op p = p := by
  obtain ⟨pm, pc, po⟩ := p
  rcases h with h | ⟨m, hm, hr, ho, hc, hoth⟩
  · simp only at h
    subst h
    exact ⟨rfl, rfl⟩
  · simp only at hm hc hoth
    subst hm hc hoth
    simp [useEffect_visibilitySettings, useEffect_opacitySettings, hr, ho]

theorem settings_effects_idle_witness :
    (samplePanel.map = none ∨ ∃ m, samplePanel.map = some m ∧
      m.getLayer "speciesRangeLayer" = none ∧ m.getLayer "observationsLayer" = none ∧
      samplePanel.countryLabelLayerIDs = [] ∧ samplePanel.otherLabelLayerIDs = []) ∧
    useEffect_visibilitySettings (some hiddenOverlays) samplePanel = samplePanel ∧
    useEffect_opacitySettings (some initialOpacity) samplePanel = samplePanel :=
  ⟨Or.inr ⟨sampleStyle, rfl, by decide, by decide, rfl, rfl⟩,
    settings_effects_idle (some hiddenOverlays) (some initialOpacity) samplePanel
      (Or.inr ⟨sampleStyle, rfl, by decide, by decide, rfl, rfl⟩)⟩

/-! ## C12 and C13: failed requests and malformed records -/

/-- C12: when the range request, or the observations request, ends with a
non-success status or the fetch throws, the function returns with the component
exactly as it was: the same sources and layers and no engine call.  The
function is total: the exception ends in its `catch`. -/
theorem failed_fetch_leaves_map (jsonParse : String → Option Geometry)
    (op : Option Settings) (p : MapPanel) (status : Nat) :
    fetchSpeciesRange op (.httpError status) p = p ∧
    fetchSpeciesRange op .networkError p = p ∧
    fetchSpeciesObservations jsonParse op (.httpError status) p = p ∧
    fetchSpeciesObservations jsonParse op .networkError p = p :=
  ⟨rfl, rfl, rfl, rfl⟩

theorem buildFeatures_eq_none (jsonParse : String → Option Geometry) (data : List ObsRecord)
    (h : ∃ r ∈ data, jsonParse r.geojson_geom = none) : buildFeatures jsonParse data = none := by
  induction data with
  | nil =>
    obtain ⟨r, hr, -⟩ := h
    exact absurd hr (List.not_mem_nil r)
  | cons a t ih =>
    obtain ⟨r, hr, hbad⟩ := h
    rcases List.mem_cons.mp hr with rfl | hmem
    · simp [buildFeatures, hbad]
    · have := ih ⟨r, hmem, hbad⟩
      simp only [buildFeatures, this]
      split <;> rfl

/-- C13: when some record of a (hence non-empty) observations response has a
`geojson_geom` that `JSON.parse` rejects, `fetchSpeciesObservations` leaves the
component exactly as it was: the source `observations` and the layer
`observationsLayer` are neither removed nor replaced nor added, and no engine
call is made. -/
theorem malformed_observation_leaves_map (jsonParse : String → Option Geometry)
    (op : Option Settings) (data : List ObsRecord) (p : MapPanel)
    (h : ∃ r ∈ data, jsonParse r.geojson_geom = none) :
    fetchSpeciesObservations jsonParse op (.ok data) p = p := by
  have hne : ¬ data.length = 0 := by
    obtain ⟨r, hr, -⟩ := h
    intro h0
    rw [List.length_eq_zero] at h0
    rw [h0] at hr
    exact absurd hr (List.not_mem_nil r)
  unfold fetchSpeciesObservations
  cases hm : p.map with
  | none => rfl
  | some m => simp only [hne, if_false, buildFeatures_eq_none jsonParse data h]

theorem malformed_observation_leaves_map_witness :
    (∃ r ∈ [({ geojson_geom := "point", species := "Quercus_alba", gid := 1 } : ObsRecord),
        { geojson_geom := "", species := "Quercus_alba", gid := 2 }],
      sampleParse r.geojson_geom = none) ∧
    fetchSpeciesObservations sampleParse none
      (.ok [{ geojson_geom := "point", species := "Quercus_alba", gid := 1 },
        { geojson_geom := "", species := "Quercus_alba", gid := 2 }]) shownPanel = shownPanel :=
  ⟨⟨{ geojson_geom := "", species := "Quercus_alba", gid := 2 }, by simp, by decide⟩,
    malformed_observation_leaves_map sampleParse none _ shownPanel
      ⟨{ geojson_geom := "", species := "Quercus_alba", gid := 2 }, by simp, by decide⟩⟩

/-! ## C15, C16 and C17: the page and the sidebar -/

/-- C15, evaluated where it fails: one click on the eye icon of
'State and City Labels' from the initial states.  The page's initial settings
have no such key, so its `!prev[section]` stores `true`, while the Sidebar's
mirror, which starts at `true`, goes to `false`. -/
theorem mirror_and_page_disagree_after_one_click :
    App.Reachable (App.initial.clickVisibility "State and City Labels") ∧
    getProp App.initial.page.visibilitySettings "State and City Labels" = none ∧
    (App.initial.clickVisibility "State and City Labels").sidebar.showsVisible
      "State and City Labels" = false ∧
    getProp (App.initial.clickVisibility "State and City Labels").page.visibilitySettings
      "State and City Labels" = some (.bool true) ∧
    (App.initial.clickVisibility "State and City Labels").page.isVisible
      "State and City Labels" = true :=
  ⟨.clickVisibility _ _ .initial (by decide), by decide, by decide, by decide, by decide⟩

theorem mem_filter_ne (l : List String) (a b : String) (hab : a ≠ b) :
    b ∈ l.filter (fun x => !decide (x = a)) ↔ b ∈ l := by
  simp [List.mem_filter, Ne.symm hab]

/-- C16: for two distinct layer names `a` and `b`, `toggleSection a` leaves the
membership of `b` in `activeSections` unchanged, the Sidebar's
`handleVisibilityChange a` leaves the mirror's entry of `b` unchanged, and the
page's `handleVisibilityChange a` and `handleOpacityChange a v` leave the
entries of `b` in both settings objects unchanged. -/
theorem controls_are_independent (a b : String) (hab : a ≠ b) (s : Sidebar) (h : Home)
    (v : ℚ) :
    (b ∈ (s.toggleSection a).activeSections ↔ b ∈ s.activeSections) ∧
    getProp (s.handleVisibilityChange a).1.currentVisibilitySettings b =
      getProp s.currentVisibilitySettings b ∧
    getProp (h.handleVisibilityChange a).visibilitySettings b =
      getProp h.visibilitySettings b ∧
    getProp (h.handleVisibilityChange a).opacitySettings b = getProp h.opacitySettings b ∧
    getProp (h.handleOpacityChange a v).visibilitySettings b =
      getProp h.visibilitySettings b ∧
    getProp (h.handleOpacityChange a v).opacitySettings b = getProp h.opacitySettings b := by
  refine ⟨?_, ?_, ?_, rfl, rfl, ?_⟩
  · unfold Sidebar.toggleSection
    split
    · exact mem_filter_ne _ a b hab
    · simp [Ne.symm hab]
  · exact getProp_setProp_other _ a b _ (Ne.symm hab)
  · exact getProp_setProp_other _ a b _ (Ne.symm hab)
  · exact getProp_setProp_other _ a b _ (Ne.symm hab)

theorem controls_are_independent_witness :
    "Range" ≠ "Observations" ∧
    (("Observations" ∈ ((Sidebar.initial Home.initial.visibilitySettings).toggleSection
        "Range").activeSections ↔
      "Observations" ∈ (Sidebar.initial Home.initial.visibilitySettings).activeSections) ∧
    getProp ((Sidebar.initial Home.initial.visibilitySettings).handleVisibilityChange
        "Range").1.currentVisibilitySettings "Observations" =
      getProp (Sidebar.initial Home.initial.visibilitySettings).currentVisibilitySettings
        "Observations" ∧
    getProp (Home.initial.handleVisibilityChange "Range").visibilitySettings "Observations" =
      getProp Home.initial.visibilitySettings "Observations" ∧
    getProp (Home.initial.handleVisibilityChange "Range").opacitySettings "Observations" =
      getProp Home.initial.opacitySettings "Observations" ∧
    getProp (Home.initial.handleOpacityChange "Range" (1 / 2)).visibilitySettings
        "Observations" = getProp Home.initial.visibilitySettings "Observations" ∧
    getProp (Home.initial.handleOpacityChange "Range" (1 / 2)).opacitySettings "Observations" =
      getProp Home.initial.opacitySettings "Observations") :=
  ⟨by decide, controls_are_independent "Range" "Observations" (by decide)
    (Sidebar.initial Home.initial.visibilitySettings) Home.initial (1 / 2)⟩

theorem mem_keys_setProp (o : Settings) (key : String) (v : JsVal) (k : String)
    (h : k ∈ keys (setProp o key v)) : k = key ∨ k ∈ keys o := by
  induction o with
  | nil =>
    simp only [setProp, keys, List.map_cons, List.map_nil, List.mem_singleton] at h
    exact Or.inl h
  | cons a t ih =>
    obtain ⟨k1, w⟩ := a
    by_cases h1 : k1 = key
    · simp only [setProp, h1, if_true, keys, List.map_cons, List.mem_cons] at h ⊢
      rcases h with h | h
      · exact Or.inl h
      · exact Or.inr (Or.inr h)
    · simp only [setProp, h1, if_false, keys, List.map_cons, List.mem_cons] at h ⊢
      rcases h with h | h
      · exact Or.inr (Or.inl h)
      · rcases ih h with h2 | h2
        · exact Or.inl h2
        · exact Or.inr (Or.inr h2)

/-- C17: in every state the page reaches from its initial state through the
events of the Sidebar's controls, the keys of `visibilitySettings` and of
`opacitySettings` are among the four layer names. -/
theorem settings_keys_are_layer_names (a : App) (h : App.Reachable a) :
    (∀ k ∈ keys a.page.visibilitySettings, k ∈ layerNames) ∧
    (∀ k ∈ keys a.page.opacitySettings, k ∈ layerNames) := by
  induction h with
  | initial => exact ⟨by decide, by decide⟩
  | clickSection a item _ _ ih => exact ih
  | clickVisibility a item _ hitem ih =>
    refine ⟨?_, ih.2⟩
    intro k hk
    rcases mem_keys_setProp _ _ _ k hk with h1 | h1
    · rw [h1]
      exact hitem
    · exact ih.1 k h1
  | moveSlider a item value _ hitem _ ih =>
    refine ⟨ih.1, ?_⟩
    intro k hk
    rcases mem_keys_setProp _ _ _ k hk with h1 | h1
    · rw [h1]
      exact hitem
    · exact ih.2 k h1

theorem settings_keys_are_layer_names_witness :
    App.Reachable (((App.initial.clickSection "State and City Labels").moveSlider
      "State and City Labels" (1 / 2)).clickVisibility "State and City Labels") ∧
    (∀ k ∈ keys (((App.initial.clickSection "State and City Labels").moveSlider
        "State and City Labels" (1 / 2)).clickVisibility
        "State and City Labels").page.visibilitySettings, k ∈ layerNames) ∧
    (∀ k ∈ keys (((App.initial.clickSection "State and City Labels").moveSlider
        "State and City Labels" (1 / 2)).clickVisibility
        "State and City Labels").page.opacitySettings, k ∈ layerNames) :=
  ⟨.clickVisibility _ _ (.moveSlider _ _ _ (.clickSection _ _ .initial (by decide)) (by decide)
      (by decide)) (by decide),
    settings_keys_are_layer_names _
      (.clickVisibility _ _ (.moveSlider _ _ _ (.clickSection _ _ .initial (by decide))
        (by decide) (by decide)) (by decide))⟩

/-! ## C18: the download and profile menus -/

/-- With at least two commits allowed, a click on the download icon settles
in the state where the download menu is toggled and the profile menu stays
open only if the download menu was closed by the click. -/
theorem afterClick_download (fuel : Nat) (hf : 2 ≤ fuel) (s : Menus) :
    afterClick fuel handleDownloadClick s =
      { showDownloadOptions := !s.showDownloadOptions
        showProfileMenu := s.showProfileMenu && s.showDownloadOptions
        clickedButton := if s.showDownloadOptions then none else s.clickedButton } := by
  obtain ⟨n, rfl⟩ : ∃ n, fuel = n + 2 := ⟨fuel - 2, by omega⟩
  obtain ⟨d, p, c⟩ := s
  cases d <;> cases p <;>
    simp [afterClick, settle, runMenuEffects, handleDownloadClick]

theorem afterClick_profile (fuel : Nat) (hf : 2 ≤ fuel) (s : Menus) :
    afterClick fuel profileIconClick s =
      { showDownloadOptions := s.showDownloadOptions && s.showProfileMenu
        showProfileMenu := !s.showProfileMenu
        clickedButton := s.clickedButton } := by
  obtain ⟨n, rfl⟩ : ∃ n, fuel = n + 2 := ⟨fuel - 2, by omega⟩
  obtain ⟨d, p, c⟩ := s
  cases d <;> cases p <;>
    simp [afterClick, settle, runMenuEffects, profileIconClick]

/-- C18: in every state reached from both menus closed by clicks on the two
icons, each click followed by the menu effects it triggers, the two menus are
not both open; a click on the icon of a closed menu while the other is open
ends with the clicked menu open and the other closed; and the state a click
ends in is settled: one more commit changes nothing. -/
theorem menus_mutually_exclusive (fuel : Nat) (hf : 2 ≤ fuel) (s : Menus)
    (h : Menus.Reachable fuel s) :
    ¬ (s.showDownloadOptions = true ∧ s.showProfileMenu = true) ∧
    (s.showDownloadOptions = false → s.showProfileMenu = true →
      (afterClick fuel handleDownloadClick s).showDownloadOptions = true ∧
      (afterClick fuel handleDownloadClick s).showProfileMenu = false) ∧
    (s.showProfileMenu = false → s.showDownloadOptions = true →
      (afterClick fuel profileIconClick s).showProfileMenu = true ∧
      (afterClick fuel profileIconClick s).showDownloadOptions = false) ∧
    afterClick (fuel + 1) handleDownloadClick s = afterClick fuel handleDownloadClick s ∧
    afterClick (fuel + 1) profileIconClick s = afterClick fuel profileIconClick s := by
  refine ⟨?_, ?_, ?_, ?_, ?_⟩
  · induction h with
    | initial => simp [Menus.initial]
    | download s _ _ =>
      rw [afterClick_download fuel hf]
      cases s.showDownloadOptions <;> simp
    | profile s _ _ =>
      rw [afterClick_profile fuel hf]
      cases s.showProfileMenu <;> simp
  · intro hd hp
    rw [afterClick_download fuel hf]
    simp [hd, hp]
  · intro hp hd
    rw [afterClick_profile fuel hf]
    simp [hd, hp]
  · rw [afterClick_download fuel hf, afterClick_download (fuel + 1) (by omega)]
  · rw [afterClick_profile fuel hf, afterClick_profile (fuel + 1) (by omega)]

theorem menus_mutually_exclusive_witness :
    2 ≤ 2 ∧ Menus.Reachable 2 (afterClick 2 profileIconClick Menus.initial) ∧
    ¬ ((afterClick 2 profileIconClick Menus.initial).showDownloadOptions = true ∧
      (afterClick 2 profileIconClick Menus.initial).showProfileMenu = true) ∧
    ((afterClick 2 profileIconClick Menus.initial).showDownloadOptions = false →
      (afterClick 2 profileIconClick Menus.initial).showProfileMenu = true →
      (afterClick 2 handleDownloadClick
        (afterClick 2 profileIconClick Menus.initial)).showDownloadOptions = true ∧
      (afterClick 2 handleDownloadClick
        (afterClick 2 profileIconClick Menus.initial)).showProfileMenu = false) ∧
    ((afterClick 2 profileIconClick Menus.initial).showProfileMenu = false →
      (afterClick 2 profileIconClick Menus.initial).showDownloadOptions = true →
      (afterClick 2 profileIconClick
        (afterClick 2 profileIconClick Menus.initial)).showProfileMenu = true ∧
      (afterClick 2 profileIconClick
        (afterClick 2 profileIconClick Menus.initial)).showDownloadOptions = false) ∧
    afterClick (2 + 1) handleDownloadClick (afterClick 2 profileIconClick Menus.initial) =
      afterClick 2 handleDownloadClick (afterClick 2 profileIconClick Menus.initial) ∧
    afterClick (2 + 1) profileIconClick (afterClick 2 profileIconClick Menus.initial) =
      afterClick 2 profileIconClick (afterClick 2 profileIconClick Menus.initial) :=
  ⟨by decide, .profile _ .initial,
    menus_mutually_exclusive 2 (by decide) _ (.profile _ .initial)⟩

/-! ## C14: the sources after a terrain toggle -/

/-- C14, evaluated where it fails: "Quercus alba" is shown and the terrain
button is clicked.  The permanent `style.load` listener runs for this event
too and fetches 'Pinus ponderosa' again, so once its fetches have completed
both sources hold the data of Pinus ponderosa, not of the species shown
before the swap. -/
theorem terrain_toggle_reverts_to_default_species :
    ∃ m0 m1, quercusShown.map = some m0 ∧
      (styleLoadFetches sampleApi sampleParse none
        (terrainToggle sampleStyle.layers none none quercusShown)).map = some m1 ∧
      m0.getSource "speciesRange" =
        some ⟨"speciesRange", .feature ⟨{ json := "range of Quercus_alba" }, none⟩⟩ ∧
      m1.getSource "speciesRange" =
        some ⟨"speciesRange", .feature ⟨{ json := "range of Pinus_ponderosa" }, none⟩⟩ ∧
      m0.getSource "observations" = some ⟨"observations",
        .featureCollection [⟨{ json := "point" }, some ("Quercus_alba", 1)⟩]⟩ ∧
      m1.getSource "observations" = some ⟨"observations",
        .featureCollection [⟨{ json := "point" }, some ("Pinus_ponderosa", 1)⟩]⟩ :=
  ⟨_, _, rfl, rfl, by decide, by decide, by decide, by decide⟩

/-! ## C19 and C20: the debounced suggestions request -/

theorem advance_no_timer (dt : Nat) (s : SearchBox) (h : s.timers = []) :
    advance dt s = { s with now := s.now + dt } := by
  simp [advance, h]

theorem advance_not_due (dt : Nat) (s : SearchBox) (t : Timer) (h : s.timers = [t])
    (hd : s.now + dt < t.due) : advance dt s = { s with now := s.now + dt } := by
  have hnot : ¬ t.due ≤ s.now + dt := by omega
  simp [advance, h, hnot]

theorem advance_due (dt : Nat) (s : SearchBox) (t : Timer) (h : s.timers = [t])
    (hd : t.due ≤ s.now + dt) :
    advance dt s =
      { timerCallback t.value t.searchMode { s with now := t.due, timers := [] } with
        now := s.now + dt } := by
  simp [advance, h, hd]

theorem fetchSuggestions_wellFormed (value searchMode : String) (s : SearchBox)
    (h : s.WellFormed) :
    fetchSuggestions value searchMode s =
      { s with
        nextTimerId := s.nextTimerId + 1
        timers := [{ id := s.nextTimerId, due := s.now + 300, value := value,
                     searchMode := searchMode }]
        debounceTimeout := some s.nextTimerId } := by
  obtain ⟨-, h0 | ⟨t, ht, hd, hid⟩⟩ := h
  · cases hdeb : s.debounceTimeout with
    | none => simp [fetchSuggestions, setTimeout, hdeb, h0]
    | some id =>
      by_cases hz : id = 0
      · simp [fetchSuggestions, setTimeout, hdeb, h0, hz]
      · simp [fetchSuggestions, setTimeout, clearTimeout, hdeb, h0, hz]
  · simp [fetchSuggestions, setTimeout, clearTimeout, hd, ht, hid]

theorem wellFormed_fetchSuggestions (value searchMode : String) (s : SearchBox)
    (h : s.WellFormed) : (fetchSuggestions value searchMode s).WellFormed := by
  rw [fetchSuggestions_wellFormed value searchMode s h]
  exact ⟨Nat.succ_ne_zero _, Or.inr ⟨_, rfl, rfl, h.1⟩⟩

theorem wellFormed_advance (dt : Nat) (s : SearchBox) (h : s.WellFormed) :
    (advance dt s).WellFormed := by
  obtain ⟨hn, h0 | ⟨t, ht, hd, hid⟩⟩ := h
  · rw [advance_no_timer dt s h0]
    exact ⟨hn, Or.inl h0⟩
  · by_cases hdue : t.due ≤ s.now + dt
    · rw [advance_due dt s t ht hdue]
      unfold timerCallback
      split
      · exact ⟨hn, Or.inl rfl⟩
      · exact ⟨hn, Or.inl rfl⟩
    · rw [advance_not_due dt s t ht (by omega)]
      exact ⟨hn, Or.inr ⟨t, ht, hd, hid⟩⟩

theorem wellFormed_handleInputChange (value searchMode : String) (s : SearchBox)
    (h : s.WellFormed) : (handleInputChange value searchMode s).WellFormed := by
  have h1 : ({ s with searchTerm := value } : SearchBox).WellFormed := h
  have h2 := wellFormed_fetchSuggestions value searchMode _ h1
  exact h2

theorem wellFormed_typeKeys (ks : List Keystroke) (s : SearchBox) (h : s.WellFormed) :
    (typeKeys ks s).WellFormed := by
  induction ks generalizing s with
  | nil => exact h
  | cons k rest ih =>
    exact ih _ (wellFormed_handleInputChange _ _ _ (wellFormed_advance _ _ h))

theorem wellFormed_initial : SearchBox.initial.WellFormed :=
  ⟨by decide, Or.inl rfl⟩

theorem timers_length_of_wellFormed (s : SearchBox) (h : s.WellFormed) :
    s.timers.length ≤ 1 := by
  obtain ⟨-, h0 | ⟨t, ht, -, -⟩⟩ := h
  · rw [h0]
    exact Nat.zero_le 1
  · rw [ht]
    exact Nat.le_refl 1

/-- C19: for a value of (JavaScript) length less than 2, `fetchSuggestions`
issues no request, neither at the call nor when its timer fires, and the
callback it schedules sets the suggestion list to the empty list: the list is
empty once the 300 ms have passed. -/
theorem short_query_clears_without_request (value searchMode : String) (s : SearchBox)
    (hs : s.WellFormed) (hlen : jsLength value < 2) :
    (fetchSuggestions value searchMode s).requests = s.requests ∧
    ∀ d, (advance d (fetchSuggestions value searchMode s)).requests = s.requests ∧
      (300 ≤ d → (advance d (fetchSuggestions value searchMode s)).suggestions = []) := by
  rw [fetchSuggestions_wellFormed value searchMode s hs]
  refine ⟨rfl, ?_⟩
  intro d
  by_cases hd : 300 ≤ d
  · rw [advance_due d _ _ rfl (by simpa using hd)]
    simp [timerCallback, hlen]
  · rw [advance_not_due d _ _ rfl (by simp; omega)]
    exact ⟨rfl, fun h => absurd h hd⟩

theorem short_query_clears_without_request_witness :
    SearchBox.initial.WellFormed ∧ jsLength "P" < 2 ∧
    (fetchSuggestions "P" "Exact" SearchBox.initial).requests = SearchBox.initial.requests ∧
    ∀ d, (advance d (fetchSuggestions "P" "Exact" SearchBox.initial)).requests =
        SearchBox.initial.requests ∧
      (300 ≤ d → (advance d (fetchSuggestions "P" "Exact" SearchBox.initial)).suggestions = []) :=
  ⟨wellFormed_initial, by decide,
    short_query_clears_without_request "P" "Exact" SearchBox.initial wellFormed_initial
      (by decide)⟩

theorem armed_after_keystroke (k : Keystroke) (s : SearchBox) (h : s.WellFormed)
    (hdue : ∀ t ∈ s.timers, s.now + k.gap < t.due) :
    (handleInputChange k.value k.searchMode (advance k.gap s)).Armed k.value k.searchMode ∧
    (handleInputChange k.value k.searchMode (advance k.gap s)).requests = s.requests := by
  have hadv : advance k.gap s = { s with now := s.now + k.gap } := by
    obtain ⟨-, h0 | ⟨t, ht, -, -⟩⟩ := h
    · exact advance_no_timer _ _ h0
    · exact advance_not_due _ _ t ht (hdue t (by rw [ht]; exact List.mem_singleton.mpr rfl))
  have hwf : ({ s with now := s.now + k.gap, searchTerm := k.value } : SearchBox).WellFormed := h
  rw [hadv]
  unfold handleInputChange
  rw [fetchSuggestions_wellFormed _ _ _ hwf]
  exact ⟨⟨Nat.succ_ne_zero _, s.nextTimerId, h.1, rfl, rfl⟩, rfl⟩

theorem wellFormed_of_armed (s : SearchBox) (v m : String) (h : s.Armed v m) :
    s.WellFormed := by
  obtain ⟨hn, id, hid, ht, hd⟩ := h
  exact ⟨hn, Or.inr ⟨_, ht, hd, hid⟩⟩

theorem typeKeys_armed (rest : List Keystroke) (first : Keystroke) (s : SearchBox)
    (h : s.Armed first.value first.searchMode) (hgap : ∀ k ∈ rest, k.gap < 300) :
    (typeKeys rest s).Armed (lastKeystroke first rest).value
        (lastKeystroke first rest).searchMode ∧
      (typeKeys rest s).requests = s.requests := by
  induction rest generalizing first s with
  | nil => exact ⟨h, rfl⟩
  | cons k rest ih =>
    have hk : k.gap < 300 := hgap k (List.mem_cons_self k rest)
    have hstep := armed_after_keystroke k s (wellFormed_of_armed s _ _ h) (by
      obtain ⟨-, id, -, ht, -⟩ := h
      intro t htm
      rw [ht] at htm
      rw [List.mem_singleton.mp htm]
      show s.now + k.gap < s.now + 300
      omega)
    have := ih k _ hstep.1 (fun k2 hk2 => hgap k2 (List.mem_cons_of_mem k hk2))
    exact ⟨this.1, this.2.trans hstep.2⟩

/-- C20: when the user types a sequence of keystrokes, each less than 300 ms
after the previous one, whose final value has (JavaScript) length at least 2,
no request is issued while typing, and afterwards exactly one request is
issued, 300 ms after the last keystroke, with the final value (in wire format)
as keyword and the search mode of that keystroke; and at every moment of any
typing at most one debounce timer is pending. -/
theorem debounce_issues_one_request (first : Keystroke) (rest : List Keystroke)
    (hgap : ∀ k ∈ rest, k.gap < 300)
    (hlen : 2 ≤ jsLength (lastKeystroke first rest).value) :
    (typeKeys (first :: rest) SearchBox.initial).requests = [] ∧
    (∀ d, (advance d (typeKeys (first :: rest) SearchBox.initial)).requests =
      if 300 ≤ d then
        [((typeKeys (first :: rest) SearchBox.initial).now + 300,
          { keyword := formatSpeciesName (lastKeystroke first rest).value
            mode := (lastKeystroke first rest).searchMode })]
      else []) ∧
    (∀ ks d, (advance d (typeKeys ks SearchBox.initial)).timers.length ≤ 1) := by
  have h1 := armed_after_keystroke first SearchBox.initial wellFormed_initial
    (fun t ht => absurd ht (List.not_mem_nil t))
  have h2 := typeKeys_armed rest first _ h1.1 hgap
  have hreq : (typeKeys (first :: rest) SearchBox.initial).requests = [] :=
    h2.2.trans h1.2
  have harm : (typeKeys (first :: rest) SearchBox.initial).Armed
      (lastKeystroke first rest).value (lastKeystroke first rest).searchMode := h2.1
  refine ⟨hreq, ?_, ?_⟩
  · intro d
    obtain ⟨-, id, -, ht, -⟩ := harm
    by_cases hd : 300 ≤ d
    · rw [advance_due d _ _ ht (by simpa using hd), if_pos hd]
      have hl : ¬ jsLength (lastKeystroke first rest).value < 2 := by omega
      simp [timerCallback, hl, hreq]
    · rw [advance_not_due d _ _ ht (by simp; omega), if_neg hd]
      exact hreq
  · intro ks d
    exact timers_length_of_wellFormed _
      (wellFormed_advance d _ (wellFormed_typeKeys ks _ wellFormed_initial))

theorem debounce_issues_one_request_witness :
    (∀ k ∈ [({ gap := 100, value := "Pi", searchMode := "Exact" } : Keystroke),
        { gap := 299, value := "Pin", searchMode := "Exact" }], k.gap < 300) ∧
    2 ≤ jsLength (lastKeystroke { gap := 1000, value := "P", searchMode := "Exact" }
      [{ gap := 100, value := "Pi", searchMode := "Exact" },
        { gap := 299, value := "Pin", searchMode := "Exact" }]).value ∧
    (typeKeys [{ gap := 1000, value := "P", searchMode := "Exact" },
        { gap := 100, value := "Pi", searchMode := "Exact" },
        { gap := 299, value := "Pin", searchMode := "Exact" }] SearchBox.initial).requests = [] ∧
    (∀ d, (advance d (typeKeys [{ gap := 1000, value := "P", searchMode := "Exact" },
        { gap := 100, value := "Pi", searchMode := "Exact" },
        { gap := 299, value := "Pin", searchMode := "Exact" }] SearchBox.initial)).requests =
      if 300 ≤ d then
        [((typeKeys [{ gap := 1000, value := "P", searchMode := "Exact" },
            { gap := 100, value := "Pi", searchMode := "Exact" },
            { gap := 299, value := "Pin", searchMode := "Exact" }] SearchBox.initial).now + 300,
          { keyword := formatSpeciesName (lastKeystroke
              { gap := 1000, value := "P", searchMode := "Exact" }
              [{ gap := 100, value := "Pi", searchMode := "Exact" },
                { gap := 299, value := "Pin", searchMode := "Exact" }]).value
            mode := (lastKeystroke { gap := 1000, value := "P", searchMode := "Exact" }
              [{ gap := 100, value := "Pi", searchMode := "Exact" },
                { gap := 299, value := "Pin", searchMode := "Exact" }]).searchMode })]
      else []) ∧
    (∀ ks d, (advance d (typeKeys ks SearchBox.initial)).timers.length ≤ 1) :=
  ⟨by decide, by decide,
    debounce_issues_one_request { gap := 1000, value := "P", searchMode := "Exact" }
      [{ gap := 100, value := "Pi", searchMode := "Exact" },
        { gap := 299, value := "Pin", searchMode := "Exact" }] (by decide) (by decide)⟩

/-! ## C11: default opacities -/

theorem truthyOr_defaultsTo (op : Option Settings) (name : String) (d : ℚ) :
    DefaultsTo op name d (truthyOr op name (.num d)) := by
  intro h
  cases op with
  | none => rfl
  | some o =>
    simp only [entry, Option.some_bind] at h
    simp [truthyOr, h]

theorem definedOr_defaultsTo (op : Option Settings) (name : String) (d : ℚ) :
    DefaultsTo op name d (definedOr op name (.num d)) := by
  intro h
  cases op with
  | none => rfl
  | some o =>
    simp only [entry, Option.some_bind] at h
    simp [definedOr, h]

theorem log_foldl_exact (step : MapEngine → String → MapEngine) (calls : String → List Call)
    (hstep : ∀ m a, (step m a).log = m.log ++ calls a) (ids : List String) (m : MapEngine) :
    (ids.foldl step m).log = m.log ++ (ids.map calls).flatten := by
  induction ids generalizing m with
  | nil => simp
  | cons a t ih =>
    rw [List.foldl_cons, ih, hstep, List.map_cons, List.flatten_cons, List.append_assoc]

theorem flatten_map_singleton (f : String → Call) (ids : List String) :
    (ids.map (fun a => [f a])).flatten = ids.map f := by
  induction ids with
  | nil => rfl
  | cons a t ih => simp [ih]

theorem removeOverlay_log (m : MapEngine) (src lyr : String) :
    ∃ m1 cs, removeOverlay m src lyr = .ok m1 ∧ m1.log = m.log ++ cs ∧
      (m1.getSource src).isSome = false ∧
      ∀ c ∈ cs, c = .removeLayer lyr ∨ c = .removeSource src := by
  unfold removeOverlay
  by_cases h : (m.getSource src).isSome = true
  · by_cases h2 : (m.getLayer lyr).isSome = true
    · have h3 : ((m.removeLayer lyr).getSource src).isSome = true := h
      simp only [h, h2, if_true, MapEngine.removeSource, h3]
      refine ⟨_, [.removeLayer lyr, .removeSource src], rfl, ?_, ?_, ?_⟩
      · simp [MapEngine.removeLayer]
      · simp [MapEngine.getSource]
      · intro c hc
        simpa using hc
    · have h2f : (m.getLayer lyr).isSome = false := by simpa using h2
      simp only [h, h2f, if_true, MapEngine.removeSource, Bool.false_eq_true, if_false]
      refine ⟨_, [.removeSource src], rfl, rfl, ?_, ?_⟩
      · simp [MapEngine.getSource]
      · intro c hc
        simp only [List.mem_singleton] at hc
        exact Or.inr hc
  · refine ⟨m, [], by simp [h], by simp, by simpa using h, by simp⟩

theorem replaceOverlay_log (m : MapEngine) (src lyr : String) (data : SourceData)
    (layer : Layer) :
    ∃ cs, (caught (do
        let m1 ← removeOverlay m src lyr
        let m2 ← m1.addSource src data
        pure (m2.addLayer layer))).log = m.log ++ cs ++ [.addSource src data, .addLayer layer] ∧
      ∀ c ∈ cs, c = .removeLayer lyr ∨ c = .removeSource src := by
  obtain ⟨m1, cs, h1, hl, hno, hcs⟩ := removeOverlay_log m src lyr
  refine ⟨cs, ?_, hcs⟩
  simp only [h1, bind, Except.bind, MapEngine.addSource, hno, pure, Except.pure, caught]
  simp [addLayer_log, hl]

theorem getLayer_setPaintProperty_if (m : MapEngine) (a n : String) (v : JsVal)
    (id : String) :
    (if (m.getLayer a).isSome then m.setPaintProperty a n v else m).getLayer id =
      (m.getLayer id).map (fun l => if l.id = a then l.setPaint n v else l) := by
  split
  · rw [MapEngine.getLayer, MapEngine.setPaintProperty, MapEngine.getLayer]
    apply find_map_of_id_preserving
    intro l
    split <;> rfl
  · rename_i hno
    cases hl : m.getLayer id with
    | none => rfl
    | some l =>
      have hid := getLayer_id m id l hl
      have hne : l.id ≠ a := by
        intro e
        rw [hid] at e
        rw [← e, hl] at hno
        exact hno rfl
      simp [hne]

/-- The calls `reAddLayersAndSettings` makes, in order. -/
theorem reAdd_log (vis op : Option Settings) (p : MapPanel) (m : MapEngine)
    (hm : p.map = some m) :
    ∃ m4, (reAddLayersAndSettings vis op p).map = some m4 ∧
      m4.log = m.log ++
        (((getLabelLayerIDs m).countryLabels.map (fun id =>
            [Call.setLayoutProperty id "visibility" (visibilityOf vis "Country Label"),
             Call.setPaintProperty id "text-opacity"
               (definedOr op "Country Label" (.num 1))])).flatten ++
         (((getLabelLayerIDs m).otherLabels.map (fun id =>
            [Call.setLayoutProperty id "visibility" (visibilityOf vis "State and City Labels"),
             Call.setPaintProperty id "text-opacity"
               (definedOr op "State and City Labels" (.num 1))])).flatten ++
          ((if (m.getSource "speciesRange").isSome then [Call.addLayer (speciesRangeLayer op)]
            else []) ++
           (if (m.getSource "observations").isSome then [Call.addLayer (observationsLayer op)]
            else [])))) := by
  obtain ⟨m2, m3, m4, hre, h2, h3, h4⟩ := reAdd_unfold vis op p m hm
  have s2 : m2.sources = m.sources := by
    rw [h2, applyLabelSettings_sources, applyLabelSettings_sources]
  have hlog : ∀ (m0 : MapEngine) (ids : List String) (v : LayoutVal) (o : JsVal),
      (applyLabelSettings m0 ids v o).log = m0.log ++ (ids.map (fun id =>
        [Call.setLayoutProperty id "visibility" v, Call.setPaintProperty id "text-opacity" o])
        ).flatten := by
    intro m0 ids v o
    refine log_foldl_exact _ _ ?_ ids m0
    intro m1 a
    simp [MapEngine.setPaintProperty, MapEngine.setLayoutProperty]
  have l2 : m2.log = m.log ++
      (((getLabelLayerIDs m).countryLabels.map (fun id =>
          [Call.setLayoutProperty id "visibility" (visibilityOf vis "Country Label"),
           Call.setPaintProperty id "text-opacity"
             (definedOr op "Country Label" (.num 1))])).flatten ++
       ((getLabelLayerIDs m).otherLabels.map (fun id =>
          [Call.setLayoutProperty id "visibility" (visibilityOf vis "State and City Labels"),
           Call.setPaintProperty id "text-opacity"
             (definedOr op "State and City Labels" (.num 1))])).flatten) := by
    rw [h2, hlog, hlog, List.append_assoc]
  have s3 : m3.sources = m.sources := by
    rw [h3]
    split
    · rw [addLayer_sources, s2]
    · exact s2
  have l3 : m3.log = m2.log ++
      (if (m.getSource "speciesRange").isSome then [Call.addLayer (speciesRangeLayer op)]
        else []) := by
    rw [h3, getSource_congr m m2 s2]
    split
    · rw [addLayer_log]
    · simp
  have l4 : m4.log = m3.log ++
      (if (m.getSource "observations").isSome then [Call.addLayer (observationsLayer op)]
        else []) := by
    rw [h4, getSource_congr m m3 s3]
    split
    · rw [addLayer_log]
    · simp
  refine ⟨m4, by rw [hre], ?_⟩
  rw [l4, l3, l2]
  simp only [List.append_assoc]

theorem opacity_effect_unfold (op : Option Settings) (p : MapPanel) (m : MapEngine)
    (hm : p.map = some m) :
    ∃ m1 m2 m3 m4, useEffect_opacitySettings op p = { p with map := some m4 } ∧
      m1 = (if (m.getLayer "speciesRangeLayer").isSome then
        m.setPaintProperty "speciesRangeLayer" "fill-opacity"
          (truthyOr op "Range" (.num (mkRat 1 2)))
        else m) ∧
      m2 = (if (m1.getLayer "observationsLayer").isSome then
        m1.setPaintProperty "observationsLayer" "circle-opacity"
          (truthyOr op "Observations" (.num (mkRat 4 5)))
        else m1) ∧
      m3 = (if p.countryLabelLayerIDs.length > 0 then
        p.countryLabelLayerIDs.foldl (fun m layerID =>
          m.setPaintProperty layerID "text-opacity"
            (definedOr op "Country Label" (.num 1))) m2
        else m2) ∧
      m4 = (if p.otherLabelLayerIDs.length > 0 then
        p.otherLabelLayerIDs.foldl (fun m layerID =>
          m.setPaintProperty layerID "text-opacity"
            (definedOr op "State and City Labels" (.num 1))) m3
        else m3) := by
  refine ⟨_, _, _, _, ?_, rfl, rfl, rfl, rfl⟩
  simp only [useEffect_opacitySettings, hm]

theorem log_foldl_setPaint (m : MapEngine) (ids : List String) (n : String) (v : JsVal) :
    (if ids.length > 0 then
        ids.foldl (fun m layerID => m.setPaintProperty layerID n v) m
      else m).log = m.log ++ ids.map (fun id => Call.setPaintProperty id n v) := by
  have hfold : (if ids.length > 0 then
        ids.foldl (fun m layerID => m.setPaintProperty layerID n v) m
      else m) = ids.foldl (fun m layerID => m.setPaintProperty layerID n v) m := by
    cases ids with
    | nil => rfl
    | cons a t => simp
  rw [hfold, log_foldl_exact (fun m layerID => m.setPaintProperty layerID n v)
    (fun id => [Call.setPaintProperty id n v]) (fun _ _ => rfl) ids m,
    flatten_map_singleton]

/-- The calls the opacity effect makes, in order. -/
theorem opacity_effect_log (op : Option Settings) (p : MapPanel) (m : MapEngine)
    (hm : p.map = some m) :
    ∃ m4, (useEffect_opacitySettings op p).map = some m4 ∧
      m4.log = m.log ++
        ((if (m.getLayer "speciesRangeLayer").isSome then
            [Call.setPaintProperty "speciesRangeLayer" "fill-opacity"
              (truthyOr op "Range" (.num (mkRat 1 2)))] else []) ++
         ((if (m.getLayer "observationsLayer").isSome then
            [Call.setPaintProperty "observationsLayer" "circle-opacity"
              (truthyOr op "Observations" (.num (mkRat 4 5)))] else []) ++
          (p.countryLabelLayerIDs.map (fun id => Call.setPaintProperty id "text-opacity"
              (definedOr op "Country Label" (.num 1))) ++
           p.otherLabelLayerIDs.map (fun id => Call.setPaintProperty id "text-opacity"
              (definedOr op "State and City Labels" (.num 1)))))) := by
  obtain ⟨m1, m2, m3, m4, heff, h1, h2, h3, h4⟩ := opacity_effect_unfold op p m hm
  have l1 : m1.log = m.log ++ (if (m.getLayer "speciesRangeLayer").isSome then
      [Call.setPaintProperty "speciesRangeLayer" "fill-opacity"
        (truthyOr op "Range" (.num (mkRat 1 2)))] else []) := by
    rw [h1]
    split
    · rfl
    · simp
  have g1 : (m1.getLayer "observationsLayer").isSome = (m.getLayer "observationsLayer").isSome := by
    rw [h1, getLayer_setPaintProperty_if, Option.isSome_map']
  have l2 : m2.log = m1.log ++ (if (m.getLayer "observationsLayer").isSome then
      [Call.setPaintProperty "observationsLayer" "circle-opacity"
        (truthyOr op "Observations" (.num (mkRat 4 5)))] else []) := by
    rw [h2, g1]
    split
    · rfl
    · simp
  refine ⟨m4, by rw [heff], ?_⟩
  rw [h4, log_foldl_setPaint, h3, log_foldl_setPaint, l2, l1]
  simp only [List.append_assoc]

/-- C11: for any opacity settings, also none, the opacity the map panel passes
to the engine for a layer name that is not a key of the settings is 0.5 for
Range, 0.8 for Observations and 1.0 for Country Label and State and City
Labels, at each place it is computed: the layer created after a search (the
last call of each fetch), the calls of `reAddLayersAndSettings`, and the calls
of the opacity effect. -/
theorem default_opacities (jsonParse : String → Option Geometry) (vis op : Option Settings)
    (p : MapPanel) (m : MapEngine) (hm : p.map = some m) :
    (∀ range, ∃ m1 removals layer a,
      (fetchSpeciesRange op (.ok range) p).map = some m1 ∧
      m1.log = m.log ++ removals ++
        [.addSource "speciesRange" (.feature ⟨range, none⟩), .addLayer layer] ∧
      (∀ c ∈ removals, c = .removeLayer "speciesRangeLayer" ∨ c = .removeSource "speciesRange") ∧
      getProp layer.paint "fill-opacity" = some a ∧ DefaultsTo op "Range" (1 / 2) a) ∧
    (∀ data features, data ≠ [] → buildFeatures jsonParse data = some features →
      ∃ m1 removals layer b,
      (fetchSpeciesObservations jsonParse op (.ok data) p).map = some m1 ∧
      m1.log = m.log ++ removals ++
        [.addSource "observations" (.featureCollection features), .addLayer layer] ∧
      (∀ c ∈ removals, c = .removeLayer "observationsLayer" ∨ c = .removeSource "observations") ∧
      getProp layer.paint "circle-opacity" = some b ∧ DefaultsTo op "Observations" (4 / 5) b) ∧
    (∃ m4 vc vo layerR layerO a b c d,
      (reAddLayersAndSettings vis op p).map = some m4 ∧
      m4.log = m.log ++
        (((getLabelLayerIDs m).countryLabels.map (fun id =>
            [Call.setLayoutProperty id "visibility" vc,
             Call.setPaintProperty id "text-opacity" c])).flatten ++
         (((getLabelLayerIDs m).otherLabels.map (fun id =>
            [Call.setLayoutProperty id "visibility" vo,
             Call.setPaintProperty id "text-opacity" d])).flatten ++
          ((if (m.getSource "speciesRange").isSome then [Call.addLayer layerR] else []) ++
           (if (m.getSource "observations").isSome then [Call.addLayer layerO] else [])))) ∧
      getProp layerR.paint "fill-opacity" = some a ∧
      getProp layerO.paint "circle-opacity" = some b ∧
      DefaultsTo op "Range" (1 / 2) a ∧ DefaultsTo op "Observations" (4 / 5) b ∧
      DefaultsTo op "Country Label" 1 c ∧ DefaultsTo op "State and City Labels" 1 d) ∧
    (∃ m4 a b c d,
      (useEffect_opacitySettings op p).map = some m4 ∧
      m4.log = m.log ++
        ((if (m.getLayer "speciesRangeLayer").isSome then
            [Call.setPaintProperty "speciesRangeLayer" "fill-opacity" a] else []) ++
         ((if (m.getLayer "observationsLayer").isSome then
            [Call.setPaintProperty "observationsLayer" "circle-opacity" b] else []) ++
          (p.countryLabelLayerIDs.map (fun id => Call.setPaintProperty id "text-opacity" c) ++
           p.otherLabelLayerIDs.map (fun id => Call.setPaintProperty id "text-opacity" d)))) ∧
      DefaultsTo op "Range" (1 / 2) a ∧ DefaultsTo op "Observations" (4 / 5) b ∧
      DefaultsTo op "Country Label" 1 c ∧ DefaultsTo op "State and City Labels" 1 d) := by
  have hR : DefaultsTo op "Range" (1 / 2) (truthyOr op "Range" (.num (mkRat 1 2))) := by
    rw [half_eq]
    exact truthyOr_defaultsTo op "Range" (1 / 2)
  have hO : DefaultsTo op "Observations" (4 / 5)
      (truthyOr op "Observations" (.num (mkRat 4 5))) := by
    rw [four_fifths_eq]
    exact truthyOr_defaultsTo op "Observations" (4 / 5)
  have hC := definedOr_defaultsTo op "Country Label" 1
  have hS := definedOr_defaultsTo op "State and City Labels" 1
  have pR : getProp (speciesRangeLayer op).paint "fill-opacity" =
      some (truthyOr op "Range" (.num (mkRat 1 2))) := by
    simp [speciesRangeLayer, getProp]
  have pO : getProp (observationsLayer op).paint "circle-opacity" =
      some (truthyOr op "Observations" (.num (mkRat 4 5))) := by
    simp [observationsLayer, getProp]
  refine ⟨?_, ?_, ?_, ?_⟩
  · intro range
    obtain ⟨cs, hlog, hcs⟩ := replaceOverlay_log m "speciesRange" "speciesRangeLayer"
      (.feature ⟨range, none⟩) (speciesRangeLayer op)
    refine ⟨_, cs, speciesRangeLayer op, _, ?_, hlog, hcs, pR, hR⟩
    simp only [fetchSpeciesRange, hm]
  · intro data features hd hf
    obtain ⟨cs, hlog, hcs⟩ := replaceOverlay_log m "observations" "observationsLayer"
      (.featureCollection features) (observationsLayer op)
    have hlen : ¬ data.length = 0 := by simpa using hd
    refine ⟨_, cs, observationsLayer op, _, ?_, hlog, hcs, pO, hO⟩
    simp only [fetchSpeciesObservations, hm, hlen, if_false, hf]
  · obtain ⟨m4, hmap, hlog⟩ := reAdd_log vis op p m hm
    exact ⟨m4, _, _, _, _, _, _, _, _, hmap, hlog, pR, pO, hR, hO, hC, hS⟩
  · obtain ⟨m4, hmap, hlog⟩ := opacity_effect_log op p m hm
    exact ⟨m4, _, _, _, _, hmap, hlog, hR, hO, hC, hS⟩

theorem default_opacities_witness :
    shownPanel.map = some shownMap ∧
    DefaultsTo none "Range" (1 / 2) (.num (1 / 2)) ∧
    ∃ m4 a b c d,
      (useEffect_opacitySettings none shownPanel).map = some m4 ∧
      m4.log = shownMap.log ++
        ((if (shownMap.getLayer "speciesRangeLayer").isSome then
            [Call.setPaintProperty "speciesRangeLayer" "fill-opacity" a] else []) ++
         ((if (shownMap.getLayer "observationsLayer").isSome then
            [Call.setPaintProperty "observationsLayer" "circle-opacity" b] else []) ++
          (shownPanel.countryLabelLayerIDs.map
              (fun id => Call.setPaintProperty id "text-opacity" c) ++
           shownPanel.otherLabelLayerIDs.map
              (fun id => Call.setPaintProperty id "text-opacity" d)))) ∧
      DefaultsTo none "Range" (1 / 2) a ∧ DefaultsTo none "Observations" (4 / 5) b ∧
      DefaultsTo none "Country Label" 1 c ∧ DefaultsTo none "State and City Labels" 1 d :=
  ⟨rfl, fun _ => rfl,
    (default_opacities sampleParse none none shownPanel shownMap rfl).2.2.2⟩

/-! ## C21, C25 and C26: the wire format of a species name -/

theorem replaceRuns_no_whiteSpace (inRun : Bool) (l : List Char) :
    ∀ c ∈ replaceRuns inRun l, isWhiteSpace c = false := by
  induction l generalizing inRun with
  | nil => simp [replaceRuns]
  | cons a rest ih =>
    intro c hc
    by_cases ha : isWhiteSpace a = true
    · cases inRun with
      | true =>
        simp only [replaceRuns, ha, if_true] at hc
        exact ih true c hc
      | false =>
        simp only [replaceRuns, ha, if_true, Bool.false_eq_true, if_false,
          List.mem_cons] at hc
        rcases hc with rfl | hc
        · decide
        · exact ih true c hc
    · have hf : isWhiteSpace a = false := by simpa using ha
      simp only [replaceRuns, hf, Bool.false_eq_true, if_false, List.mem_cons] at hc
      rcases hc with rfl | hc
      · exact hf
      · exact ih false c hc

theorem replaceRuns_of_no_whiteSpace (inRun : Bool) (l : List Char)
    (h : ∀ c ∈ l, isWhiteSpace c = false) : replaceRuns inRun l = l := by
  induction l generalizing inRun with
  | nil => rfl
  | cons a rest ih =>
    have ha : isWhiteSpace a = false := h a (List.mem_cons_self _ _)
    simp only [replaceRuns, ha, Bool.false_eq_true, if_false]
    rw [ih false (fun c hc => h c (List.mem_cons_of_mem _ hc))]

theorem formatSpeciesName_no_whiteSpace (s : String) :
    ∀ c ∈ (formatSpeciesName s).data, isWhiteSpace c = false :=
  replaceRuns_no_whiteSpace false s.data

theorem formatSpeciesName_formatSpeciesName (s : String) :
    formatSpeciesName (formatSpeciesName s) = formatSpeciesName s := by
  show (⟨replaceRuns false (formatSpeciesName s).data⟩ : String) = formatSpeciesName s
  rw [replaceRuns_of_no_whiteSpace false _ (formatSpeciesName_no_whiteSpace s)]

/-- C26: `formatSpeciesName` is idempotent, so the requests `fetchSpeciesRange`
and `fetchSpeciesObservations` send for a name that is already normalised carry
that name unchanged, and the response applied to the map is the one the API
gives for that name. -/
theorem formatSpeciesName_idempotent (s : String) :
    formatSpeciesName (formatSpeciesName s) = formatSpeciesName s ∧
    fetchSpeciesRange_request (formatSpeciesName s) = .range (formatSpeciesName s) ∧
    fetchSpeciesObservations_request (formatSpeciesName s) =
      .observations (formatSpeciesName s) ∧
    handleSearchSubmit s =
      (if s ≠ "" then [.range (formatSpeciesName s), .observations (formatSpeciesName s)]
       else []) ∧
    (∀ (api : Api) (op : Option Settings) (p : MapPanel),
      fetchSpeciesRangeFor api op (formatSpeciesName s) p =
        fetchSpeciesRange op (api.range (formatSpeciesName s)) p) ∧
    (∀ (api : Api) (jsonParse : String → Option Geometry) (op : Option Settings) (p : MapPanel),
      fetchSpeciesObservationsFor api jsonParse op (formatSpeciesName s) p =
        fetchSpeciesObservations jsonParse op (api.observations (formatSpeciesName s)) p) := by
  have h := formatSpeciesName_formatSpeciesName s
  refine ⟨h, ?_, ?_, ?_, ?_, ?_⟩
  · simp only [fetchSpeciesRange_request, h]
  · simp only [fetchSpeciesObservations_request, h]
  · simp only [handleSearchSubmit, fetchSpeciesRange_request,
      fetchSpeciesObservations_request, h]
  · intro api op p
    simp only [fetchSpeciesRangeFor, h]
  · intro api jsonParse op p
    simp only [fetchSpeciesObservationsFor, h]

theorem replaceRuns_map_underscore (inRun : Bool) (l : List Char)
    (hws : ∀ c ∈ l, isWhiteSpace c = false) (hu : ¬ ['_', '_'] <:+: l)
    (hrun : inRun = true → l.head? ≠ some '_') :
    replaceRuns inRun (l.map (fun c => if c = '_' then ' ' else c)) = l := by
  induction l generalizing inRun with
  | nil => rfl
  | cons a rest ih =>
    have hrest : ¬ ['_', '_'] <:+: rest := fun h => hu (List.infix_cons h)
    have hwsr : ∀ c ∈ rest, isWhiteSpace c = false :=
      fun c hc => hws c (List.mem_cons_of_mem _ hc)
    by_cases ha : a = '_'
    · subst ha
      have hf : inRun = false := by
        cases inRun with
        | false => rfl
        | true => exact absurd rfl (hrun rfl)
      subst hf
      have hsp : isWhiteSpace ' ' = true := by decide
      simp only [List.map_cons, if_true, replaceRuns, hsp, Bool.false_eq_true, if_false]
      rw [ih true hwsr hrest]
      intro _ hh
      cases rest with
      | nil => simp at hh
      | cons b r =>
        simp only [List.head?_cons, Option.some.injEq] at hh
        subst hh
        exact hu (List.IsPrefix.isInfix ⟨r, rfl⟩)
    · have hna : isWhiteSpace a = false := hws a (List.mem_cons_self _ _)
      simp only [List.map_cons, ha, if_false, replaceRuns, hna, Bool.false_eq_true]
      rw [ih false hwsr hrest (fun h => by cases h)]

/-- C25: on a name without white space and without two adjacent underscores,
`formatSpeciesName` undoes `formatSpeciesForSQL`; hence `handleSuggestionClick`
on a suggestion of that shape sends the suggestion's own species name in the
range and the observations request. -/
theorem suggestion_name_round_trip (s : String)
    (hws : ∀ c ∈ s.data, isWhiteSpace c = false) (hu : ¬ ['_', '_'] <:+: s.data) :
    formatSpeciesName (formatSpeciesForSQL s) = s ∧
    ∀ box : SearchBox,
      (handleSuggestionClick s box).2 = [.range s, .observations s] := by
  have h : formatSpeciesName (formatSpeciesForSQL s) = s := by
    show (⟨replaceRuns false (s.data.map (fun c => if c = '_' then ' ' else c))⟩ : String) = s
    rw [replaceRuns_map_underscore false s.data hws hu (fun h => by cases h)]
  have hs : formatSpeciesName s = s := by
    show (⟨replaceRuns false s.data⟩ : String) = s
    rw [replaceRuns_of_no_whiteSpace false s.data hws]
  refine ⟨h, fun box => ?_⟩
  simp only [handleSuggestionClick, fetchSpeciesRange_request,
    fetchSpeciesObservations_request, h, hs]

theorem suggestion_name_round_trip_witness :
    (∀ c ∈ "Pinus_ponderosa".data, isWhiteSpace c = false) ∧
    ¬ ['_', '_'] <:+: "Pinus_ponderosa".data ∧
    formatSpeciesForSQL "Pinus_ponderosa" = "Pinus ponderosa" ∧
    formatSpeciesName (formatSpeciesForSQL "Pinus_ponderosa") = "Pinus_ponderosa" ∧
    (handleSuggestionClick "Pinus_ponderosa" SearchBox.initial).2 =
      [.range "Pinus_ponderosa", .observations "Pinus_ponderosa"] :=
  ⟨by decide, by decide, by decide,
    (suggestion_name_round_trip "Pinus_ponderosa" (by decide) (by decide)).1,
    (suggestion_name_round_trip "Pinus_ponderosa" (by decide) (by decide)).2 SearchBox.initial⟩

theorem replaceRuns_true_of_head (rest : List Char)
    (hrest : ∀ c, rest.head? = some c → isWhiteSpace c = false) :
    replaceRuns true rest = replaceRuns false rest := by
  cases rest with
  | nil => rfl
  | cons a t =>
    have ha : isWhiteSpace a = false := hrest a rfl
    simp only [replaceRuns, ha, Bool.false_eq_true, if_false]

theorem replaceRuns_true_run (r rest : List Char) (hr : ∀ c ∈ r, isWhiteSpace c = true)
    (hrest : ∀ c, rest.head? = some c → isWhiteSpace c = false) :
    replaceRuns true (r ++ rest) = replaceRuns false rest := by
  induction r with
  | nil => exact replaceRuns_true_of_head rest hrest
  | cons a t ih =>
    have ha : isWhiteSpace a = true := hr a (List.mem_cons_self _ _)
    simp only [List.cons_append, replaceRuns, ha, if_true]
    exact ih (fun c hc => hr c (List.mem_cons_of_mem _ hc))

theorem replaceRuns_false_run (r rest : List Char) (hne : r ≠ [])
    (hr : ∀ c ∈ r, isWhiteSpace c = true)
    (hrest : ∀ c, rest.head? = some c → isWhiteSpace c = false) :
    replaceRuns false (r ++ rest) = '_' :: replaceRuns false rest := by
  cases r with
  | nil => exact absurd rfl hne
  | cons a t =>
    have ha : isWhiteSpace a = true := hr a (List.mem_cons_self _ _)
    simp only [List.cons_append, replaceRuns, ha, if_true, Bool.false_eq_true, if_false]
    exact congrArg (List.cons '_')
      (replaceRuns_true_run t rest (fun c hc => hr c (List.mem_cons_of_mem _ hc)) hrest)

theorem runsReplaced_unique (l out : List Char) (h : RunsReplaced l out) :
    out = replaceRuns false l := by
  induction h with
  | done => rfl
  | keep c rest out hc _ ih =>
    simp only [replaceRuns, hc, Bool.false_eq_true, if_false, ih]
  | run l r rest out hl hne hr hrest _ ih =>
    rw [hl, replaceRuns_false_run r rest hne hr hrest, ih]

theorem runsReplaced_replaceRuns (l : List Char) :
    RunsReplaced l (replaceRuns false l) ∧
    ∀ r : List Char, r ≠ [] → (∀ c ∈ r, isWhiteSpace c = true) →
      RunsReplaced (r ++ l) ('_' :: replaceRuns true l) := by
  induction l with
  | nil =>
    refine ⟨.done, fun r hne hr => ?_⟩
    exact .run _ r [] [] rfl hne hr (fun c hc => by cases hc) .done
  | cons a rest ih =>
    by_cases ha : isWhiteSpace a = true
    · refine ⟨?_, fun r hne hr => ?_⟩
      · have h := ih.2 [a] (by simp) (fun c hc => by
          rw [List.mem_singleton] at hc
          rw [hc]
          exact ha)
        simpa only [replaceRuns, ha, if_true, Bool.false_eq_true, if_false,
          List.singleton_append] using h
      · have h := ih.2 (r ++ [a]) (by simp) (fun c hc => by
          rw [List.mem_append, List.mem_singleton] at hc
          rcases hc with hc | hc
          · exact hr c hc
          · rw [hc]
            exact ha)
        simpa only [replaceRuns, ha, if_true, List.append_assoc, List.singleton_append] using h
    · have hf : isWhiteSpace a = false := by simpa using ha
      have hk : RunsReplaced (a :: rest) (a :: replaceRuns false rest) :=
        .keep a rest _ hf ih.1
      refine ⟨?_, fun r hne hr => ?_⟩
      · simpa only [replaceRuns, hf, Bool.false_eq_true, if_false] using hk
      · have h : RunsReplaced (r ++ a :: rest) ('_' :: a :: replaceRuns false rest) :=
          .run _ r (a :: rest) _ rfl hne hr (fun c hc => by
            simp only [List.head?_cons, Option.some.injEq] at hc
            rw [← hc]
            exact hf) hk
        simpa only [replaceRuns, hf, Bool.false_eq_true, if_false] using h

/-- C21: `formatSpeciesName(s)` contains no white space and is `s` with each
maximal run of white space replaced by one underscore and every other
character kept in order (it is the one string `RunsReplaced` relates to `s`);
the species in the requests of `handleSearchSubmit` and
`handleSuggestionClick` is the result of `formatSpeciesName` on the displayed
name, so it has this form. -/
theorem formatSpeciesName_wire_format (s : String) :
    (∀ c ∈ (formatSpeciesName s).data, isWhiteSpace c = false) ∧
    (∀ out : List Char, RunsReplaced s.data out ↔ out = (formatSpeciesName s).data) ∧
    handleSearchSubmit s =
      (if s ≠ "" then [.range (formatSpeciesName s), .observations (formatSpeciesName s)]
       else []) ∧
    (∀ box : SearchBox,
      (handleSuggestionClick s box).1.searchTerm = formatSpeciesForSQL s ∧
      (handleSuggestionClick s box).2 =
        [.range (formatSpeciesName (formatSpeciesForSQL s)),
         .observations (formatSpeciesName (formatSpeciesForSQL s))]) := by
  refine ⟨formatSpeciesName_no_whiteSpace s, fun out => ⟨?_, ?_⟩, ?_, fun box => ⟨rfl, ?_⟩⟩
  · exact runsReplaced_unique s.data out
  · intro h
    rw [h]
    exact (runsReplaced_replaceRuns s.data).1
  · simp only [handleSearchSubmit, fetchSpeciesRange_request,
      fetchSpeciesObservations_request, formatSpeciesName_formatSpeciesName]
  · simp only [handleSuggestionClick, fetchSpeciesRange_request,
      fetchSpeciesObservations_request, formatSpeciesName_formatSpeciesName]

/-! ## C22: the species value of the download URLs -/

theorem formatSpeciesForSQL_no_underscore (s : String) :
    ∀ c ∈ (formatSpeciesForSQL s).data, c ≠ '_' := by
  intro c hc
  simp only [formatSpeciesForSQL, List.mem_map] at hc
  obtain ⟨a, -, rfl⟩ := hc
  by_cases ha : a = '_'
  · rw [if_pos ha]
    decide
  · rw [if_neg ha]
    exact ha

theorem formatSpeciesForSQL_whiteSpace (s : String)
    (hs : ∀ c ∈ s.data, isWhiteSpace c = false) :
    ∀ c ∈ (formatSpeciesForSQL s).data, isWhiteSpace c = true → c = ' ' := by
  intro c hc hw
  simp only [formatSpeciesForSQL, List.mem_map] at hc
  obtain ⟨a, hmem, rfl⟩ := hc
  by_cases ha : a = '_'
  · simp only [ha, if_true]
  · simp only [ha, if_false] at hw
    rw [hs a hmem] at hw
    cases hw

/-- C22, evaluated where it fails: the search term "Pinus ponderosa" and the
traits button.  `formatSpeciesForSQL` is applied to the wire-format name, so
the species value of the traits URL is the name with the space, while the
observations and range URLs carry the name with the underscore. -/
theorem traits_download_sends_display_name :
    (handleDownloadButtonClick "traits" "Pinus ponderosa" Menus.initial).2 =
      some ⟨"/api/download/traits", "Pinus ponderosa"⟩ ∧
    ' ' ∈ "Pinus ponderosa".data ∧
    (handleDownloadButtonClick "observations" "Pinus ponderosa" Menus.initial).2 =
      some ⟨"/api/download/observations", "Pinus_ponderosa"⟩ ∧
    (handleDownloadButtonClick "rangeshape" "Pinus ponderosa" Menus.initial).2 =
      some ⟨"/api/download/range", "Pinus_ponderosa"⟩ := by
  decide

/-- C22, amended: for every search term the species value of the observations
and of the range download URL is the name in wire format,
`formatSpeciesName(searchTerm)`, which contains no white space; the species
value of the traits download URL is that name in display format,
`formatSpeciesForSQL(formatSpeciesName(searchTerm))`: it contains no
underscore and its only white space is the space. -/
theorem download_urls_species (searchTerm : String) (s : Menus) :
    (handleDownloadButtonClick "observations" searchTerm s).2 =
      some ⟨"/api/download/observations", formatSpeciesName searchTerm⟩ ∧
    (handleDownloadButtonClick "rangeshape" searchTerm s).2 =
      some ⟨"/api/download/range", formatSpeciesName searchTerm⟩ ∧
    (handleDownloadButtonClick "traits" searchTerm s).2 =
      some ⟨"/api/download/traits", formatSpeciesForSQL (formatSpeciesName searchTerm)⟩ ∧
    (∀ c ∈ (formatSpeciesName searchTerm).data, isWhiteSpace c = false) ∧
    (∀ c ∈ (formatSpeciesForSQL (formatSpeciesName searchTerm)).data, c ≠ '_') ∧
    (∀ c ∈ (formatSpeciesForSQL (formatSpeciesName searchTerm)).data,
      isWhiteSpace c = true → c = ' ') :=
  ⟨by simp [handleDownloadButtonClick], by simp [handleDownloadButtonClick],
    by simp [handleDownloadButtonClick], formatSpeciesName_no_whiteSpace searchTerm,
    formatSpeciesForSQL_no_underscore _,
    formatSpeciesForSQL_whiteSpace _ (formatSpeciesName_no_whiteSpace searchTerm)⟩

/-! ## C23: two clicks on the page's visibility handler -/

/-- C23, evaluated where it fails: the initial page state and the layer name
'State and City Labels'.  The initial settings have no such key, so the layer
counts as visible; the first `!prev[section]` stores `true`, the second stores
`false`, and after two calls the layer is hidden.  For 'Range', whose key is
present, two calls restore the visibility. -/
theorem double_toggle_hides_absent_layer :
    getProp Home.initial.visibilitySettings "State and City Labels" = none ∧
    Home.initial.isVisible "State and City Labels" = true ∧
    getProp (Home.initial.handleVisibilityChange
      "State and City Labels").visibilitySettings "State and City Labels" = some (.bool true) ∧
    getProp ((Home.initial.handleVisibilityChange "State and City Labels").handleVisibilityChange
      "State and City Labels").visibilitySettings "State and City Labels" = some (.bool false) ∧
    ((Home.initial.handleVisibilityChange "State and City Labels").handleVisibilityChange
      "State and City Labels").isVisible "State and City Labels" = false ∧
    ((Home.initial.handleVisibilityChange "Range").handleVisibilityChange
      "Range").isVisible "Range" = Home.initial.isVisible "Range" := by
  decide

/-! ## C24: the `addLayer` calls of a terrain toggle -/

/-- C24, evaluated where it fails: both overlays are shown and the terrain
button is clicked.  The permanent `style.load` listener re-adds both overlay
layers; the one-time listener the click registered then runs
`reAddLayersAndSettings` again, so `addLayer` is called a second time for
each overlay layer while the layer with that ID exists. -/
theorem terrain_toggle_adds_overlay_layers_twice :
    ∃ m1 m2, shownPanel.map = some shownMap ∧ shownMap.log = [] ∧
      (shownMap.getSource "speciesRange").isSome = true ∧
      (shownMap.getSource "observations").isSome = true ∧
      (onStyleLoad none none
        { shownPanel with map := some (shownMap.setStyle sampleStyle.layers) }).map = some m1 ∧
      (terrainToggle sampleStyle.layers none none shownPanel).map = some m2 ∧
      m1.log.countP (Call.isAddLayerOf "speciesRangeLayer") = 1 ∧
      m1.log.countP (Call.isAddLayerOf "observationsLayer") = 1 ∧
      (m1.getLayer "speciesRangeLayer").isSome = true ∧
      (m1.getLayer "observationsLayer").isSome = true ∧
      m1.log <+: m2.log ∧
      m2.log.countP (Call.isAddLayerOf "speciesRangeLayer") = 2 ∧
      m2.log.countP (Call.isAddLayerOf "observationsLayer") = 2 :=
  ⟨_, _, rfl, rfl, by decide, by decide, rfl, rfl, by decide, by decide, by decide, by decide,
    by decide, by decide, by decide⟩

/-! ## C27: the opacity the opacity effect applies -/

theorem truthyOr_of_nonzero (op : Option Settings) (name : String) (d : JsVal) (v : ℚ)
    (h : entry op name = some (.num v)) (hv : v ≠ 0) : truthyOr op name d = .num v := by
  cases op with
  | none => simp [entry] at h
  | some o =>
    simp only [entry, Option.some_bind] at h
    simp [truthyOr, h, JsVal.truthy, hv]

theorem truthyOr_of_inRange (op : Option Settings) (name : String) (d x : JsVal)
    (hr : OpacityInRange op name) (h : entry op name = some x) : truthyOr op name d = x := by
  obtain ⟨q, rfl, hq, -⟩ := hr x h
  have hq0 : q ≠ 0 := by
    intro h0
    rw [h0] at hq
    norm_num at hq
  exact truthyOr_of_nonzero op name d q h hq0

theorem definedOr_of_entry (op : Option Settings) (name : String) (d x : JsVal)
    (h : entry op name = some x) : definedOr op name d = x := by
  cases op with
  | none => simp [entry] at h
  | some o =>
    simp only [entry, Option.some_bind] at h
    simp [definedOr, h]

/-- Every opacity the page holds is a number in `[0.1, 1.0]`: the initial
values are 1 and a slider move stores a value of the slider's range. -/
theorem opacityInRange_of_reachable (h : Home) (hr : h.Reachable) (name : String) :
    OpacityInRange (some h.opacitySettings) name := by
  induction hr with
  | initial =>
    intro x hx
    have h1 : x = .num 1 := by
      simp only [entry, Option.some_bind, Home.initial, getProp] at hx
      split_ifs at hx <;> simp_all
    exact ⟨1, h1, by norm_num, by norm_num⟩
  | visibilityChange h item _ _ ih => exact ih
  | opacityChange h item v _ _ hlo hhi ih =>
    intro x hx
    simp only [entry, Option.some_bind, Home.handleOpacityChange] at hx
    by_cases hn : name = item
    · rw [hn, getProp_setProp_same] at hx
      exact ⟨v, (Option.some.inj hx).symm, hlo, hhi⟩
    · rw [getProp_setProp_other _ _ _ _ hn] at hx
      exact ih x hx

/-- Outside the data model: when the settings store 0 for Range, Observations
and Country Label while both overlays are shown, the effect passes the
defaults 0.5 and 0.8 for the two overlay layers, whose value it tests for
truthiness, and the stored 0 for the country label layer, whose value it tests
against `undefined`. -/
theorem zero_opacity_applied_as_default :
    entry (some zeroOpacity) "Range" = some (.num 0) ∧
    entry (some zeroOpacity) "Observations" = some (.num 0) ∧
    entry (some zeroOpacity) "Country Label" = some (.num 0) ∧
    shownMap.log = [] ∧
    ∃ m4, (useEffect_opacitySettings (some zeroOpacity) shownPanel).map = some m4 ∧
      m4.log =
        [.setPaintProperty "speciesRangeLayer" "fill-opacity" (.num (1 / 2)),
         .setPaintProperty "observationsLayer" "circle-opacity" (.num (4 / 5)),
         .setPaintProperty "country-label" "text-opacity" (.num 0),
         .setPaintProperty "settlement-Label" "text-opacity" (.num 1)] := by
  refine ⟨by decide, by decide, by decide, rfl, _, rfl, ?_⟩
  rw [← half_eq, ← four_fifths_eq]
  decide

/-- C27: for every opacity settings and each of the four layer names whose key
is present, the value the opacity effect passes to `setPaintProperty` for the
layers of that name is the stored value.  For Country Label and State and City
Labels this holds for every stored value, 0 included; for Range and
Observations, whose value the effect tests for truthiness, it holds for the
values of the data model, numbers in [0.1, 1.0], which are the values the page
stores (`opacityInRange_of_reachable`).  The calls are those for the overlay
layers that exist and for the cached label layer IDs. -/
theorem opacity_effect_applies_stored_value (op : Option Settings) (p : MapPanel)
    (m : MapEngine) (hm : p.map = some m)
    (hR : OpacityInRange op "Range") (hO : OpacityInRange op "Observations") :
    ∃ m4 a b c d,
      (useEffect_opacitySettings op p).map = some m4 ∧
      m4.log = m.log ++
        ((if (m.getLayer "speciesRangeLayer").isSome then
            [Call.setPaintProperty "speciesRangeLayer" "fill-opacity" a] else []) ++
         ((if (m.getLayer "observationsLayer").isSome then
            [Call.setPaintProperty "observationsLayer" "circle-opacity" b] else []) ++
          (p.countryLabelLayerIDs.map (fun id => Call.setPaintProperty id "text-opacity" c) ++
           p.otherLabelLayerIDs.map (fun id => Call.setPaintProperty id "text-opacity" d)))) ∧
      (∀ x, entry op "Range" = some x → a = x) ∧
      (∀ x, entry op "Observations" = some x → b = x) ∧
      (∀ x, entry op "Country Label" = some x → c = x) ∧
      (∀ x, entry op "State and City Labels" = some x → d = x) := by
  obtain ⟨m4, h4, hlog⟩ := opacity_effect_log op p m hm
  exact ⟨m4, _, _, _, _, h4, hlog,
    fun x h => truthyOr_of_inRange op "Range" _ x hR h,
    fun x h => truthyOr_of_inRange op "Observations" _ x hO h,
    fun x h => definedOr_of_entry op "Country Label" _ x h,
    fun x h => definedOr_of_entry op "State and City Labels" _ x h⟩

theorem opacity_effect_applies_stored_value_witness :
    Home.Reachable (Home.initial.handleOpacityChange "Range" (3 / 10)) ∧
    shownPanel.map = some shownMap ∧
    entry (some (Home.initial.handleOpacityChange "Range" (3 / 10)).opacitySettings) "Range" =
      some (.num (3 / 10)) ∧
    ∃ m4 a b c d,
      (useEffect_opacitySettings
        (some (Home.initial.handleOpacityChange "Range" (3 / 10)).opacitySettings)
        shownPanel).map = some m4 ∧
      m4.log = shownMap.log ++
        ((if (shownMap.getLayer "speciesRangeLayer").isSome then
            [Call.setPaintProperty "speciesRangeLayer" "fill-opacity" a] else []) ++
         ((if (shownMap.getLayer "observationsLayer").isSome then
            [Call.setPaintProperty "observationsLayer" "circle-opacity" b] else []) ++
          (shownPanel.countryLabelLayerIDs.map
              (fun id => Call.setPaintProperty id "text-opacity" c) ++
           shownPanel.otherLabelLayerIDs.map
              (fun id => Call.setPaintProperty id "text-opacity" d)))) ∧
      (∀ x, entry (some (Home.initial.handleOpacityChange "Range" (3 / 10)).opacitySettings)
        "Range" = some x → a = x) ∧
      (∀ x, entry (some (Home.initial.handleOpacityChange "Range" (3 / 10)).opacitySettings)
        "Observations" = some x → b = x) ∧
      (∀ x, entry (some (Home.initial.handleOpacityChange "Range" (3 / 10)).opacitySettings)
        "Country Label" = some x → c = x) ∧
      (∀ x, entry (some (Home.initial.handleOpacityChange "Range" (3 / 10)).opacitySettings)
        "State and City Labels" = some x → d = x) :=
  ⟨.opacityChange _ _ _ .initial (by decide) (by norm_num) (by norm_num), rfl,
    getProp_setProp_same _ _ _,
    opacity_effect_applies_stored_value _ shownPanel shownMap rfl
      (opacityInRange_of_reachable _
        (.opacityChange _ _ _ .initial (by decide) (by norm_num) (by norm_num)) "Range")
      (opacityInRange_of_reachable _
        (.opacityChange _ _ _ .initial (by decide) (by norm_num) (by norm_num)) "Observations")⟩

/-! ## The observations layer and its source in the reachable states -/

theorem observationsPaired_of_no_layer (m : MapEngine)
    (h : m.getLayer "observationsLayer" = none) : ObservationsPaired m := by
  intro hl
  rw [h] at hl
  cases hl

theorem observationsPaired_of_source (m : MapEngine)
    (h : (m.getSource "observations").isSome = true) : ObservationsPaired m :=
  fun _ => h

theorem getLayer_isSome_iff_mem_ids (m : MapEngine) (id : String) :
    (m.getLayer id).isSome = true ↔ id ∈ m.layers.map (fun l => l.id) := by
  rw [getLayer_isSome_iff, List.mem_map]

theorem observationsPaired_of_same_ids (m m2 : MapEngine) (hs : m2.sources = m.sources)
    (hl : m2.layers.map (fun l => l.id) = m.layers.map (fun l => l.id))
    (h : ObservationsPaired m) : ObservationsPaired m2 := by
  intro h2
  rw [getLayer_isSome_iff_mem_ids, hl, ← getLayer_isSome_iff_mem_ids] at h2
  rw [getSource_congr m m2 hs]
  exact h h2

theorem ids_setLayoutProperty (m : MapEngine) (a n : String) (v : LayoutVal) :
    (m.setLayoutProperty a n v).layers.map (fun l => l.id) = m.layers.map (fun l => l.id) := by
  simp only [MapEngine.setLayoutProperty, List.map_map]
  apply List.map_congr_left
  intro l _
  simp only [Function.comp]
  split <;> rfl

theorem ids_setPaintProperty (m : MapEngine) (a n : String) (v : JsVal) :
    (m.setPaintProperty a n v).layers.map (fun l => l.id) = m.layers.map (fun l => l.id) := by
  simp only [MapEngine.setPaintProperty, List.map_map]
  apply List.map_congr_left
  intro l _
  simp only [Function.comp]
  split <;> rfl

theorem ids_foldl (step : MapEngine → String → MapEngine)
    (hstep : ∀ m a, (step m a).layers.map (fun l => l.id) = m.layers.map (fun l => l.id))
    (ids : List String) (m : MapEngine) :
    (ids.foldl step m).layers.map (fun l => l.id) = m.layers.map (fun l => l.id) := by
  induction ids generalizing m with
  | nil => rfl
  | cons a t ih => rw [List.foldl_cons, ih, hstep]

theorem ids_ite (c : Prop) [Decidable c] (m m2 : MapEngine)
    (h : m2.layers.map (fun l => l.id) = m.layers.map (fun l => l.id)) :
    (if c then m2 else m).layers.map (fun l => l.id) = m.layers.map (fun l => l.id) := by
  split
  · exact h
  · rfl

theorem sources_ite (c : Prop) [Decidable c] (m m2 : MapEngine) (h : m2.sources = m.sources) :
    (if c then m2 else m).sources = m.sources := by
  split
  · exact h
  · rfl

theorem observationsPaired_visibility_effect (vis : Option Settings) (p : MapPanel)
    (m : MapEngine) (hm : p.map = some m) (h : ObservationsPaired m) :
    ∃ m4, (useEffect_visibilitySettings vis p).map = some m4 ∧ ObservationsPaired m4 := by
  obtain ⟨m1, m2, m3, m4, heff, h1, h2, h3, h4⟩ := visibility_effect_unfold vis p m hm
  refine ⟨m4, by rw [heff], ?_⟩
  have i1 := ids_ite ((m.getLayer "speciesRangeLayer").isSome = true) m _
    (ids_setLayoutProperty m "speciesRangeLayer" "visibility" (visibilityOf vis "Range"))
  have s1 := sources_ite ((m.getLayer "speciesRangeLayer").isSome = true) m
    (m.setLayoutProperty "speciesRangeLayer" "visibility" (visibilityOf vis "Range")) rfl
  rw [← h1] at i1 s1
  have i2 := ids_ite ((m1.getLayer "observationsLayer").isSome = true) m1 _
    (ids_setLayoutProperty m1 "observationsLayer" "visibility"
      (visibilityOf vis "Observations"))
  have s2 := sources_ite ((m1.getLayer "observationsLayer").isSome = true) m1
    (m1.setLayoutProperty "observationsLayer" "visibility" (visibilityOf vis "Observations")) rfl
  rw [← h2] at i2 s2
  have i3 := ids_ite (p.countryLabelLayerIDs.length > 0) m2 _
    (ids_foldl (fun m layerID =>
      m.setLayoutProperty layerID "visibility" (visibilityOf vis "Country Label"))
      (fun m a => ids_setLayoutProperty m a _ _) p.countryLabelLayerIDs m2)
  have s3 := sources_ite (p.countryLabelLayerIDs.length > 0) m2 _
    (sources_foldl_update (fun m layerID =>
      m.setLayoutProperty layerID "visibility" (visibilityOf vis "Country Label"))
      (fun _ _ => rfl) p.countryLabelLayerIDs m2)
  rw [← h3] at i3 s3
  have i4 := ids_ite (p.otherLabelLayerIDs.length > 0) m3 _
    (ids_foldl (fun m layerID =>
      m.setLayoutProperty layerID "visibility" (visibilityOf vis "State and City Labels"))
      (fun m a => ids_setLayoutProperty m a _ _) p.otherLabelLayerIDs m3)
  have s4 := sources_ite (p.otherLabelLayerIDs.length > 0) m3 _
    (sources_foldl_update (fun m layerID =>
      m.setLayoutProperty layerID "visibility" (visibilityOf vis "State and City Labels"))
      (fun _ _ => rfl) p.otherLabelLayerIDs m3)
  rw [← h4] at i4 s4
  exact observationsPaired_of_same_ids m m4 (by rw [s4, s3, s2, s1]) (by rw [i4, i3, i2, i1]) h

theorem observationsPaired_opacity_effect (op : Option Settings) (p : MapPanel)
    (m : MapEngine) (hm : p.map = some m) (h : ObservationsPaired m) :
    ∃ m4, (useEffect_opacitySettings op p).map = some m4 ∧ ObservationsPaired m4 := by
  obtain ⟨m1, m2, m3, m4, heff, h1, h2, h3, h4⟩ := opacity_effect_unfold op p m hm
  refine ⟨m4, by rw [heff], ?_⟩
  have i1 := ids_ite ((m.getLayer "speciesRangeLayer").isSome = true) m _
    (ids_setPaintProperty m "speciesRangeLayer" "fill-opacity"
      (truthyOr op "Range" (.num (mkRat 1 2))))
  have s1 := sources_ite ((m.getLayer "speciesRangeLayer").isSome = true) m
    (m.setPaintProperty "speciesRangeLayer" "fill-opacity"
      (truthyOr op "Range" (.num (mkRat 1 2)))) rfl
  rw [← h1] at i1 s1
  have i2 := ids_ite ((m1.getLayer "observationsLayer").isSome = true) m1 _
    (ids_setPaintProperty m1 "observationsLayer" "circle-opacity"
      (truthyOr op "Observations" (.num (mkRat 4 5))))
  have s2 := sources_ite ((m1.getLayer "observationsLayer").isSome = true) m1
    (m1.setPaintProperty "observationsLayer" "circle-opacity"
      (truthyOr op "Observations" (.num (mkRat 4 5)))) rfl
  rw [← h2] at i2 s2
  have i3 := ids_ite (p.countryLabelLayerIDs.length > 0) m2 _
    (ids_foldl (fun m layerID =>
      m.setPaintProperty layerID "text-opacity" (definedOr op "Country Label" (.num 1)))
      (fun m a => ids_setPaintProperty m a _ _) p.countryLabelLayerIDs m2)
  have s3 := sources_ite (p.countryLabelLayerIDs.length > 0) m2 _
    (sources_foldl_update (fun m layerID =>
      m.setPaintProperty layerID "text-opacity" (definedOr op "Country Label" (.num 1)))
      (fun _ _ => rfl) p.countryLabelLayerIDs m2)
  rw [← h3] at i3 s3
  have i4 := ids_ite (p.otherLabelLayerIDs.length > 0) m3 _
    (ids_foldl (fun m layerID =>
      m.setPaintProperty layerID "text-opacity"
        (definedOr op "State and City Labels" (.num 1)))
      (fun m a => ids_setPaintProperty m a _ _) p.otherLabelLayerIDs m3)
  have s4 := sources_ite (p.otherLabelLayerIDs.length > 0) m3 _
    (sources_foldl_update (fun m layerID =>
      m.setPaintProperty layerID "text-opacity"
        (definedOr op "State and City Labels" (.num 1)))
      (fun _ _ => rfl) p.otherLabelLayerIDs m3)
  rw [← h4] at i4 s4
  exact observationsPaired_of_same_ids m m4 (by rw [s4, s3, s2, s1]) (by rw [i4, i3, i2, i1]) h

theorem getLayer_addLayer_other (m : MapEngine) (layer : Layer) (id : String)
    (hne : layer.id ≠ id) (h : ((m.addLayer layer).getLayer id).isSome = true) :
    (m.getLayer id).isSome = true := by
  rw [getLayer_isSome_iff_mem_ids] at h ⊢
  rw [addLayer_layers] at h
  split at h
  · exact h
  · rw [List.map_append, List.mem_append] at h
    rcases h with h | h
    · exact h
    · simp only [List.map_cons, List.map_nil, List.mem_singleton] at h
      exact absurd h.symm hne

theorem ids_applyLabelSettings (m : MapEngine) (ids : List String) (v : LayoutVal) (o : JsVal) :
    (applyLabelSettings m ids v o).layers.map (fun l => l.id) = m.layers.map (fun l => l.id) :=
  ids_foldl (fun m layerID =>
    (m.setLayoutProperty layerID "visibility" v).setPaintProperty layerID "text-opacity" o)
    (fun m a => by rw [ids_setPaintProperty, ids_setLayoutProperty]) ids m

theorem observationsPaired_reAdd (vis op : Option Settings) (p : MapPanel)
    (m : MapEngine) (hm : p.map = some m) (h : ObservationsPaired m) :
    ∃ m4, (reAddLayersAndSettings vis op p).map = some m4 ∧ ObservationsPaired m4 := by
  obtain ⟨m2, m3, m4, hre, h2, h3, h4⟩ := reAdd_unfold vis op p m hm
  refine ⟨m4, by rw [hre], ?_⟩
  have i2 : m2.layers.map (fun l => l.id) = m.layers.map (fun l => l.id) := by
    rw [h2, ids_applyLabelSettings, ids_applyLabelSettings]
  have s2 : m2.sources = m.sources := by
    rw [h2, applyLabelSettings_sources, applyLabelSettings_sources]
  have p2 : ObservationsPaired m2 := observationsPaired_of_same_ids m m2 s2 i2 h
  have s3 : m3.sources = m2.sources := by
    rw [h3]
    split
    · rw [addLayer_sources]
    · rfl
  have p3 : ObservationsPaired m3 := by
    intro hl
    rw [getSource_congr m2 m3 s3]
    apply p2
    rw [h3] at hl
    split at hl
    · have hne : (speciesRangeLayer op).id ≠ "observationsLayer" := by
        show "speciesRangeLayer" ≠ "observationsLayer"
        decide
      exact getLayer_addLayer_other m2 (speciesRangeLayer op) "observationsLayer" hne hl
    · exact hl
  by_cases hs : (m3.getSource "observations").isSome = true
  · have s4 : m4.sources = m3.sources := by
      rw [h4, if_pos hs, addLayer_sources]
    exact observationsPaired_of_source m4 (by rw [getSource_congr m3 m4 s4]; exact hs)
  · rw [h4, if_neg hs]
    exact p3

theorem observationsPaired_fetchSpeciesRange (op : Option Settings) (res : Response Geometry)
    (p : MapPanel) (h : ∀ m, p.map = some m → ObservationsPaired m) :
    ∀ m, (fetchSpeciesRange op res p).map = some m → ObservationsPaired m := by
  cases res with
  | ok range =>
    cases hm : p.map with
    | none =>
      intro m3 h3
      simp [fetchSpeciesRange, hm] at h3
    | some m =>
      obtain ⟨m3, h3, hs, hl⟩ := fetchSpeciesRange_ok op range p m hm
      intro m3' h3'
      rw [h3] at h3'
      cases h3'
      intro hlay
      have hlay0 : (m.getLayer "observationsLayer").isSome = true := by
        rw [getLayer_isSome_iff] at hlay ⊢
        obtain ⟨l, hmem, hid⟩ := hlay
        rw [hl] at hmem
        have hne : l ≠ speciesRangeLayer op := by
          intro e
          rw [e] at hid
          have hne : (speciesRangeLayer op).id ≠ "observationsLayer" := by
            show "speciesRangeLayer" ≠ "observationsLayer"
            decide
          exact hne hid
        split at hmem
        · rw [List.mem_append, List.mem_singleton] at hmem
          rcases hmem with hmem | hmem
          · exact ⟨l, (List.mem_filter.mp hmem).1, hid⟩
          · exact absurd hmem hne
        · split at hmem
          · exact ⟨l, hmem, hid⟩
          · rw [List.mem_append, List.mem_singleton] at hmem
            rcases hmem with hmem | hmem
            · exact ⟨l, hmem, hid⟩
            · exact absurd hmem hne
      have hsrc := h m hm hlay0
      rw [getSource_isSome_iff] at hsrc ⊢
      obtain ⟨s, hmem, hid⟩ := hsrc
      refine ⟨s, ?_, hid⟩
      rw [hs, List.mem_append]
      left
      rw [List.mem_filter]
      refine ⟨hmem, ?_⟩
      rw [hid]
      decide
  | networkError => exact h
  | httpError status => exact h
  | badJson => exact h

theorem observationsPaired_fetchSpeciesObservations (jsonParse : String → Option Geometry)
    (op : Option Settings) (res : Response (List ObsRecord)) (p : MapPanel)
    (h : ∀ m, p.map = some m → ObservationsPaired m) :
    ∀ m, (fetchSpeciesObservations jsonParse op res p).map = some m → ObservationsPaired m := by
  cases res with
  | ok data =>
    cases hm : p.map with
    | none =>
      intro m3 h3
      simp [fetchSpeciesObservations, hm] at h3
    | some m =>
      by_cases hd : data = []
      · obtain ⟨m1, h1, -, hl⟩ := removeOverlay_spec m "observations" "observationsLayer"
        intro m3 h3
        have e : m3 = m1 := by
          simp [fetchSpeciesObservations, hm, hd, h1, caught] at h3
          exact h3.symm
        rw [e]
        apply observationsPaired_of_no_layer
        by_cases hsrc : (m.getSource "observations").isSome = true
        · simp [MapEngine.getLayer, hl, hsrc, List.find?_eq_none]
        · have h2 : ¬ (m.getLayer "observationsLayer").isSome = true :=
            fun e2 => hsrc (h m hm e2)
          rw [if_neg hsrc] at hl
          simpa [MapEngine.getLayer, hl] using h2
      · cases hf : buildFeatures jsonParse data with
        | none =>
          have hlen : ¬ data.length = 0 := by simpa using hd
          have e : fetchSpeciesObservations jsonParse op (.ok data) p = p := by
            simp only [fetchSpeciesObservations, hm, hlen, if_false, hf]
          rw [e, hm]
          intro m3 h3
          exact h m3 (by rw [hm]; exact h3)
        | some features =>
          obtain ⟨m3, h3, hs, -⟩ :=
            fetchSpeciesObservations_ok jsonParse op data features p m hm hd hf
          intro m3' h3'
          rw [h3] at h3'
          cases h3'
          apply observationsPaired_of_source
          rw [getSource_isSome_iff]
          exact ⟨⟨"observations", .featureCollection features⟩, by rw [hs]; simp, rfl⟩
  | networkError => exact h
  | httpError status => exact h
  | badJson => exact h

theorem observationsPaired_of_noOverlayLayers (sources : List Source) (style : List Layer)
    (log : List Call) (h : NoOverlayLayers style) :
    ObservationsPaired { sources := sources, layers := style, log := log } := by
  intro hl
  rw [getLayer_isSome_iff] at hl
  obtain ⟨l, hmem, hid⟩ := hl
  exact absurd hid (h l hmem).2

/-- In every state the component reaches, the layer `observationsLayer` is on
the map only together with the source `observations`: the layer is added only
after `addSource` or under the `getSource` guard, the source is removed only
after the layer, and a basemap style brings no such layer. -/
theorem observationsPaired_of_reachable (p : MapPanel) (hr : p.Reachable) :
    ∀ m, p.map = some m → ObservationsPaired m := by
  induction hr with
  | created sources style hstyle =>
    intro m hm
    cases hm
    exact observationsPaired_of_noOverlayLayers sources style [] hstyle
  | styleLoaded vis op p _ ih =>
    intro m4 h4
    cases hm : p.map with
    | none => simp [reAddLayersAndSettings, hm] at h4
    | some m =>
      obtain ⟨m4', h4', hp⟩ := observationsPaired_reAdd vis op p m hm (ih m hm)
      rw [h4'] at h4
      cases h4
      exact hp
  | rangeArrived op res p _ ih => exact observationsPaired_fetchSpeciesRange op res p ih
  | observationsArrived jsonParse op res p _ ih =>
    exact observationsPaired_fetchSpeciesObservations jsonParse op res p ih
  | visibilityChanged vis p _ ih =>
    intro m4 h4
    cases hm : p.map with
    | none => simp [useEffect_visibilitySettings, hm] at h4
    | some m =>
      obtain ⟨m4', h4', hp⟩ := observationsPaired_visibility_effect vis p m hm (ih m hm)
      rw [h4'] at h4
      cases h4
      exact hp
  | opacityChanged op p _ ih =>
    intro m4 h4
    cases hm : p.map with
    | none => simp [useEffect_opacitySettings, hm] at h4
    | some m =>
      obtain ⟨m4', h4', hp⟩ := observationsPaired_opacity_effect op p m hm (ih m hm)
      rw [h4'] at h4
      cases h4
      exact hp
  | styleSwapped newStyle p m _ _ hstyle _ =>
    intro m2 h2
    cases h2
    exact observationsPaired_of_noOverlayLayers m.sources newStyle m.log hstyle
end Biendata
